import Mathlib

/-!
# liveMediaStreamer: the pipeline manager

A shallow embedding of `src/PipelineManager.cpp`.

* Objects live on a heap and are named by their address (`Ptr`, `0` is the null
  pointer).  The three tables of the manager are `std::map<int, T*>`: ordered
  association lists from integer ids to addresses.
* A function that can dereference a null or dangling pointer (or read the first
  element of an empty vector) returns `Option`: `none` is undefined behaviour.
* `World.calls` is a ghost trace of the wiring calls made on filters.
-/

set_option autoImplicit false

namespace LMS

/-- Address of a heap object; `0` is the null pointer. -/
abbrev Ptr := Nat

/-- The table type `std::map<int, T*>`: entries in key order. -/
abbrev Table := List (Int × Ptr)

namespace Table

/-- Lookup by key (`std::map::find`). -/
def find : Table → Int → Option Ptr
  | [], _ => none
  | (k', p) :: r, k => if k' = k then some p else find r k

/-- Number of entries with key `k` (`std::map::count`). -/
def count (t : Table) (k : Int) : Nat :=
  match find t k with
  | some _ => 1
  | none => 0

/-- Insert or overwrite the entry of key `k`, keeping key order (`m[k] = p`). -/
def insert : Table → Int → Ptr → Table
  | [], k, p => [(k, p)]
  | (k', p') :: r, k, p =>
    if k < k' then (k, p) :: (k', p') :: r
    else if k = k' then (k, p) :: r
    else (k', p') :: insert r k p

/-- Remove the entry of key `k` (`std::map::erase`). -/
def erase (t : Table) (k : Int) : Table :=
  t.filter (fun e => decide (e.1 ≠ k))

/-- Reading `m[k]`: the stored pointer, or a null pointer that is inserted
under `k` when the key is absent (`std::map::operator[]`). -/
def index (t : Table) (k : Int) : Ptr × Table :=
  match find t k with
  | some p => (p, t)
  | none => (0, insert t k 0)

/-- The keys of the table, in iteration order. -/
def keys (t : Table) : List Int := t.map Prod.fst

end Table

/-- Filter type tags (`FilterType`), with the two endpoint kinds. -/
inductive FilterType where
  | VIDEO_DECODER
  | VIDEO_ENCODER
  | VIDEO_MIXER
  | VIDEO_RESAMPLER
  | AUDIO_DECODER
  | AUDIO_ENCODER
  | AUDIO_MIXER
  | RECEIVER
  | TRANSMITTER
  deriving DecidableEq, Repr

/-- Modelled from the spec: the class `BaseFilter` (Filter.hh/Filter.cpp are not
under src/).  Section 3 gives a filter a type tag, an optional worker ID, a map
reader port ID -> queue, a map writer port ID -> queue and the generated next
reader/writer IDs.  The worker ID is `-1` while the filter is unassigned. -/
structure BaseFilter where
  fType : FilterType
  workerId : Int
  readers : Table
  writers : Table
  nextReaderID : Int
  nextWriterID : Int
  deriving DecidableEq, Repr

/-- Modelled from the spec: the part of `FrameQueue` fixed at wiring time
(FrameQueue.hh is not under src/): the shared flag of section 3. -/
structure FrameQueue where
  shared : Bool
  deriving DecidableEq, Repr

/-- The worker disciplines of section 4.4, and the live-media worker that the
constructor creates for the two endpoints. -/
inductive WorkerKind where
  | liveMedia
  | bestEffortMaster
  | bestEffortSlave
  | constantFramerateMaster
  | constantFramerateSlave
  deriving DecidableEq, Repr

/-- Modelled from the spec: the class `Worker` (Worker.hh/Worker.cpp are not
under src/).  Section 3 gives a worker a discipline variant, a running flag, a
set of (filter ID -> filter) and, for masters, a set of slaves. -/
structure Worker where
  kind : WorkerKind
  running : Bool
  processors : Table
  slaves : Table
  deriving DecidableEq, Repr

/-- Modelled from the spec: the class `Path` (Path.hh/Path.cpp are not under
src/), with the attributes of section 3 in the order of the constructor call
`Path(orgFilter, dstFilter, orgWriter, dstReader, midFilters, sharedQueue)`. -/
structure Path where
  originFilterID : Int
  destinationFilterID : Int
  orgWriterID : Int
  dstReaderID : Int
  filters : List Int
  shared : Bool
  deriving DecidableEq, Repr

/-- A wiring call made on a filter object: receiver, argument filter, port IDs. -/
inductive WiringCall where
  | generateWriterID (self : Ptr)
  | generateReaderID (self : Ptr)
  | connectManyToMany (self other : Ptr) (readerID writerID : Int) (shared : Bool)
  | connectManyToOne (self other : Ptr) (writerID : Int) (shared : Bool)
  | connectOneToOne (self other : Ptr)
  | connectOneToMany (self other : Ptr) (readerID : Int)
  | disconnect (self other : Ptr) (writerID readerID : Int)
  deriving DecidableEq, Repr

/-- A lifecycle call made on a worker object. -/
inductive WorkerCall where
  | start (self : Ptr)
  | stop (self : Ptr)
  deriving DecidableEq, Repr

/-- The pipeline manager (its three tables and two endpoint IDs) together with
the heap of the objects its tables point to. -/
structure World where
  filters : Table
  paths : Table
  workers : Table
  receiverID : Int
  transmitterID : Int
  filterObjs : Ptr → Option BaseFilter
  workerObjs : Ptr → Option Worker
  pathObjs : Ptr → Option Path
  queueObjs : Ptr → Option FrameQueue
  nextPtr : Ptr
  calls : List WiringCall
  workerCalls : List WorkerCall

namespace World

/-- Dereference a `BaseFilter*`: `none` for a null or dangling pointer. -/
def filterAt (w : World) (p : Ptr) : Option BaseFilter :=
  if p = 0 then none else w.filterObjs p

/-- Dereference a `Worker*`. -/
def workerAt (w : World) (p : Ptr) : Option Worker :=
  if p = 0 then none else w.workerObjs p

/-- Dereference a `Path*`. -/
def pathAt (w : World) (p : Ptr) : Option Path :=
  if p = 0 then none else w.pathObjs p

/-- Store a filter object at address `p`. -/
def setFilter (w : World) (p : Ptr) (f : Option BaseFilter) : World :=
  { w with filterObjs := fun q => if q = p then f else w.filterObjs q }

/-- Store a worker object at address `p`. -/
def setWorker (w : World) (p : Ptr) (x : Option Worker) : World :=
  { w with workerObjs := fun q => if q = p then x else w.workerObjs q }

/-- Store a path object at address `p`. -/
def setPath (w : World) (p : Ptr) (x : Option Path) : World :=
  { w with pathObjs := fun q => if q = p then x else w.pathObjs q }

/-- Store a queue object at address `p`. -/
def setQueue (w : World) (p : Ptr) (x : Option FrameQueue) : World :=
  { w with queueObjs := fun q => if q = p then x else w.queueObjs q }

end World

/-! ## The tables: `addPath`, `addFilter`, `addWorker` and the getters -/

/-- `PipelineManager::addPath` (lines 70-79). -/
def addPath (w : World) (id : Int) (path : Ptr) : Bool × World :=
  if w.paths.count id > 0 then (false, w)
  else (true, { w with paths := w.paths.insert id path })

/-- `PipelineManager::addFilter` (lines 113-122). -/
def addFilter (w : World) (id : Int) (filter : Ptr) : Bool × World :=
  if w.filters.count id > 0 then (false, w)
  else (true, { w with filters := w.filters.insert id filter })

/-- `PipelineManager::getFilter` (lines 124-131). -/
def getFilter (w : World) (id : Int) : Ptr :=
  if w.filters.count id ≤ 0 then 0 else (w.filters.index id).1

/-- `PipelineManager::addWorker` (lines 133-142). -/
def addWorker (w : World) (id : Int) (worker : Ptr) : Bool × World :=
  if w.workers.count id > 0 then (false, w)
  else (true, { w with workers := w.workers.insert id worker })

/-- `PipelineManager::getWorker` (lines 144-151). -/
def getWorker (w : World) (id : Int) : Ptr :=
  if w.workers.count id ≤ 0 then 0 else (w.workers.index id).1

/-- `PipelineManager::getPath` (lines 168-175). -/
def getPath (w : World) (id : Int) : Ptr :=
  if w.paths.count id ≤ 0 then 0 else (w.paths.index id).1

/-! ## Collaborator classes: filters and workers -/

/-- Modelled from the spec: the constant `DEFAULT_ID` naming a filter's default
port (its header is not under src/; section 4.3 speaks of the default writer and
the default reader).  No theorem below depends on its value. -/
def DEFAULT_ID : Int := 1

namespace World

/-- Append a wiring call to the ghost trace. -/
def log (w : World) (c : WiringCall) : World :=
  { w with calls := w.calls ++ [c] }

/-- Reading `filters[k]`, with the insertion `operator[]` makes for an absent key. -/
def filtersIndex (w : World) (k : Int) : Ptr × World :=
  ((w.filters.index k).1, { w with filters := (w.filters.index k).2 })

/-- Reading `workers[k]`, with the insertion `operator[]` makes for an absent key. -/
def workersIndex (w : World) (k : Int) : Ptr × World :=
  ((w.workers.index k).1, { w with workers := (w.workers.index k).2 })

end World

/-- Modelled from the spec: the first port ID from `i` on that is not bound in
`bound` (an unused port ID); `n` bounds the search by the number of bound ports. -/
def firstUnused (bound : Table) : Nat → Int → Int
  | 0, i => i
  | n + 1, i => if bound.count i > 0 then firstUnused bound n (i + 1) else i

/-- Modelled from the spec: `BaseFilter::setWorkerId` (Filter.cpp is not under
src/) records the worker ID of section 3 in the filter. -/
def BaseFilter.setWorkerId (w : World) (self : Ptr) (workerId : Int) : Option World :=
  match w.filterAt self with
  | none => none
  | some f => some (w.setFilter self (some { f with workerId := workerId }))

/-- Modelled from the spec: `BaseFilter::getWorkerId` (Filter.cpp is not under
src/) reads the recorded worker ID. -/
def BaseFilter.getWorkerId (w : World) (self : Ptr) : Option Int :=
  match w.filterAt self with
  | none => none
  | some f => some f.workerId

/-- Modelled from the spec: `BaseFilter::generateWriterID` (Filter.cpp is not
under src/) "returns an unused port ID on this side" and advances the generated
next writer ID. -/
def BaseFilter.generateWriterID (w : World) (self : Ptr) : Option (Int × World) :=
  match w.filterAt self with
  | none => none
  | some f =>
    let id := firstUnused f.writers f.writers.length f.nextWriterID
    some (id, (w.setFilter self (some { f with nextWriterID := id + 1 })).log
      (WiringCall.generateWriterID self))

/-- Modelled from the spec: `BaseFilter::generateReaderID` (Filter.cpp is not
under src/) "returns an unused port ID on this side" and advances the generated
next reader ID. -/
def BaseFilter.generateReaderID (w : World) (self : Ptr) : Option (Int × World) :=
  match w.filterAt self with
  | none => none
  | some f =>
    let id := firstUnused f.readers f.readers.length f.nextReaderID
    some (id, (w.setFilter self (some { f with nextReaderID := id + 1 })).log
      (WiringCall.generateReaderID self))

/-- Modelled from the spec: the wiring step shared by the four connect
operations of section 4.3 (Filter.cpp is not under src/).  A port ID is unique
within its side, so the call fails when the writer port of `self` or the reader
port of `other` is already bound; otherwise a new queue is allocated and bound to
both ports. -/
def BaseFilter.connect (w : World) (self other : Ptr) (writerID readerID : Int)
    (shared : Bool) : Option (Bool × World) :=
  match w.filterAt self, w.filterAt other with
  | some f, some g =>
    if f.writers.count writerID > 0 ∨ g.readers.count readerID > 0 then some (false, w)
    else
      let q := w.nextPtr + 1
      let w1 := w.setFilter self (some { f with writers := f.writers.insert writerID q })
      match w1.filterAt other with
      | none => none
      | some g1 =>
        let w2 := w1.setFilter other (some { g1 with readers := g1.readers.insert readerID q })
        some (true, { w2.setQueue q (some { shared := shared }) with nextPtr := q })
  | _, _ => none

/-- Modelled from the spec: `connectManyToMany(other, readerID, writerID, shared)`
"binds specific writer/reader ports; allocates a shared queue if shared". -/
def BaseFilter.connectManyToMany (w : World) (self other : Ptr) (readerID writerID : Int)
    (shared : Bool) : Option (Bool × World) :=
  BaseFilter.connect (w.log (WiringCall.connectManyToMany self other readerID writerID shared))
    self other writerID readerID shared

/-- Modelled from the spec: `connectManyToOne(other, writerID, shared)` "binds
this filter's specific writer to other's default reader". -/
def BaseFilter.connectManyToOne (w : World) (self other : Ptr) (writerID : Int)
    (shared : Bool) : Option (Bool × World) :=
  BaseFilter.connect (w.log (WiringCall.connectManyToOne self other writerID shared))
    self other writerID DEFAULT_ID shared

/-- Modelled from the spec: `connectOneToOne(other)` "allocates a new queue,
binds this filter's default writer and other's default reader". -/
def BaseFilter.connectOneToOne (w : World) (self other : Ptr) : Option (Bool × World) :=
  BaseFilter.connect (w.log (WiringCall.connectOneToOne self other))
    self other DEFAULT_ID DEFAULT_ID false

/-- Modelled from the spec: `connectOneToMany(other, readerID)` "allocates/binds
a queue from this default writer to other's specific reader". -/
def BaseFilter.connectOneToMany (w : World) (self other : Ptr) (readerID : Int) :
    Option (Bool × World) :=
  BaseFilter.connect (w.log (WiringCall.connectOneToMany self other readerID))
    self other DEFAULT_ID readerID false

/-- Modelled from the spec: `disconnect(other, writerID, readerID)` "tears down
the queue on the specified edge" (Filter.cpp is not under src/): it fails unless
the writer port of `self` and the reader port of `other` are bound to one queue,
and then unbinds both ports and destroys the queue. -/
def BaseFilter.disconnect (w : World) (self other : Ptr) (writerID readerID : Int) :
    Option (Bool × World) :=
  let w0 := w.log (WiringCall.disconnect self other writerID readerID)
  match w0.filterAt self, w0.filterAt other with
  | some f, some g =>
    match f.writers.find writerID, g.readers.find readerID with
    | some q, some q' =>
      if q = q' then
        let w1 := w0.setFilter self (some { f with writers := f.writers.erase writerID })
        match w1.filterAt other with
        | none => none
        | some g1 =>
          let w2 := w1.setFilter other (some { g1 with readers := g1.readers.erase readerID })
          some (true, w2.setQueue q none)
      else some (false, w0)
    | _, _ => some (false, w0)
  | _, _ => none

/-- Modelled from the spec: `Worker::addProcessor` (Worker.cpp is not under
src/).  A worker holds a set of (filter ID -> filter) with IDs unique within the
set: the call is rejected when the ID is present, and adds the entry otherwise. -/
def Worker.addProcessor (w : World) (self : Ptr) (id : Int) (processor : Ptr) :
    Option (Bool × World) :=
  match w.workerAt self with
  | none => none
  | some x =>
    if x.processors.count id > 0 then some (false, w)
    else some (true, w.setWorker self (some { x with processors := x.processors.insert id processor }))

/-- Modelled from the spec: `Worker::removeProcessor` (Worker.cpp is not under
src/) removes the filter ID from the worker's set; it reports whether the ID was
there. -/
def Worker.removeProcessor (w : World) (self : Ptr) (id : Int) : Option (Bool × World) :=
  match w.workerAt self with
  | none => none
  | some x =>
    if x.processors.count id ≤ 0 then some (false, w)
    else some (true, w.setWorker self (some { x with processors := x.processors.erase id }))

/-! ## Graph construction -/

/-- `PipelineManager::addFilterToWorker` (lines 153-166). -/
def addFilterToWorker (w : World) (workerId filterId : Int) : Option (Bool × World) :=
  if w.filters.count filterId ≤ 0 ∨ w.workers.count workerId ≤ 0 then some (false, w)
  else
    let (fp, w1) := w.filtersIndex filterId
    match BaseFilter.setWorkerId w1 fp workerId with
    | none => none
    | some w2 =>
      let (wp, w3) := w2.workersIndex workerId
      let (fp', w4) := w3.filtersIndex filterId
      match Worker.addProcessor w4 wp filterId fp' with
      | none => none
      | some (ok, w5) => if !ok then some (false, w5) else some (true, w5)

/-- `PipelineManager::createPath` (lines 177-209); the null pointer is `0`. -/
def createPath (w : World) (orgFilter dstFilter orgWriter dstReader : Int)
    (midFilters : List Int) (sharedQueue : Bool) : Option (Ptr × World) :=
  if w.filters.count orgFilter ≤ 0 ∨ w.filters.count dstFilter ≤ 0 then some (0, w)
  else if midFilters.any (fun it => decide (w.filters.count it ≤ 0)) then some (0, w)
  else
    let (originFilter, w1) := w.filtersIndex orgFilter
    let (destinationFilter, w2) := w1.filtersIndex dstFilter
    match (if orgWriter < 0 then BaseFilter.generateWriterID w2 originFilter
           else some (orgWriter, w2)) with
    | none => none
    | some (realOrgWriter, w3) =>
      match (if dstReader < 0 then BaseFilter.generateReaderID w3 destinationFilter
             else some (dstReader, w3)) with
      | none => none
      | some (realDstReader, w4) =>
        let path := w4.nextPtr + 1
        some (path, { w4.setPath path (some
          { originFilterID := orgFilter, destinationFilterID := dstFilter,
            orgWriterID := realOrgWriter, dstReaderID := realDstReader,
            filters := midFilters, shared := sharedQueue }) with nextPtr := path })

/-- The loop of `connectPath` (lines 238-243): `pathFilters[i]` is connected
one-to-one to `pathFilters[i+1]` for `i = 0 .. size-2`, stopping at a failure. -/
def connectMiddle (w : World) : List Int → Option (Bool × World)
  | [] => some (true, w)
  | [_] => some (true, w)
  | a :: b :: r =>
    let (pa, w1) := w.filtersIndex a
    let (pb, w2) := w1.filtersIndex b
    match BaseFilter.connectOneToOne w2 pa pb with
    | none => none
    | some (false, w3) => some (false, w3)
    | some (true, w3) => connectMiddle w3 (b :: r)

/-- `PipelineManager::connectPath` (lines 212-251). -/
def connectPath (w : World) (path : Ptr) : Option (Bool × World) :=
  match w.pathAt path with
  | none => none
  | some pa =>
    match pa.filters with
    | [] =>
      let (org, w1) := w.filtersIndex pa.originFilterID
      let (dst, w2) := w1.filtersIndex pa.destinationFilterID
      match BaseFilter.connectManyToMany w2 org dst pa.dstReaderID pa.orgWriterID pa.shared with
      | none => none
      | some (true, w3) => some (true, w3)
      | some (false, w3) => some (false, w3)
    | front :: rest =>
      let (org, w1) := w.filtersIndex pa.originFilterID
      let (first, w2) := w1.filtersIndex front
      match BaseFilter.connectManyToOne w2 org first pa.orgWriterID pa.shared with
      | none => none
      | some (false, w3) => some (false, w3)
      | some (true, w3) =>
        match connectMiddle w3 (front :: rest) with
        | none => none
        | some (false, w4) => some (false, w4)
        | some (true, w4) =>
          let (last, w5) := w4.filtersIndex ((front :: rest).getLast (List.cons_ne_nil front rest))
          let (dst, w6) := w5.filtersIndex pa.destinationFilterID
          match BaseFilter.connectOneToMany w6 last dst pa.dstReaderID with
          | none => none
          | some (false, w7) => some (false, w7)
          | some (true, w7) => some (true, w7)

/-! ## Path removal -/

/-- The expression `delete p` on a filter: nothing for a null pointer, undefined on
a dangling one, and otherwise the object is destroyed. -/
def deleteFilter (w : World) (p : Ptr) : Option World :=
  if p = 0 then some w
  else
    match w.filterObjs p with
    | none => none
    | some _ => some (w.setFilter p none)

/-- The middle loop of `deletePath` (lines 295-300): `pathFilters[i]` is
disconnected from `pathFilters[i+1]` on the default ports, stopping at a failure. -/
def disconnectMiddle (w : World) : List Int → Option (Bool × World)
  | [] => some (true, w)
  | [_] => some (true, w)
  | a :: b :: r =>
    let (pa, w1) := w.filtersIndex a
    let (pb, w2) := w1.filtersIndex b
    match BaseFilter.disconnect w2 pa pb DEFAULT_ID DEFAULT_ID with
    | none => none
    | some (false, w3) => some (false, w3)
    | some (true, w3) => disconnectMiddle w3 (b :: r)

/-- The last loop of `deletePath` (lines 307-311): each intermediate filter is
removed from the worker it records, destroyed, and erased from the table. -/
def deleteFilters (w : World) : List Int → Option World
  | [] => some w
  | it :: r =>
    let (fp, w1) := w.filtersIndex it
    match BaseFilter.getWorkerId w1 fp with
    | none => none
    | some wid =>
      let (wp, w2) := w1.workersIndex wid
      match Worker.removeProcessor w2 wp it with
      | none => none
      | some (_, w3) =>
        let (fp', w4) := w3.filtersIndex it
        match deleteFilter w4 fp' with
        | none => none
        | some w5 => deleteFilters { w5 with filters := w5.filters.erase it } r

/-- `PipelineManager::deletePath` (lines 273-316).  `pathFilters.front()` and
`pathFilters.back()` of an empty vector are undefined. -/
def deletePath (w : World) (path : Ptr) : Option (Bool × World) :=
  match w.pathAt path with
  | none => none
  | some pa =>
    if w.filters.count pa.originFilterID ≤ 0 ∨ w.filters.count pa.destinationFilterID ≤ 0 then
      some (false, w)
    else if pa.filters.any (fun it => decide (w.filters.count it ≤ 0)) then some (false, w)
    else
      match pa.filters with
      | [] => none
      | front :: rest =>
        let (org, w1) := w.filtersIndex pa.originFilterID
        let (first, w2) := w1.filtersIndex front
        match BaseFilter.disconnect w2 org first pa.orgWriterID DEFAULT_ID with
        | none => none
        | some (false, w3) => some (false, w3)
        | some (true, w3) =>
          match disconnectMiddle w3 (front :: rest) with
          | none => none
          | some (false, w4) => some (false, w4)
          | some (true, w4) =>
            let (last, w5) :=
              w4.filtersIndex ((front :: rest).getLast (List.cons_ne_nil front rest))
            let (dst, w6) := w5.filtersIndex pa.destinationFilterID
            match BaseFilter.disconnect w6 last dst DEFAULT_ID pa.dstReaderID with
            | none => none
            | some (false, w7) => some (false, w7)
            | some (true, w7) =>
              match deleteFilters w7 (front :: rest) with
              | none => none
              | some w8 =>
                match w8.pathAt path with
                | none => none
                | some _ => some (true, w8.setPath path none)

/-- `PipelineManager::removePath` (lines 253-270). -/
def removePath (w : World) (id : Int) : Option (Bool × World) :=
  let path := getPath w id
  if path = 0 then some (false, w)
  else
    match deletePath w path with
    | none => none
    | some (false, w1) => some (false, w1)
    | some (true, w1) => some (true, { w1 with paths := w1.paths.erase id })

/-! ## The wiring plan of a path -/

/-- Perform one wiring call on the filter objects it names. -/
def WiringCall.run (w : World) : WiringCall → Option (Bool × World)
  | WiringCall.generateWriterID self =>
    (BaseFilter.generateWriterID w self).map (fun r => (true, r.2))
  | WiringCall.generateReaderID self =>
    (BaseFilter.generateReaderID w self).map (fun r => (true, r.2))
  | WiringCall.connectManyToMany self other readerID writerID shared =>
    BaseFilter.connectManyToMany w self other readerID writerID shared
  | WiringCall.connectManyToOne self other writerID shared =>
    BaseFilter.connectManyToOne w self other writerID shared
  | WiringCall.connectOneToOne self other => BaseFilter.connectOneToOne w self other
  | WiringCall.connectOneToMany self other readerID =>
    BaseFilter.connectOneToMany w self other readerID
  | WiringCall.disconnect self other writerID readerID =>
    BaseFilter.disconnect w self other writerID readerID

/-- Perform wiring calls in order, stopping at the first one that fails and
undoing nothing. -/
def runCalls (w : World) : List WiringCall → Option (Bool × World)
  | [] => some (true, w)
  | c :: r =>
    match c.run w with
    | none => none
    | some (false, w1) => some (false, w1)
    | some (true, w1) => runCalls w1 r

/-- The filter object registered under `id` (the null pointer when there is none). -/
def Table.ptr (t : Table) (id : Int) : Ptr :=
  match t.find id with
  | some p => p
  | none => 0

/-- The one-to-one connections `m[i] -> m[i+1]`, `i = 0 .. n-2`, of an
intermediate list, as section 4.5 words them. -/
def middlePlan (t : Table) : List Int → List WiringCall
  | [] => []
  | [_] => []
  | a :: b :: r => WiringCall.connectOneToOne (t.ptr a) (t.ptr b) :: middlePlan t (b :: r)

/-- The connections of a path as section 4.5 words them: "if mid is empty, direct
origin->destination; else origin->mid[0] (many-to-one), mid[i]->mid[i+1]
(one-to-one), mid[last]->destination (one-to-many)". -/
def connectPlan (t : Table) (pa : Path) : List WiringCall :=
  match pa.filters with
  | [] =>
    [WiringCall.connectManyToMany (t.ptr pa.originFilterID) (t.ptr pa.destinationFilterID)
      pa.dstReaderID pa.orgWriterID pa.shared]
  | front :: rest =>
    WiringCall.connectManyToOne (t.ptr pa.originFilterID) (t.ptr front) pa.orgWriterID pa.shared
      :: (middlePlan t (front :: rest)
        ++ [WiringCall.connectOneToMany
              (t.ptr ((front :: rest).getLast (List.cons_ne_nil front rest)))
              (t.ptr pa.destinationFilterID) pa.dstReaderID])

/-- The worker IDs of the workers table whose processor set holds `filterId`. -/
def workersHolding (w : World) (filterId : Int) : List Int :=
  (w.workers.filter (fun e =>
    match w.workerAt e.2 with
    | some x => decide (filterId ∈ x.processors.keys)
    | none => false)).map Prod.fst

/-- The filter objects a wiring call dereferences: its receiver and its argument. -/
def WiringCall.ends : WiringCall → List Ptr
  | WiringCall.generateWriterID self => [self]
  | WiringCall.generateReaderID self => [self]
  | WiringCall.connectManyToMany self other _ _ _ => [self, other]
  | WiringCall.connectManyToOne self other _ _ => [self, other]
  | WiringCall.connectOneToOne self other => [self, other]
  | WiringCall.connectOneToMany self other _ => [self, other]
  | WiringCall.disconnect self other _ _ => [self, other]

/-- What a run of wiring calls `cs` leaves alone: the three tables, the worker
and path objects and the set of live filter objects; the trace grows by `cs`. -/
def Frame (w w' : World) (cs : List WiringCall) : Prop :=
  w'.filters = w.filters ∧ w'.paths = w.paths ∧ w'.workers = w.workers
    ∧ w'.workerObjs = w.workerObjs ∧ w'.pathObjs = w.pathObjs
    ∧ w'.calls = w.calls ++ cs
    ∧ ∀ q, (w'.filterAt q).isSome = (w.filterAt q).isSome

/-- The processor set of the worker registered under `workerId` (empty when
there is no such worker object). -/
def processorsOf (w : World) (workerId : Int) : Table :=
  ((w.workerAt (w.workers.ptr workerId)).map Worker.processors).getD []

/-- The filter registered under `filterId` is assigned to the worker registered
under `workerId`: the filter records that worker ID and the worker's processor
set holds the filter ID. -/
def assignedTo (w : World) (workerId filterId : Int) : Prop :=
  (w.filterAt (w.filters.ptr filterId)).map BaseFilter.workerId = some workerId
    ∧ filterId ∈ (processorsOf w workerId).keys

instance (w : World) (workerId filterId : Int) : Decidable (assignedTo w workerId filterId) := by
  unfold assignedTo
  infer_instance

/-- What the operations on filters and workers leave alone: the paths table, the
path objects and the two endpoint IDs. -/
def Steady (w w' : World) : Prop :=
  w'.paths = w.paths ∧ w'.pathObjs = w.pathObjs
    ∧ w'.transmitterID = w.transmitterID ∧ w'.receiverID = w.receiverID

/-! ## Object construction -/

/-- Modelled from the spec: the state of a filter right after its constructor
(Filter.cpp is not under src/): unassigned, no port bound, and the ID
generators starting after the default port. -/
def BaseFilter.fresh (t : FilterType) : BaseFilter :=
  { fType := t, workerId := -1, readers := [], writers := [],
    nextReaderID := DEFAULT_ID + 1, nextWriterID := DEFAULT_ID + 1 }

/-- The expression `new T()` for a filter class of type tag `t`. -/
def newFilter (w : World) (t : FilterType) : Ptr × World :=
  (w.nextPtr + 1, { w.setFilter (w.nextPtr + 1) (some (BaseFilter.fresh t)) with
    nextPtr := w.nextPtr + 1 })

/-- Modelled from the spec: the state of a worker right after its constructor
(Worker.cpp is not under src/): stopped, with no processor and no slave. -/
def Worker.fresh (k : WorkerKind) : Worker :=
  { kind := k, running := false, processors := [], slaves := [] }

/-- The expression `new T()` for a worker class of discipline `k`. -/
def newWorker (w : World) (k : WorkerKind) : Ptr × World :=
  (w.nextPtr + 1, { w.setWorker (w.nextPtr + 1) (some (Worker.fresh k)) with
    nextPtr := w.nextPtr + 1 })

/-- `PipelineManager::createFilter` (lines 81-110): a type outside the switch
gives the null pointer. -/
def createFilter (w : World) (type : FilterType) : Ptr × World :=
  match type with
  | FilterType.VIDEO_DECODER => newFilter w FilterType.VIDEO_DECODER
  | FilterType.VIDEO_ENCODER => newFilter w FilterType.VIDEO_ENCODER
  | FilterType.VIDEO_MIXER => newFilter w FilterType.VIDEO_MIXER
  | FilterType.VIDEO_RESAMPLER => newFilter w FilterType.VIDEO_RESAMPLER
  | FilterType.AUDIO_DECODER => newFilter w FilterType.AUDIO_DECODER
  | FilterType.AUDIO_ENCODER => newFilter w FilterType.AUDIO_ENCODER
  | FilterType.AUDIO_MIXER => newFilter w FilterType.AUDIO_MIXER
  | _ => (0, w)

/-- The memory before any object exists: empty tables and an empty heap. -/
def World.blank : World :=
  { filters := [], paths := [], workers := [], receiverID := 0, transmitterID := 0,
    filterObjs := fun _ => none, workerObjs := fun _ => none, pathObjs := fun _ => none,
    queueObjs := fun _ => none, nextPtr := 0, calls := [], workerCalls := [] }

/-- `PipelineManager::PipelineManager` (lines 26-39), run on an empty memory.
`r1` and `r2` are the values of the two `rand()` calls; the source and sink
managers that `getInstance()` yields are created here.  The two workers are
local to the constructor: it never calls `addWorker`. -/
def construct (r1 r2 : Int) : Option World :=
  let w0 := { World.blank with receiverID := r1, transmitterID := r2 }
  let (src, w1) := newFilter w0 FilterType.RECEIVER
  let (snk, w2) := newFilter w1 FilterType.TRANSMITTER
  let (_, w3) := addFilter w2 r1 src
  let (_, w4) := addFilter w3 r2 snk
  let (receiverWorker, w5) := newWorker w4 WorkerKind.liveMedia
  match Worker.addProcessor w5 receiverWorker r1 src with
  | none => none
  | some (_, w6) =>
    let (transmitterWorker, w7) := newWorker w6 WorkerKind.liveMedia
    match Worker.addProcessor w7 transmitterWorker r2 snk with
    | none => none
    | some (_, w8) => some w8

/-! ## Workers -/

/-- Modelled from the spec: `Worker::isRunning` (Worker.cpp is not under src/)
reads the running flag of section 3. -/
def Worker.isRunning (w : World) (self : Ptr) : Option Bool :=
  match w.workerAt self with
  | none => none
  | some x => some x.running

/-- Modelled from the spec: `Worker::start` (Worker.cpp is not under src/) starts
the worker's thread: the running flag is set.  The call is recorded in the ghost
trace `workerCalls`. -/
def Worker.start (w : World) (self : Ptr) : Option World :=
  match w.workerAt self with
  | none => none
  | some x =>
    some { w.setWorker self (some { x with running := true }) with
      workerCalls := w.workerCalls ++ [WorkerCall.start self] }

/-- Modelled from the spec: `Worker::stop` (Worker.cpp is not under src/) signals
the loop to exit and joins the thread: the running flag is cleared.  The call is
recorded in the ghost trace `workerCalls`. -/
def Worker.stop (w : World) (self : Ptr) : Option World :=
  match w.workerAt self with
  | none => none
  | some x =>
    some { w.setWorker self (some { x with running := false }) with
      workerCalls := w.workerCalls ++ [WorkerCall.stop self] }

/-- The loop of `startWorkers` over the entries of the workers table. -/
def startWorkersLoop (w : World) : List (Int × Ptr) → Option World
  | [] => some w
  | it :: r =>
    match Worker.isRunning w it.2 with
    | none => none
    | some running =>
      if !running then
        match Worker.start w it.2 with
        | none => none
        | some w1 => startWorkersLoop w1 r
      else startWorkersLoop w r

/-- `PipelineManager::startWorkers` (lines 318-326). -/
def startWorkers (w : World) : Option World :=
  startWorkersLoop w w.workers

/-- The loop of `stopWorkers` over the entries of the workers table. -/
def stopWorkersLoop (w : World) : List (Int × Ptr) → Option World
  | [] => some w
  | it :: r =>
    match Worker.isRunning w it.2 with
    | none => none
    | some running =>
      if running then
        match Worker.stop w it.2 with
        | none => none
        | some w1 => stopWorkersLoop w1 r
      else stopWorkersLoop w r

/-- `PipelineManager::stopWorkers` (lines 328-336). -/
def stopWorkers (w : World) : Option World :=
  stopWorkersLoop w w.workers

/-- The running flag of the worker object at `p` (false when there is none). -/
def World.runningAt (w : World) (p : Ptr) : Bool :=
  match w.workerAt p with
  | some x => x.running
  | none => false

/-! ## Control-plane events -/

/-- Modelled from the spec: a parameter value of a control message (section 6;
the JSON library is not under src/): null, an integer, a string, a boolean or an
array, given by the integer each of its elements converts to. -/
inductive JValue where
  | null
  | int (n : Int)
  | str (s : String)
  | bool (b : Bool)
  | array (items : List Int)
  deriving DecidableEq, Repr

/-- The parameter node `Jzon::Node* params`: `none` is the null pointer, otherwise
the fields of the JSON object. -/
abbrev Params := Option (List (String × JValue))

/-- `params->Has(name)`. -/
def Has (ps : List (String × JValue)) (name : String) : Bool :=
  ps.any (fun e => e.1 == name)

/-- `params->Get(name)`: the null value when the field is absent. -/
def Get (ps : List (String × JValue)) (name : String) : JValue :=
  match ps.find? (fun e => e.1 == name) with
  | some e => e.2
  | none => JValue.null

/-- The conversion `ToInt()`: `0` for a value that is not a number. -/
def JValue.ToInt : JValue → Int
  | JValue.int n => n
  | _ => 0

/-- The conversion `ToString()`: empty for a value that is not a string. -/
def JValue.ToString : JValue → String
  | JValue.str s => s
  | _ => ""

/-- The conversion `ToBool()`: false for a value that is not a boolean. -/
def JValue.ToBool : JValue → Bool
  | JValue.bool b => b
  | _ => false

/-- The test `IsArray()`. -/
def JValue.IsArray : JValue → Bool
  | JValue.array _ => true
  | _ => false

/-- The elements of `AsArray()`, each through `ToInt()`; undefined on a value that
is not an array. -/
def JValue.AsArray : JValue → Option (List Int)
  | JValue.array items => some items
  | _ => none

/-- `PipelineManager::createPathEvent` (lines 489-545): the value added to the
output node under "error" (`none` is `Jzon::null`) and the state. -/
def createPathEvent (w : World) (params : Params) : Option (Option String × World) :=
  match params with
  | none => some (some "Error creating path. Invalid JSON format...", w)
  | some ps =>
    if !Has ps "id" || !Has ps "orgFilterId" || !Has ps "dstFilterId"
        || !Has ps "orgWriterId" || !Has ps "dstReaderId" || !Has ps "sharedQueue" then
      some (some "Error creating path. Invalid JSON format...", w)
    else if !Has ps "midFiltersIds" || !(Get ps "midFiltersIds").IsArray then
      some (some "Error creating path. Invalid JSON format...", w)
    else
      match (Get ps "midFiltersIds").AsArray with
      | none => none
      | some filtersIds =>
        match createPath w (Get ps "orgFilterId").ToInt (Get ps "dstFilterId").ToInt
            (Get ps "orgWriterId").ToInt (Get ps "dstReaderId").ToInt filtersIds
            (Get ps "sharedQueue").ToBool with
        | none => none
        | some (path, w1) =>
          if path = 0 then
            some (some "Error creating path. Check introduced filter IDs...", w1)
          else
            match connectPath w1 path with
            | none => none
            | some (false, w2) => some (some "Error connecting path. Better pray Jesus...", w2)
            | some (true, w2) =>
              match addPath w2 (Get ps "id").ToInt path with
              | (false, w3) =>
                some (some "Error registering path. Path ID already exists...", w3)
              | (true, w3) => some (none, w3)

/-- `PipelineManager::addWorkerEvent` (lines 547-590): the value added to the
output node under "error" (`none` is `Jzon::null`) and the state.  The fourth
comparison repeats "constantFramerateMaster", as line 573 does. -/
def addWorkerEvent (w : World) (params : Params) : Option (Option String × World) :=
  match params with
  | none => some (some "Error creating worker. Invalid JSON format...", w)
  | some ps =>
    if !Has ps "id" || !Has ps "type" || !Has ps "fps" then
      some (some "Error creating path. Invalid JSON format...", w)
    else
      let id := (Get ps "id").ToInt
      let type := (Get ps "type").ToString
      let (worker, w1) :=
        if type = "bestEffortMaster" then newWorker w WorkerKind.bestEffortMaster
        else if type = "bestEffortSlave" then newWorker w WorkerKind.bestEffortSlave
        else if type = "constantFramerateMaster" then
          newWorker w WorkerKind.constantFramerateMaster
        else if type = "constantFramerateMaster" then
          newWorker w WorkerKind.constantFramerateSlave
        else (0, w)
      if worker = 0 then some (some "Error creating worker. Check type...", w1)
      else
        match addWorker w1 id worker with
        | (false, w2) => some (some "Error adding worker to filter. Check filter ID...", w2)
        | (true, w2) =>
          match startWorkers w2 with
          | none => none
          | some w3 => some (none, w3)

/-- Modelled from the spec: `utils::getFilterTypeFromString` (Utils.cpp is not
under src/): the string enums for filter type of section 6; any other string
names no type of the factory. -/
def getFilterTypeFromString (s : String) : Option FilterType :=
  if s = "videoDecoder" then some FilterType.VIDEO_DECODER
  else if s = "videoEncoder" then some FilterType.VIDEO_ENCODER
  else if s = "videoMixer" then some FilterType.VIDEO_MIXER
  else if s = "videoResampler" then some FilterType.VIDEO_RESAMPLER
  else if s = "audioDecoder" then some FilterType.AUDIO_DECODER
  else if s = "audioEncoder" then some FilterType.AUDIO_ENCODER
  else if s = "audioMixer" then some FilterType.AUDIO_MIXER
  else none

/-- `PipelineManager::createFilterEvent` (lines 455-487): the value added to the
output node under "error" (`none` is `Jzon::null`) and the state.  A type string
that names no type falls outside the switch of `createFilter`. -/
def createFilterEvent (w : World) (params : Params) : Option String × World :=
  match params with
  | none => (some "Error creating filter. Invalid JSON format...", w)
  | some ps =>
    if !Has ps "id" || !Has ps "type" then
      (some "Error creating filter. Invalid JSON format...", w)
    else
      let id := (Get ps "id").ToInt
      let (filter, w1) :=
        match getFilterTypeFromString (Get ps "type").ToString with
        | some fType => createFilter w fType
        | none => (0, w)
      if filter = 0 then (some "Error creating filter. Specified type is not correct..", w1)
      else
        match addFilter w1 id filter with
        | (false, w2) => (some "Error registering filter. Specified ID already exists..", w2)
        | (true, w2) => (none, w2)

/-- Modelled from the spec: the disciplines whose class derives from `Master`
(Worker.hh is not under src/): the two master variants of section 4.4. -/
def WorkerKind.isMaster : WorkerKind → Bool
  | WorkerKind.bestEffortMaster => true
  | WorkerKind.constantFramerateMaster => true
  | _ => false

/-- Modelled from the spec: the disciplines whose class derives from `Slave`
(Worker.hh is not under src/): the two slave variants of section 4.4. -/
def WorkerKind.isSlave : WorkerKind → Bool
  | WorkerKind.bestEffortSlave => true
  | WorkerKind.constantFramerateSlave => true
  | _ => false

/-- The expression `dynamic_cast<Master*>(p)`: null for a null pointer and for a
worker that is no master, undefined on a dangling pointer. -/
def castMaster (w : World) (p : Ptr) : Option Ptr :=
  if p = 0 then some 0
  else
    match w.workerObjs p with
    | none => none
    | some x => if x.kind.isMaster then some p else some 0

/-- The expression `dynamic_cast<Slave*>(p)`: null for a null pointer and for a
worker that is no slave, undefined on a dangling pointer. -/
def castSlave (w : World) (p : Ptr) : Option Ptr :=
  if p = 0 then some 0
  else
    match w.workerObjs p with
    | none => none
    | some x => if x.kind.isSlave then some p else some 0

/-- Modelled from the spec: `Master::addSlave` (Worker.cpp is not under src/).
A master holds a map (slave ID -> slave worker): the call is rejected when the ID
is present, and stores the given pointer under the ID otherwise. -/
def Master.addSlave (w : World) (self : Ptr) (id : Int) (slave : Ptr) :
    Option (Bool × World) :=
  match w.workerAt self with
  | none => none
  | some x =>
    if x.slaves.count id > 0 then some (false, w)
    else some (true, w.setWorker self (some { x with slaves := x.slaves.insert id slave }))

/-- The loop of `addSlavesToWorkerEvent` (lines 623-625) over the slave IDs. -/
def addSlavesLoop (w : World) (master : Ptr) : List Int → Option World
  | [] => some w
  | it :: r =>
    let (p, w1) := w.workersIndex it
    match castSlave w1 p with
    | none => none
    | some slave =>
      match Master.addSlave w1 master it slave with
      | none => none
      | some (_, w2) => addSlavesLoop w2 master r

/-- `PipelineManager::addSlavesToWorkerEvent` (lines 592-630): the value added to
the output node under "error" (`none` is `Jzon::null`) and the state. -/
def addSlavesToWorkerEvent (w : World) (params : Params) : Option (Option String × World) :=
  match params with
  | none => some (some "Error adding slaves to worker. Invalid JSON format...", w)
  | some ps =>
    if !Has ps "master" then
      some (some "Error adding slaves to worker. Invalid JSON format...", w)
    else if !Has ps "slaves" || !(Get ps "slaves").IsArray then
      some (some "Error adding slaves to worker. Invalid JSON format...", w)
    else
      match (Get ps "slaves").AsArray with
      | none => none
      | some jsonSlavesIds =>
        match castMaster w (getWorker w (Get ps "master").ToInt) with
        | none => none
        | some master =>
          if master = 0 then
            some (some "Error adding slaves to worker. Invalid Master ID...", w)
          else
            match addSlavesLoop w master jsonSlavesIds with
            | none => none
            | some w1 =>
              match startWorkers w1 with
              | none => none
              | some w2 => some (none, w2)

/-- The loop of `addFiltersToWorkerEvent` (lines 655-661): the filters are
assigned in array order, and the first rejected one ends the loop. -/
def addFiltersLoop (w : World) (workerId : Int) : List Int → Option (Bool × World)
  | [] => some (true, w)
  | it :: r =>
    match addFilterToWorker w workerId it with
    | none => none
    | some (false, w1) => some (false, w1)
    | some (true, w1) => addFiltersLoop w1 workerId r

/-- `PipelineManager::addFiltersToWorkerEvent` (lines 632-666): the value added to
the output node under "error" (`none` is `Jzon::null`) and the state. -/
def addFiltersToWorkerEvent (w : World) (params : Params) : Option (Option String × World) :=
  match params with
  | none => some (some "Error adding slaves to worker. Invalid JSON format...", w)
  | some ps =>
    if !Has ps "worker" then
      some (some "Error adding filters to worker. Invalid JSON format...", w)
    else if !Has ps "filters" || !(Get ps "filters").IsArray then
      some (some "Error adding filters to worker. Invalid JSON format...", w)
    else
      match (Get ps "filters").AsArray with
      | none => none
      | some jsonFiltersIds =>
        match addFiltersLoop w (Get ps "worker").ToInt jsonFiltersIds with
        | none => none
        | some (false, w1) =>
          some (some "Error adding filters to worker. Invalid internal error...", w1)
        | some (true, w1) =>
          match startWorkers w1 with
          | none => none
          | some w2 => some (none, w2)

/-- Modelled from the spec: a node of the response (section 6; the JSON library
is not under src/): null, an integer, a string, an array or an object. -/
inductive JNode where
  | null
  | int (n : Int)
  | str (s : String)
  | array (items : List JNode)
  | object (fields : List (String × JNode))

/-- The value of the first field called `name` of an object node (null when there
is none). -/
def JNode.get (o : JNode) (name : String) : JNode :=
  match o with
  | JNode.object fields =>
    match fields.find? (fun e => e.1 == name) with
    | some e => e.2
    | none => JNode.null
  | _ => JNode.null

/-- The elements of an array node. -/
def JNode.items : JNode → List JNode
  | JNode.array items => items
  | _ => []

/-- The name of a filter type tag. -/
def FilterType.name : FilterType → String
  | FilterType.VIDEO_DECODER => "videoDecoder"
  | FilterType.VIDEO_ENCODER => "videoEncoder"
  | FilterType.VIDEO_MIXER => "videoMixer"
  | FilterType.VIDEO_RESAMPLER => "videoResampler"
  | FilterType.AUDIO_DECODER => "audioDecoder"
  | FilterType.AUDIO_ENCODER => "audioEncoder"
  | FilterType.AUDIO_MIXER => "audioMixer"
  | FilterType.RECEIVER => "receiver"
  | FilterType.TRANSMITTER => "transmitter"

/-- Modelled from the spec: `BaseFilter::getState` (Filter.cpp is not under src/)
adds the state of the filter to the node that already carries its id (section 6:
`filters[{id, state}]`); the state is reported here by the filter's type name.
The filter is not changed. -/
def BaseFilter.getState (w : World) (self : Ptr) (node : List (String × JNode)) :
    Option (List (String × JNode) × World) :=
  match w.filterAt self with
  | none => none
  | some f => some (node ++ [("state", JNode.str f.fType.name)], w)

/-- The first loop of `getStateEvent` (lines 355-360), over the filters table:
the list of nodes added to `filterList`. -/
def filterListLoop (w : World) : List (Int × Ptr) → Option (List JNode × World)
  | [] => some ([], w)
  | it :: r =>
    match BaseFilter.getState w it.2 [("id", JNode.int it.1)] with
    | none => none
    | some (filter, w1) =>
      match filterListLoop w1 r with
      | none => none
      | some (rest, w2) => some (JNode.object filter :: rest, w2)

/-- The node built for one path by the second loop of `getStateEvent` (lines
365-379). -/
def pathNode (id : Int) (pa : Path) : JNode :=
  JNode.object [("id", JNode.int id), ("originFilter", JNode.int pa.originFilterID),
    ("destinationFilter", JNode.int pa.destinationFilterID),
    ("originWriter", JNode.int pa.orgWriterID),
    ("destinationReader", JNode.int pa.dstReaderID),
    ("filters", JNode.array (pa.filters.map JNode.int))]

/-- The second loop of `getStateEvent` (lines 364-381), over the paths table: the
list of nodes added to `pathList`. -/
def pathListLoop (w : World) : List (Int × Ptr) → Option (List JNode)
  | [] => some []
  | it :: r =>
    match w.pathAt it.2 with
    | none => none
    | some pa =>
      match pathListLoop w r with
      | none => none
      | some rest => some (pathNode it.1 pa :: rest)

/-- The third loop of `getStateEvent` (lines 385-389), over the workers table: the
list of nodes added to `workersList`; the worker objects are not read. -/
def workersListLoop : List (Int × Ptr) → List JNode
  | [] => []
  | it :: r => JNode.object [("id", JNode.int it.1)] :: workersListLoop r

/-- `PipelineManager::getStateEvent` (lines 349-393): the fields of the output
node after the event, and the state. -/
def getStateEvent (w : World) (outputNode : List (String × JNode)) :
    Option (List (String × JNode) × World) :=
  match filterListLoop w w.filters with
  | none => none
  | some (filterList, w1) =>
    match pathListLoop w1 w1.paths with
    | none => none
    | some pathList =>
      some (outputNode ++ [("filters", JNode.array filterList),
        ("paths", JNode.array pathList),
        ("workers", JNode.array (workersListLoop w1.workers))], w1)

/-- `PipelineManager::getTransmitter` (lines 344-347): the expression
`dynamic_cast<SinkManager*>(filters[transmitterID])`, null for a filter that is
not the sink manager and undefined on a dangling pointer. -/
def getTransmitter (w : World) : Option (Ptr × World) :=
  let (p, w1) := w.filtersIndex w.transmitterID
  if p = 0 then some (0, w1)
  else
    match w1.filterObjs p with
    | none => none
    | some f => if f.fType = FilterType.TRANSMITTER then some (p, w1) else some (0, w1)

/-- The expression `dynamic_cast<AudioEncoderLibav*>(p)`: null for a null pointer
and for a filter that is no audio encoder, undefined on a dangling pointer. -/
def castAudioEncoder (w : World) (p : Ptr) : Option Ptr :=
  if p = 0 then some 0
  else
    match w.filterObjs p with
    | none => none
    | some f => if f.fType = FilterType.AUDIO_ENCODER then some p else some 0

/-- Modelled from the spec: `AudioEncoderLibav::configure` (the encoder is not
under src/) sets codec, channels and sample rate, which are internal state of
the encoder and have no part in the manager's state: the call only needs a live
encoder. -/
def AudioEncoderLibav.configure (w : World) (self : Ptr) : Option World :=
  match w.filterAt self with
  | none => none
  | some _ => some w

/-- Modelled from the spec: the constructor `AudioEncoderPath(originFilterID,
orgWriterID)` (Path.cpp is not under src/), which section 4.5 words "construct a
replacement encoder path": a new audio encoder is created and registered in the
filters table under the ID `encoderRand` (a value of `rand()`), and the new path
has the given origin and writer, that encoder as its only intermediate filter,
and no destination yet (`-1`). -/
def newAudioEncoderPath (w : World) (originFilterID orgWriterID encoderRand : Int) :
    Ptr × World :=
  let (encoder, w1) := newFilter w FilterType.AUDIO_ENCODER
  let (_, w2) := addFilter w1 encoderRand encoder
  (w2.nextPtr + 1, { w2.setPath (w2.nextPtr + 1) (some
      { originFilterID := originFilterID, destinationFilterID := -1,
        orgWriterID := orgWriterID, dstReaderID := -1,
        filters := [encoderRand], shared := false }) with
    nextPtr := w2.nextPtr + 1 })

/-- Modelled from the spec: `Path::setDestinationFilter` (Path.cpp is not under
src/) sets the destination filter ID and the destination reader ID of the path. -/
def Path.setDestinationFilter (w : World) (self : Ptr) (destinationFilterID dstReaderID : Int) :
    Option World :=
  match w.pathAt self with
  | none => none
  | some pa =>
    some (w.setPath self (some
      { pa with destinationFilterID := destinationFilterID, dstReaderID := dstReaderID }))

/-- The loop of `reconfigAudioEncoderEvent` (lines 415-420) over the paths table:
`acc` holds the locals `pathID` and `path`, which the last path whose first
intermediate filter is `encoderID` overwrites.  `front()` of an empty
intermediate list is undefined. -/
def findEncoderPath (w : World) (encoderID : Int) :
    List (Int × Ptr) → Int × Ptr → Option (Int × Ptr)
  | [], acc => some acc
  | it :: r, acc =>
    match w.pathAt it.2 with
    | none => none
    | some pa =>
      match pa.filters with
      | [] => none
      | front :: _ =>
        if front = encoderID then findEncoderPath w encoderID r (it.1, it.2)
        else findEncoderPath w encoderID r acc

/-- The path registered by the table entry `e` has `encoderID` as the first
element of its intermediate list. -/
def headsPath (w : World) (encoderID : Int) (e : Int × Ptr) : Bool :=
  match w.pathAt e.2 with
  | some pa => decide (pa.filters.head? = some encoderID)
  | none => false

/-- `PipelineManager::reconfigAudioEncoderEvent` (lines 395-453): the value added
to the output node under "error" (`none` is `Jzon::null`) and the state.  The
locals `pathID` and `path` are declared without a value (lines 397-399):
`pathID0` and `path0` are the values they happen to hold.  `encoderRand` and
`pathRand` are the values of `rand()` in the path constructor and at line 444.
The event tests no null `params` before `params->Has`. -/
def reconfigAudioEncoderEvent (w : World) (params : Params) (pathID0 : Int) (path0 : Ptr)
    (encoderRand pathRand : Int) : Option (Option String × World) :=
  match getTransmitter w with
  | none => none
  | some (transmitter, w0) =>
    match params with
    | none => none
    | some ps =>
      if !Has ps "encoderID" || !Has ps "codec" || !Has ps "sampleRate"
          || !Has ps "channels" then
        some (some "Error configure audio encoder. Encoder ID is not valid", w0)
      else
        match findEncoderPath w0 (Get ps "encoderID").ToInt w0.paths (pathID0, path0) with
        | none => none
        | some (pathID, path) =>
          if path = 0 then some (some "Error reconfiguring audio encoder", w0)
          else
            match w0.pathAt path with
            | none => none
            | some pa =>
              match removePath w0 pathID with
              | none => none
              | some (false, w1) => some (some "Error reconfiguring audio encoder", w1)
              | some (true, w1) =>
                match BaseFilter.generateWriterID w1 (getFilter w1 pa.originFilterID) with
                | none => none
                | some (writer, w2) =>
                  match newAudioEncoderPath w2 pa.originFilterID writer encoderRand with
                  | (newPath, w3) =>
                    match w3.pathAt newPath with
                    | none => none
                    | some npa =>
                      match npa.filters with
                      | [] => none
                      | front :: _ =>
                        match castAudioEncoder w3 (getFilter w3 front) with
                        | none => none
                        | some encoder =>
                          match AudioEncoderLibav.configure w3 encoder with
                          | none => none
                          | some w4 =>
                            match BaseFilter.generateReaderID w4 transmitter with
                            | none => none
                            | some (reader, w5) =>
                              match Path.setDestinationFilter w5 newPath w5.transmitterID
                                  reader with
                              | none => none
                              | some w6 =>
                                match connectPath w6 newPath with
                                | none => none
                                | some (false, w7) =>
                                  some (some
                                    "Error configure audio encoder. Encoder ID is not valid",
                                    w7)
                                | some (true, w7) =>
                                  match addPath w7 pathRand newPath with
                                  | (false, w8) =>
                                    some (some
                                      "Error configure audio encoder. Encoder ID is not valid",
                                      w8)
                                  | (true, w8) => some (none, w8)

/-! ## The queue source (`network/QueueSource.cpp`) -/

namespace Network

/-- Modelled from the spec: a frame (section 4.1; Frame.hh is not under src/): its
flat byte buffer.  `getBuffer()` is `buffer` and `getBufferLen()` its length. -/
structure Frame where
  buffer : List Nat
  deriving DecidableEq, Repr

/-- Modelled from the spec: the ring of a frame queue (sections 3 and 4.2;
FrameQueue.hh is not under src/): the per-slot frames (the capacity N is their
number), the head index, where the producer writes, and the tail index, where
the consumer reads.  The queue is empty when head = tail and full when
(head + 1) mod N = tail. -/
structure FrameQueue where
  slots : List Frame
  head : Nat
  tail : Nat
  deriving DecidableEq, Repr

namespace FrameQueue

/-- The invariants of section 3: capacity N >= 2 and head, tail in [0, N). -/
def wf (q : FrameQueue) : Prop :=
  2 ≤ q.slots.length ∧ q.head < q.slots.length ∧ q.tail < q.slots.length

instance (q : FrameQueue) : Decidable q.wf := by
  unfold wf
  infer_instance

/-- Modelled from the spec: `getFront()` "consumer inspects the oldest unread
frame; returns nothing when empty". -/
def getFront (q : FrameQueue) : Option Frame :=
  if q.head = q.tail then none else q.slots[q.tail]?

/-- Modelled from the spec: `removeFrame()` "consumer releases the slot; advances
tail". -/
def removeFrame (q : FrameQueue) : FrameQueue :=
  { q with tail := (q.tail + 1) % q.slots.length }

/-- Modelled from the spec: the queue is "full when (head+1) mod N == tail". -/
def full (q : FrameQueue) : Bool :=
  (q.head + 1) % q.slots.length == q.tail

/-- Modelled from the spec: the producer side, `getRear()` followed by
`addFrame()`: the frame is written in the slot at head and head advances; on a
full queue the frame is dropped. -/
def produce (q : FrameQueue) (f : Frame) : FrameQueue :=
  if q.full then q
  else { q with slots := q.slots.set q.head f, head := (q.head + 1) % q.slots.length }

/-- The number of unread frames. -/
def size (q : FrameQueue) : Nat :=
  (q.head + q.slots.length - q.tail) % q.slots.length

/-- The unread frames, oldest first: the slots from tail up to head, round the
ring. -/
def unread (q : FrameQueue) : List Frame :=
  (List.range q.size).filterMap (fun i => q.slots[(q.tail + i) % q.slots.length]?)

end FrameQueue

/-- What the source hands to its reader at `afterGetting`: the bytes of the
delivered frame with the sizes and time reported. -/
structure Delivery where
  data : List Nat
  frameSize : Nat
  numTruncatedBytes : Nat
  presentationTime : Nat
  deriving DecidableEq, Repr

/-- The class `QueueSource` with the members of `FramedSource` it uses: the
destination region `fTo` (the bytes that may be written there), `fMaxSize`,
`fFrameSize`, `fNumTruncatedBytes` and `fPresentationTime`.  `pending` counts
the delayed tasks scheduled for `staticDoGetNextFrame` and `delivered` records
the calls of `afterGetting` (both ghost). -/
structure QueueSource where
  queue : FrameQueue
  frame : Option Frame
  fTo : List Nat
  fMaxSize : Nat
  fFrameSize : Nat
  fNumTruncatedBytes : Nat
  fPresentationTime : Nat
  pending : Nat
  delivered : List Delivery
  deriving DecidableEq, Repr

/-- The call `memcpy(dst, src, n)` with `n` the length of `src`: the first bytes
of the destination region are overwritten; writing past its end is undefined. -/
def memcpy (dst src : List Nat) : Option (List Nat) :=
  if src.length ≤ dst.length then some (src ++ dst.drop src.length) else none

/-- The call `afterGetting(this)`: the frame of `fFrameSize` bytes at `fTo` is
handed to the reader. -/
def afterGetting (s : QueueSource) : QueueSource :=
  { s with delivered := s.delivered ++
      [{ data := s.fTo.take s.fFrameSize, frameSize := s.fFrameSize,
         numTruncatedBytes := s.fNumTruncatedBytes,
         presentationTime := s.fPresentationTime }] }

/-- `QueueSource::doGetNextFrame` (lines 15-29); `now` is the value of
`gettimeofday`. -/
def doGetNextFrame (s : QueueSource) (now : Nat) : Option QueueSource :=
  match s.queue.getFront with
  | none => some { s with frame := none, pending := s.pending + 1 }
  | some frame =>
    match memcpy s.fTo frame.buffer with
    | none => none
    | some fTo1 =>
      some (afterGetting
        { s with frame := some frame, fTo := fTo1, fFrameSize := frame.buffer.length,
                 fPresentationTime := now, fNumTruncatedBytes := 0,
                 queue := s.queue.removeFrame })

/-- Successive calls of `doGetNextFrame`, one for each time in `times`. -/
def getFrames (s : QueueSource) : List Nat → Option QueueSource
  | [] => some s
  | now :: r =>
    match doGetNextFrame s now with
    | none => none
    | some s1 => getFrames s1 r

end Network

/-! ## Sample states -/

/-- Create a filter of type `t` and register it under `id`, as `createFilterEvent`
does (lines 474-481). -/
def withFilter (w : World) (id : Int) (t : FilterType) : World :=
  (addFilter (createFilter w t).2 id (createFilter w t).1).2

/-- Create a worker of discipline `k` and register it under `id`, as
`addWorkerEvent` does (lines 567-582). -/
def withWorker (w : World) (id : Int) (k : WorkerKind) : World :=
  (addWorker (newWorker w k).2 id (newWorker w k).1).2

/-- Three filters 1, 10, 2 (mixer, encoder, mixer) and two workers 7 and 8. -/
def sampleWorld : World :=
  withWorker (withWorker (withFilter (withFilter (withFilter World.blank
    1 FilterType.AUDIO_MIXER) 10 FilterType.AUDIO_ENCODER) 2 FilterType.AUDIO_MIXER)
    7 WorkerKind.bestEffortMaster) 8 WorkerKind.bestEffortMaster

/-- The sample state after `createPath(1, 2, -1, -1, [10], false)`. -/
def sampleCreated : World :=
  match createPath sampleWorld 1 2 (-1) (-1) [10] false with
  | some r => r.2
  | none => sampleWorld

/-- The path object made by that call. -/
def samplePath : Ptr :=
  match createPath sampleWorld 1 2 (-1) (-1) [10] false with
  | some r => r.1
  | none => 0

/-- The sample state after `connectPath` on that path. -/
def sampleConnected : World :=
  match connectPath sampleCreated samplePath with
  | some r => r.2
  | none => sampleCreated

/-- The sample state with reader 5 of filter 2 taken by a connected direct path
1 -> 2, followed by `createPath(1, 2, -1, 5, [10], false)`. -/
def blockedSetup : Option (Ptr × World) :=
  match createPath sampleWorld 1 2 (-1) 5 [] false with
  | none => none
  | some (p1, w1) =>
    match connectPath w1 p1 with
    | none => none
    | some (_, w2) => createPath w2 1 2 (-1) 5 [10] false

/-- The state reached by `blockedSetup`. -/
def blockedWorld : World :=
  match blockedSetup with
  | some r => r.2
  | none => sampleWorld

/-- The path 1 -> [10] -> 2 made by `blockedSetup`. -/
def blockedPath : Ptr :=
  match blockedSetup with
  | some r => r.1
  | none => 0

/-- The state `blockedWorld` after the first connect call of that path. -/
def blockedHalf : World :=
  match BaseFilter.connectManyToOne blockedWorld 1 2 3 false with
  | some r => r.2
  | none => blockedWorld

/-- A manager built by the constructor with endpoint IDs 1000 and 2000, then an
audio encoder registered as filter 10 and two workers registered as 7 and 8. -/
def managed : Option World :=
  match construct 1000 2000 with
  | none => none
  | some w0 =>
    some (withWorker (withWorker (withFilter w0 10 FilterType.AUDIO_ENCODER)
      7 WorkerKind.bestEffortMaster) 8 WorkerKind.bestEffortMaster)

/-- On `managed`: `addFilterToWorker(7, 10)` and then `addFilterToWorker(8, 10)`,
with the two return values. -/
def doubleAssigned : Option (Bool × Bool × World) :=
  match managed with
  | none => none
  | some w1 =>
    match addFilterToWorker w1 7 10 with
    | none => none
    | some (b1, w2) =>
      match addFilterToWorker w2 8 10 with
      | none => none
      | some (b2, w3) => some (b1, b2, w3)

/-- After `doubleAssigned`: the path receiver -> [10] -> transmitter is created,
connected (with success) and registered as path 100, and `removePath(100)` is
called. -/
def staleRemoval : Option (Bool × World) :=
  match doubleAssigned with
  | none => none
  | some (_, _, w3) =>
    match createPath w3 1000 2000 (-1) (-1) [10] false with
    | none => none
    | some (p, w4) =>
      match connectPath w4 p with
      | some (true, w5) => removePath (addPath w5 100 p).2 100
      | _ => none

/-- On the sample state: filters 1 and 10 are given to worker 7, the path
1 -> [10, 1] -> 2, whose intermediate list names its own origin, is created,
connected (with success) and registered as path 100, and `removePath(100)` is
called. -/
def endpointRemoval : Option (Bool × World) :=
  match addFilterToWorker sampleWorld 7 1 with
  | none => none
  | some (_, w0) =>
    match addFilterToWorker w0 7 10 with
    | none => none
    | some (_, w1) =>
      match createPath w1 1 2 (-1) (-1) [10, 1] false with
      | none => none
      | some (p, w2) =>
        match connectPath w2 p with
        | some (true, w3) => removePath (addPath w3 100 p).2 100
        | _ => none

/-- The sample state with filter 10 given to worker 7 and the connected sample
path 1 -> [10] -> 2 registered as path 100. -/
def sampleRegistered : World :=
  match addFilterToWorker sampleConnected 7 10 with
  | some r => (addPath r.2 100 samplePath).2
  | none => sampleConnected

/-- The state after `removePath(100)` on `sampleRegistered`. -/
def sampleRemoved : World :=
  match removePath sampleRegistered 100 with
  | some r => r.2
  | none => sampleRegistered

/-- A createPath event for a direct path 1 -> 2 under the path ID 100. -/
def duplicatePathParams : Params :=
  some [("id", JValue.int 100), ("orgFilterId", JValue.int 1), ("dstFilterId", JValue.int 2),
    ("orgWriterId", JValue.int (-1)), ("dstReaderId", JValue.int (-1)),
    ("midFiltersIds", JValue.array []), ("sharedQueue", JValue.bool false)]

/-- An addWorker event with the given worker ID and type string, at 25 fps. -/
def workerParams (id : Int) (type : String) : Params :=
  some [("id", JValue.int id), ("type", JValue.str type), ("fps", JValue.int 25)]

/-- An addSlavesToWorker event for the master `m` and the slave IDs `ss`. -/
def slavesParams (m : Int) (ss : List Int) : Params :=
  some [("master", JValue.int m), ("slaves", JValue.array ss)]

/-- An addFiltersToWorker event for the worker `k` and the filter IDs `fs`. -/
def filtersParams (k : Int) (fs : List Int) : Params :=
  some [("worker", JValue.int k), ("filters", JValue.array fs)]

/-- The sample state after `addFilterToWorker(7, 10)`. -/
def sampleAssigned : World :=
  match addFilterToWorker sampleWorld 7 10 with
  | some r => r.2
  | none => sampleWorld

/-- The sample state with worker 7 (object 4) started and worker 8 stopped. -/
def sampleHalfRunning : World :=
  match Worker.start sampleWorld 4 with
  | some w => w
  | none => sampleWorld

/-- The sample state after `startWorkers`: workers 7 and 8 are running. -/
def sampleAllRunning : World :=
  match startWorkers sampleWorld with
  | some w => w
  | none => sampleWorld

/-- A queue source over a ring of capacity 4 holding two unread frames, of 2 and
3 bytes, in slots 1 and 2, with room for 4 bytes at `fTo`. -/
def Network.sampleSource : Network.QueueSource :=
  { queue := { slots := [{ buffer := [9] }, { buffer := [1, 2] }, { buffer := [3, 4, 5] },
                         { buffer := [] }],
               head := 3, tail := 1 },
    frame := none, fTo := [0, 0, 0, 0], fMaxSize := 4, fFrameSize := 0,
    fNumTruncatedBytes := 0, fPresentationTime := 0, pending := 0, delivered := [] }

/-- The same queue source with its two frames read: the ring is empty. -/
def Network.sampleDrained : Network.QueueSource :=
  { Network.sampleSource with queue := { Network.sampleSource.queue with tail := 3 } }

/-- The pipeline of the constructor (IDs 1000 and 2000) with a mixer 1, an audio
encoder 11 assigned to worker 7, and the connected path 1 -> 11 -> 2000
registered under 100. -/
def encoderWorld : World :=
  match construct 1000 2000 with
  | none => World.blank
  | some w0 =>
    match addFilterToWorker (withWorker (withFilter (withFilter w0 1 FilterType.AUDIO_MIXER)
        11 FilterType.AUDIO_ENCODER) 7 WorkerKind.bestEffortMaster) 7 11 with
    | none => World.blank
    | some (_, w2) =>
      match createPath w2 1 2000 (-1) (-1) [11] false with
      | none => World.blank
      | some (p, w3) =>
        match connectPath w3 p with
        | some (true, w4) => (addPath w4 100 p).2
        | _ => World.blank

/-- The pipeline of the constructor (IDs 1000 and 2000) with a mixer 1 and the
connected direct path 1 -> 2000, whose intermediate list is empty, registered
under 100. -/
def directWorld : World :=
  match construct 1000 2000 with
  | none => World.blank
  | some w0 =>
    match createPath (withFilter w0 1 FilterType.AUDIO_MIXER) 1 2000 (-1) (-1) [] false with
    | none => World.blank
    | some (p, w3) =>
      match connectPath w3 p with
      | some (true, w4) => (addPath w4 100 p).2
      | _ => World.blank

/-- The parameters of a reconfigAudioEncoder event for the encoder `k`. -/
def encoderParams (k : Int) : List (String × JValue) :=
  [("encoderID", JValue.int k), ("codec", JValue.str "opus"),
    ("sampleRate", JValue.int 48000), ("channels", JValue.int 2)]

/-- The state after the reconfigAudioEncoder event for encoder 11 on
`encoderWorld`, with 12 and 101 as the values of `rand()`. -/
def encoderReconfigured : World :=
  match reconfigAudioEncoderEvent encoderWorld (some (encoderParams 11)) 0 0 12 101 with
  | some r => r.2
  | none => World.blank

/-- The state of `doubleAssigned`: filter 10 assigned to worker 7 and then to
worker 8. -/
def twiceAssigned : World :=
  match doubleAssigned with
  | some r => r.2.2
  | none => World.blank

/-- The state after `addFilterToWorker(7, 10)` on `twiceAssigned`. -/
def reassigned : World :=
  match addFilterToWorker twiceAssigned 7 10 with
  | some r => r.2
  | none => World.blank

/-- The sample queue source with `fMaxSize` 1: the reader has room for one byte
of the four at `fTo`, and the front frame has two. -/
def Network.sampleOversize : Network.QueueSource :=
  { Network.sampleSource with fMaxSize := 1 }

/-- The sample queue source with one byte at `fTo` and `fMaxSize` 1. -/
def Network.sampleOverflow : Network.QueueSource :=
  { Network.sampleSource with fTo := [0], fMaxSize := 1 }

/-- The sample state without filter 10 and worker 8, and with the ID 10
registered for the object of filter 1: two IDs bound to one filter object. -/
def aliasWorld : World :=
  (addFilter (withWorker (withFilter (withFilter World.blank 1 FilterType.AUDIO_MIXER)
    2 FilterType.AUDIO_MIXER) 7 WorkerKind.bestEffortMaster) 10 1).2

/-- On `aliasWorld`: filter 10 is given to worker 7, the path 1 -> [10] -> 2 is
created, connected (with success) and registered as path 100, and
`removePath(100)` is called. -/
def aliasRemoval : Option (Bool × World) :=
  match addFilterToWorker aliasWorld 7 10 with
  | none => none
  | some (_, w1) =>
    match createPath w1 1 2 (-1) (-1) [10] false with
    | none => none
    | some (p, w2) =>
      match connectPath w2 p with
      | some (true, w3) => removePath (addPath w3 100 p).2 100
      | _ => none

/-- The sample queue source with two bytes at `fTo` and `fMaxSize` 2: the first
unread frame, of 2 bytes, fits and the second, of 3 bytes, does not. -/
def Network.sampleNarrow : Network.QueueSource :=
  { Network.sampleSource with fTo := [0, 0], fMaxSize := 2 }

/-! ## Theorems -/

theorem Table.count_pos_iff (t : Table) (k : Int) :
    t.count k > 0 ↔ ∃ p, t.find k = some p := by
  unfold Table.count
  cases h : t.find k <;> simp

theorem Table.count_eq_zero_iff (t : Table) (k : Int) :
    ¬ t.count k > 0 ↔ t.find k = none := by
  unfold Table.count
  cases h : t.find k <;> simp

theorem Table.find_insert (t : Table) (k : Int) (p : Ptr) (j : Int) :
    (t.insert k p).find j = if j = k then some p else t.find j := by
  induction t with
  | nil =>
    simp only [Table.insert, Table.find]
    by_cases h : k = j
    · simp [h]
    · have h' : ¬ j = k := fun e => h e.symm
      simp [h, h']
  | cons e r ih =>
    obtain ⟨k', p'⟩ := e
    simp only [Table.insert]
    by_cases h1 : k < k'
    · simp only [h1, if_true, Table.find]
      by_cases h : k = j
      · simp [h]
      · have h' : ¬ j = k := fun e => h e.symm
        simp [h, h']
    · simp only [h1, if_false]
      by_cases h2 : k = k'
      · subst h2
        simp only [if_true, Table.find]
        by_cases h : k = j
        · simp [h]
        · have h' : ¬ j = k := fun e => h e.symm
          simp [h, h']
      · simp only [h2, if_false, Table.find, ih]
        by_cases h : k' = j
        · have h' : ¬ j = k := fun e => h2 (e.symm.trans h.symm)
          simp [h, h']
        · simp [h]

theorem Table.find_erase (t : Table) (k j : Int) :
    (t.erase k).find j = if j = k then none else t.find j := by
  induction t with
  | nil => simp [Table.erase, Table.find]
  | cons e r ih =>
    obtain ⟨k', p'⟩ := e
    unfold Table.erase at ih ⊢
    by_cases h1 : k' = k
    · subst h1
      simp only [List.filter, ne_eq, not_true_eq_false, decide_False, ih, Table.find]
      by_cases h : j = k'
      · simp [h]
      · have h' : ¬ k' = j := fun e => h e.symm
        simp [h, h']
    · simp only [List.filter, ne_eq, h1, not_false_eq_true, decide_True, Table.find, ih]
      by_cases h : k' = j
      · have h' : ¬ j = k := fun e => h1 (h.trans e)
        simp [h, h']
      · simp [h]

theorem Table.length_insert_of_find_none (t : Table) (k : Int) (p : Ptr)
    (h : t.find k = none) : (t.insert k p).length = t.length + 1 := by
  induction t with
  | nil => simp [Table.insert]
  | cons e r ih =>
    obtain ⟨k', p'⟩ := e
    simp only [Table.find] at h
    by_cases hk : k' = k
    · simp [hk] at h
    · simp only [hk, if_false] at h
      have hk' : ¬ k = k' := fun e => hk e.symm
      simp only [Table.insert, hk', if_false]
      by_cases h1 : k < k'
      · simp [h1]
      · simp [h1, ih h]

theorem Table.find_eq_none_iff (t : Table) (k : Int) :
    t.find k = none ↔ k ∉ t.keys := by
  induction t with
  | nil => simp [Table.find, Table.keys]
  | cons e r ih =>
    obtain ⟨k', p'⟩ := e
    simp only [Table.keys, List.map_cons, List.mem_cons, not_or] at ih ⊢
    simp only [Table.find]
    by_cases h : k' = k
    · simp [h]
    · have h' : ¬ k = k' := fun e => h e.symm
      simp [h, h', ih]

theorem Table.count_pos_iff_mem (t : Table) (k : Int) :
    t.count k > 0 ↔ k ∈ t.keys := by
  have h := Table.find_eq_none_iff t k
  unfold Table.count
  cases hf : t.find k with
  | none => simpa using h.mp hf
  | some p =>
    rw [hf] at h
    simp only [reduceCtorEq, false_iff, not_not] at h
    simpa using h

theorem Table.count_le_zero_iff (t : Table) (k : Int) :
    t.count k ≤ 0 ↔ k ∉ t.keys := by
  rw [← Table.count_pos_iff_mem]
  omega

theorem Table.index_of_mem (t : Table) (k : Int) (h : k ∈ t.keys) :
    (t.index k).2 = t ∧ t.find k = some (t.index k).1 := by
  have h1 : t.find k ≠ none := fun e => (Table.find_eq_none_iff t k).mp e h
  unfold Table.index
  cases hf : t.find k with
  | none => exact absurd hf h1
  | some p => simp

theorem Table.ptr_of_mem (t : Table) (k : Int) (h : k ∈ t.keys) :
    t.find k = some (t.ptr k) := by
  have h1 : t.find k ≠ none := fun e => (Table.find_eq_none_iff t k).mp e h
  unfold Table.ptr
  cases hf : t.find k with
  | none => exact absurd hf h1
  | some p => rfl

theorem World.filtersIndex_of_mem (w : World) (k : Int) (h : k ∈ w.filters.keys) :
    w.filtersIndex k = (w.filters.ptr k, w) := by
  have hf := Table.ptr_of_mem w.filters k h
  unfold World.filtersIndex Table.index
  rw [hf]

theorem World.workersIndex_of_mem (w : World) (k : Int) (h : k ∈ w.workers.keys) :
    w.workersIndex k = (w.workers.ptr k, w) := by
  have hf := Table.ptr_of_mem w.workers k h
  unfold World.workersIndex Table.index
  rw [hf]

theorem Frame.refl (w : World) : Frame w w [] := by
  simp [Frame]

theorem Frame.trans {w1 w2 w3 : World} {c1 c2 : List WiringCall}
    (h1 : Frame w1 w2 c1) (h2 : Frame w2 w3 c2) : Frame w1 w3 (c1 ++ c2) := by
  obtain ⟨a1, a2, a3, a4, a5, a6, a7⟩ := h1
  obtain ⟨b1, b2, b3, b4, b5, b6, b7⟩ := h2
  refine ⟨b1.trans a1, b2.trans a2, b3.trans a3, b4.trans a4, b5.trans a5, ?_, ?_⟩
  · rw [b6, a6, List.append_assoc]
  · intro q
    rw [b7, a7]

theorem World.filterAt_setFilter (w : World) (p q : Ptr) (f : Option BaseFilter) :
    (w.setFilter p f).filterAt q = if q = 0 then none else if q = p then f else w.filterObjs q := by
  unfold World.filterAt World.setFilter
  by_cases h : q = 0 <;> simp [h]

theorem World.filterAt_log (w : World) (c : WiringCall) (q : Ptr) :
    (w.log c).filterAt q = w.filterAt q := rfl

theorem Frame.log (w : World) (c : WiringCall) : Frame w (w.log c) [c] := by
  simp [Frame, World.log, World.filterAt]

theorem Frame.setFilter_live (w : World) (p : Ptr) (f g : BaseFilter)
    (h : w.filterAt p = some f) : Frame w (w.setFilter p (some g)) [] := by
  refine ⟨rfl, rfl, rfl, rfl, rfl, by simp [World.setFilter], ?_⟩
  intro q
  rw [World.filterAt_setFilter]
  by_cases h0 : q = 0
  · simp [h0, World.filterAt]
  · by_cases hq : q = p
    · subst hq
      simp [h0, h]
    · simp [h0, hq, World.filterAt]

theorem BaseFilter.connect_frame (w : World) (self other : Ptr) (wr rd : Int) (sh : Bool)
    (b : Bool) (w' : World) (h : BaseFilter.connect w self other wr rd sh = some (b, w')) :
    Frame w w' [] := by
  unfold BaseFilter.connect at h
  cases hf : w.filterAt self with
  | none => simp [hf] at h
  | some f =>
    cases hg : w.filterAt other with
    | none => simp [hf, hg] at h
    | some g =>
      simp only [hf, hg] at h
      split at h
      · simp only [Option.some.injEq, Prod.mk.injEq] at h
        rw [← h.2]
        exact Frame.refl w
      · have F1 := Frame.setFilter_live w self f
          { f with writers := f.writers.insert wr (w.nextPtr + 1) } hf
        split at h
        · simp at h
        · rename_i g1 hg1
          simp only [Option.some.injEq, Prod.mk.injEq] at h
          have F2 := Frame.setFilter_live _ other g1
            { g1 with readers := g1.readers.insert rd (w.nextPtr + 1) } hg1
          have F := Frame.trans F1 F2
          rw [← h.2]
          obtain ⟨a1, a2, a3, a4, a5, a6, a7⟩ := F
          exact ⟨a1, a2, a3, a4, a5, a6, a7⟩

theorem BaseFilter.disconnect_frame (w : World) (self other : Ptr) (wr rd : Int)
    (b : Bool) (w' : World) (h : BaseFilter.disconnect w self other wr rd = some (b, w')) :
    Frame w w' [WiringCall.disconnect self other wr rd] := by
  unfold BaseFilter.disconnect at h
  have L := Frame.log w (WiringCall.disconnect self other wr rd)
  generalize w.log (WiringCall.disconnect self other wr rd) = w0 at h L
  simp only at h
  cases hf : w0.filterAt self with
  | none => simp [hf] at h
  | some f =>
    cases hg : w0.filterAt other with
    | none => simp [hf, hg] at h
    | some g =>
      simp only [hf, hg] at h
      split at h
      · rename_i q q' hq hq'
        split at h
        · have F1 := Frame.setFilter_live w0 self f
            { f with writers := f.writers.erase wr } hf
          split at h
          · simp at h
          · rename_i g1 hg1
            simp only [Option.some.injEq, Prod.mk.injEq] at h
            have F2 := Frame.setFilter_live _ other g1
              { g1 with readers := g1.readers.erase rd } hg1
            have F := Frame.trans L (Frame.trans F1 F2)
            rw [← h.2]
            obtain ⟨a1, a2, a3, a4, a5, a6, a7⟩ := F
            exact ⟨a1, a2, a3, a4, a5, a6, a7⟩
        · simp only [Option.some.injEq, Prod.mk.injEq] at h
          rw [← h.2]
          exact L
      · simp only [Option.some.injEq, Prod.mk.injEq] at h
        rw [← h.2]
        exact L

theorem BaseFilter.generateWriterID_frame (w : World) (self : Ptr) (r : Int × World)
    (h : BaseFilter.generateWriterID w self = some r) :
    Frame w r.2 [WiringCall.generateWriterID self] := by
  unfold BaseFilter.generateWriterID at h
  cases hf : w.filterAt self with
  | none => simp [hf] at h
  | some f =>
    simp only [hf, Option.some.injEq] at h
    rw [← h]
    exact Frame.trans (Frame.setFilter_live w self f _ hf) (Frame.log _ _)

theorem BaseFilter.generateReaderID_frame (w : World) (self : Ptr) (r : Int × World)
    (h : BaseFilter.generateReaderID w self = some r) :
    Frame w r.2 [WiringCall.generateReaderID self] := by
  unfold BaseFilter.generateReaderID at h
  cases hf : w.filterAt self with
  | none => simp [hf] at h
  | some f =>
    simp only [hf, Option.some.injEq] at h
    rw [← h]
    exact Frame.trans (Frame.setFilter_live w self f _ hf) (Frame.log _ _)

theorem WiringCall.run_frame (w : World) (c : WiringCall) (b : Bool) (w' : World)
    (h : c.run w = some (b, w')) : Frame w w' [c] := by
  cases c with
  | generateWriterID self =>
    simp only [WiringCall.run, Option.map_eq_some'] at h
    obtain ⟨r, hr, he⟩ := h
    simp only [Prod.mk.injEq] at he
    rw [← he.2]
    exact BaseFilter.generateWriterID_frame w self r hr
  | generateReaderID self =>
    simp only [WiringCall.run, Option.map_eq_some'] at h
    obtain ⟨r, hr, he⟩ := h
    simp only [Prod.mk.injEq] at he
    rw [← he.2]
    exact BaseFilter.generateReaderID_frame w self r hr
  | connectManyToMany self other rd wr sh =>
    exact Frame.trans (Frame.log w _) (BaseFilter.connect_frame _ _ _ _ _ _ _ _ h)
  | connectManyToOne self other wr sh =>
    exact Frame.trans (Frame.log w _) (BaseFilter.connect_frame _ _ _ _ _ _ _ _ h)
  | connectOneToOne self other =>
    exact Frame.trans (Frame.log w _) (BaseFilter.connect_frame _ _ _ _ _ _ _ _ h)
  | connectOneToMany self other rd =>
    exact Frame.trans (Frame.log w _) (BaseFilter.connect_frame _ _ _ _ _ _ _ _ h)
  | disconnect self other wr rd =>
    exact BaseFilter.disconnect_frame _ _ _ _ _ _ _ h

theorem runCalls_frame : ∀ (cs : List WiringCall) (w : World) (b : Bool) (w' : World),
    runCalls w cs = some (b, w') → ∃ done, Frame w w' done ∧ done <+: cs
      ∧ (b = true → done = cs)
  | [], w, b, w', h => by
    simp only [runCalls, Option.some.injEq, Prod.mk.injEq] at h
    rw [← h.2]
    exact ⟨[], Frame.refl w, List.prefix_refl _, fun _ => rfl⟩
  | c :: r, w, b, w', h => by
    simp only [runCalls] at h
    cases hc : c.run w with
    | none => simp [hc] at h
    | some x =>
      obtain ⟨b1, w1⟩ := x
      have F1 := WiringCall.run_frame w c b1 w1 hc
      cases b1 with
      | false =>
        simp only [hc, Option.some.injEq, Prod.mk.injEq] at h
        rw [← h.2]
        refine ⟨[c], F1, ?_, ?_⟩
        · exact List.prefix_iff_eq_append.mpr (by simp)
        · intro hb
          rw [hb] at h
          exact absurd h.1 (by decide)
      | true =>
        simp only [hc] at h
        obtain ⟨done, F2, hp, hall⟩ := runCalls_frame r w1 b w' h
        refine ⟨c :: done, Frame.trans F1 F2, ?_, ?_⟩
        · obtain ⟨t, ht⟩ := hp
          exact ⟨t, by simp [← ht]⟩
        · intro hb
          rw [hall hb]

theorem runCalls_append : ∀ (l1 l2 : List WiringCall) (w : World),
    runCalls w (l1 ++ l2) =
      match runCalls w l1 with
      | none => none
      | some (false, w1) => some (false, w1)
      | some (true, w1) => runCalls w1 l2
  | [], l2, w => by simp [runCalls]
  | c :: r, l2, w => by
    simp only [List.cons_append, runCalls]
    cases hc : c.run w with
    | none => simp
    | some x =>
      obtain ⟨b1, w1⟩ := x
      cases b1 with
      | false => simp
      | true => simpa using runCalls_append r l2 w1

theorem connectMiddle_eq_runCalls (t : Table) : ∀ (l : List Int) (w : World),
    w.filters = t → (∀ m ∈ l, m ∈ t.keys) →
    connectMiddle w l = runCalls w (middlePlan t l)
  | [], w, _, _ => by simp [connectMiddle, middlePlan, runCalls]
  | [_], w, _, _ => by simp [connectMiddle, middlePlan, runCalls]
  | a :: b :: r, w, ht, hk => by
    have ha : a ∈ w.filters.keys := by rw [ht]; exact hk a (by simp)
    have hb : b ∈ w.filters.keys := by rw [ht]; exact hk b (by simp)
    simp only [connectMiddle, middlePlan, runCalls, WiringCall.run,
      World.filtersIndex_of_mem w a ha, World.filtersIndex_of_mem w b hb, ht]
    cases hc : BaseFilter.connectOneToOne w (t.ptr a) (t.ptr b) with
    | none => simp
    | some x =>
      obtain ⟨b1, w1⟩ := x
      cases b1 with
      | false => simp
      | true =>
        have F := WiringCall.run_frame w (WiringCall.connectOneToOne (t.ptr a) (t.ptr b))
          true w1 hc
        simp only
        exact connectMiddle_eq_runCalls t (b :: r) w1 (F.1.trans ht)
          (fun m hm => hk m (List.mem_cons_of_mem a hm))

theorem connectPath_eq_runCalls (w : World) (path : Ptr) (pa : Path)
    (hp : w.pathAt path = some pa)
    (ho : pa.originFilterID ∈ w.filters.keys) (hd : pa.destinationFilterID ∈ w.filters.keys)
    (hm : ∀ m ∈ pa.filters, m ∈ w.filters.keys) :
    connectPath w path = runCalls w (connectPlan w.filters pa) := by
  unfold connectPath connectPlan
  simp only [hp]
  cases hl : pa.filters with
  | nil =>
    simp only [World.filtersIndex_of_mem w _ ho, World.filtersIndex_of_mem w _ hd, runCalls,
      WiringCall.run]
    cases hc : BaseFilter.connectManyToMany w (w.filters.ptr pa.originFilterID)
        (w.filters.ptr pa.destinationFilterID) pa.dstReaderID pa.orgWriterID pa.shared with
    | none => simp
    | some x =>
      obtain ⟨b1, w1⟩ := x
      cases b1 <;> simp
  | cons front rest =>
    rw [hl] at hm
    have hfront : front ∈ w.filters.keys := hm front (by simp)
    simp only [World.filtersIndex_of_mem w _ ho, World.filtersIndex_of_mem w _ hfront, runCalls,
      WiringCall.run]
    cases hc : BaseFilter.connectManyToOne w (w.filters.ptr pa.originFilterID)
        (w.filters.ptr front) pa.orgWriterID pa.shared with
    | none => simp
    | some x =>
      obtain ⟨b1, w1⟩ := x
      cases b1 with
      | false => simp
      | true =>
        have F1 := WiringCall.run_frame w (WiringCall.connectManyToOne
          (w.filters.ptr pa.originFilterID) (w.filters.ptr front) pa.orgWriterID pa.shared)
          true w1 hc
        simp only [runCalls_append]
        rw [connectMiddle_eq_runCalls w.filters (front :: rest) w1 F1.1 hm]
        cases hmid : runCalls w1 (middlePlan w.filters (front :: rest)) with
        | none => simp
        | some y =>
          obtain ⟨b2, w2⟩ := y
          cases b2 with
          | false => simp
          | true =>
            obtain ⟨done, F2, _, _⟩ := runCalls_frame _ _ _ _ hmid
            have hf2 : w2.filters = w.filters := F2.1.trans F1.1
            have hlast : (front :: rest).getLast (List.cons_ne_nil front rest)
                ∈ w2.filters.keys := by
              rw [hf2]
              exact hm _ (List.getLast_mem _)
            have hd2 : pa.destinationFilterID ∈ w2.filters.keys := by rw [hf2]; exact hd
            simp only [World.filtersIndex_of_mem w2 _ hlast, World.filtersIndex_of_mem w2 _ hd2,
              runCalls, WiringCall.run, hf2]

theorem middlePlan_length (t : Table) : ∀ (l : List Int),
    (middlePlan t l).length = l.length - 1
  | [] => rfl
  | [_] => rfl
  | a :: b :: r => by
    simp only [middlePlan, List.length_cons, middlePlan_length t (b :: r)]
    omega

theorem middlePlan_get (t : Table) : ∀ (l : List Int) (i : Nat) (a b : Int),
    l[i]? = some a → l[i + 1]? = some b →
    (middlePlan t l)[i]? = some (WiringCall.connectOneToOne (t.ptr a) (t.ptr b))
  | [], i, a, b, h1, _ => by simp at h1
  | [_], i, a, b, _, h2 => by simp at h2
  | x :: y :: r, 0, a, b, h1, h2 => by
    simp only [List.getElem?_cons_zero, Option.some.injEq, zero_add,
      List.getElem?_cons_succ] at h1 h2
    simp [middlePlan, h1, h2]
  | x :: y :: r, i + 1, a, b, h1, h2 => by
    simp only [List.getElem?_cons_succ] at h1 h2
    simp only [middlePlan, List.getElem?_cons_succ]
    exact middlePlan_get t (y :: r) i a b h1 (by simpa using h2)

theorem BaseFilter.connect_false (w : World) (self other : Ptr) (wr rd : Int) (sh : Bool)
    (w' : World) (h : BaseFilter.connect w self other wr rd sh = some (false, w')) :
    w' = w := by
  unfold BaseFilter.connect at h
  cases hf : w.filterAt self with
  | none => simp [hf] at h
  | some f =>
    cases hg : w.filterAt other with
    | none => simp [hf, hg] at h
    | some g =>
      simp only [hf, hg] at h
      split at h
      · simp only [Option.some.injEq, Prod.mk.injEq, true_and] at h
        exact h.symm
      · split at h <;> simp at h

theorem BaseFilter.disconnect_false (w : World) (self other : Ptr) (wr rd : Int)
    (w' : World) (h : BaseFilter.disconnect w self other wr rd = some (false, w')) :
    w' = w.log (WiringCall.disconnect self other wr rd) := by
  unfold BaseFilter.disconnect at h
  generalize w.log (WiringCall.disconnect self other wr rd) = w0 at h
  simp only at h
  cases hf : w0.filterAt self with
  | none => simp [hf] at h
  | some f =>
    cases hg : w0.filterAt other with
    | none => simp [hf, hg] at h
    | some g =>
      simp only [hf, hg] at h
      split at h
      · split at h
        · split at h <;> simp at h
        · simp only [Option.some.injEq, Prod.mk.injEq, true_and] at h
          exact h.symm
      · simp only [Option.some.injEq, Prod.mk.injEq, true_and] at h
        exact h.symm

theorem WiringCall.run_false (w : World) (c : WiringCall) (w' : World)
    (h : c.run w = some (false, w')) : w' = w.log c := by
  cases c with
  | generateWriterID self => simp [WiringCall.run] at h
  | generateReaderID self => simp [WiringCall.run] at h
  | connectManyToMany self other rd wr sh => exact BaseFilter.connect_false _ _ _ _ _ _ _ h
  | connectManyToOne self other wr sh => exact BaseFilter.connect_false _ _ _ _ _ _ _ h
  | connectOneToOne self other => exact BaseFilter.connect_false _ _ _ _ _ _ _ h
  | connectOneToMany self other rd => exact BaseFilter.connect_false _ _ _ _ _ _ _ h
  | disconnect self other wr rd => exact BaseFilter.disconnect_false _ _ _ _ _ _ h

theorem World.filterAt_zero (w : World) : w.filterAt 0 = none := by
  simp [World.filterAt]

theorem World.workerAt_zero (w : World) : w.workerAt 0 = none := by
  simp [World.workerAt]

theorem World.filtersIndex_of_find_none (w : World) (k : Int) (h : w.filters.find k = none) :
    (w.filtersIndex k).1 = 0 := by
  simp [World.filtersIndex, Table.index, h]

theorem World.workersIndex_of_find_none (w : World) (k : Int) (h : w.workers.find k = none) :
    (w.workersIndex k).1 = 0 := by
  simp [World.workersIndex, Table.index, h]

theorem Table.mem_keys_of_find (t : Table) (k : Int) (p : Ptr) (h : t.find k = some p) :
    k ∈ t.keys := by
  by_contra hc
  rw [(Table.find_eq_none_iff t k).mpr hc] at h
  exact absurd h (by simp)

theorem World.index_cases (t : Table) (k : Int) :
    (k ∈ t.keys ∧ t.index k = (t.ptr k, t)) ∨ (t.find k = none ∧ (t.index k).1 = 0) := by
  cases hf : t.find k with
  | none => exact Or.inr ⟨rfl, by simp [Table.index, hf]⟩
  | some p =>
    refine Or.inl ⟨Table.mem_keys_of_find t k p hf, ?_⟩
    simp [Table.index, Table.ptr, hf]

theorem Worker.removeProcessor_tables (w : World) (self : Ptr) (id : Int) (b : Bool)
    (w' : World) (h : Worker.removeProcessor w self id = some (b, w')) :
    w'.filters = w.filters ∧ w'.paths = w.paths ∧ w'.workers = w.workers
      ∧ w'.pathObjs = w.pathObjs ∧ w'.filterObjs = w.filterObjs := by
  unfold Worker.removeProcessor at h
  cases hx : w.workerAt self with
  | none => simp [hx] at h
  | some x =>
    simp only [hx] at h
    split at h
    · simp only [Option.some.injEq, Prod.mk.injEq] at h
      rw [← h.2]
      exact ⟨rfl, rfl, rfl, rfl, rfl⟩
    · simp only [Option.some.injEq, Prod.mk.injEq] at h
      rw [← h.2]
      exact ⟨rfl, rfl, rfl, rfl, rfl⟩

theorem deleteFilter_tables (w : World) (p : Ptr) (w' : World)
    (h : deleteFilter w p = some w') :
    w'.filters = w.filters ∧ w'.paths = w.paths ∧ w'.workers = w.workers
      ∧ w'.pathObjs = w.pathObjs := by
  unfold deleteFilter at h
  split at h
  · simp only [Option.some.injEq] at h
    rw [← h]
    exact ⟨rfl, rfl, rfl, rfl⟩
  · split at h
    · simp at h
    · simp only [Option.some.injEq] at h
      rw [← h]
      exact ⟨rfl, rfl, rfl, rfl⟩

theorem deleteFilters_tables : ∀ (l : List Int) (w w' : World),
    deleteFilters w l = some w' →
    (∀ k, w'.filters.find k = if k ∈ l then none else w.filters.find k)
      ∧ w'.paths = w.paths ∧ w'.workers = w.workers ∧ w'.pathObjs = w.pathObjs
  | [], w, w', h => by
    simp only [deleteFilters, Option.some.injEq] at h
    rw [← h]
    simp
  | it :: r, w, w', h => by
    simp only [deleteFilters] at h
    rcases World.index_cases w.filters it with ⟨hk, hi⟩ | ⟨_, hz⟩
    · have e1 : w.filtersIndex it = (w.filters.ptr it, w) := World.filtersIndex_of_mem w it hk
      simp only [e1] at h
      cases hg : BaseFilter.getWorkerId w (w.filters.ptr it) with
      | none => simp [hg] at h
      | some wid =>
        simp only [hg] at h
        rcases World.index_cases w.workers wid with ⟨hwk, _⟩ | ⟨hwn, _⟩
        · simp only [World.workersIndex_of_mem w wid hwk] at h
          cases hr : Worker.removeProcessor w (w.workers.ptr wid) it with
          | none => simp [hr] at h
          | some x =>
            obtain ⟨b, w3⟩ := x
            obtain ⟨t1, t2, t3, t4, _⟩ := Worker.removeProcessor_tables _ _ _ _ _ hr
            have hk3 : it ∈ w3.filters.keys := by rw [t1]; exact hk
            simp only [hr, World.filtersIndex_of_mem w3 it hk3] at h
            cases hdel : deleteFilter w3 (w3.filters.ptr it) with
            | none => simp [hdel] at h
            | some w5 =>
              obtain ⟨u1, u2, u3, u4⟩ := deleteFilter_tables _ _ _ hdel
              simp only [hdel] at h
              obtain ⟨v1, v2, v3, v4⟩ := deleteFilters_tables r _ w' h
              refine ⟨?_, ?_, ?_, ?_⟩
              · intro k
                rw [v1 k]
                simp only [Table.find_erase, u1, t1, List.mem_cons]
                by_cases hkr : k ∈ r
                · simp [hkr]
                · by_cases hki : k = it
                  · simp [hki]
                  · simp [hkr, hki]
              · rw [v2]; exact u2.trans t2
              · rw [v3]; exact u3.trans t3
              · rw [v4]; exact u4.trans t4
        · have hz : (w.workersIndex wid).1 = 0 := World.workersIndex_of_find_none w wid hwn
          have hnone : Worker.removeProcessor (w.workersIndex wid).2 (w.workersIndex wid).1 it
              = none := by
            rw [hz]
            simp [Worker.removeProcessor, World.workerAt_zero]
          simp [hnone] at h
    · have hz' : (w.filtersIndex it).1 = 0 := hz
      have hnone : BaseFilter.getWorkerId (w.filtersIndex it).2 (w.filtersIndex it).1 = none := by
        rw [hz']
        simp [BaseFilter.getWorkerId, World.filterAt_zero]
      simp [hnone] at h

theorem disconnectMiddle_frame : ∀ (l : List Int) (w : World) (b : Bool) (w' : World),
    (∀ m ∈ l, m ∈ w.filters.keys) → disconnectMiddle w l = some (b, w') →
    ∃ cs, Frame w w' cs
  | [], w, b, w', _, h => by
    simp only [disconnectMiddle, Option.some.injEq, Prod.mk.injEq] at h
    rw [← h.2]
    exact ⟨[], Frame.refl w⟩
  | [_], w, b, w', _, h => by
    simp only [disconnectMiddle, Option.some.injEq, Prod.mk.injEq] at h
    rw [← h.2]
    exact ⟨[], Frame.refl w⟩
  | x :: y :: r, w, b, w', hk, h => by
    have hx : x ∈ w.filters.keys := hk x (by simp)
    have hy : y ∈ w.filters.keys := hk y (by simp)
    simp only [disconnectMiddle, World.filtersIndex_of_mem w x hx,
      World.filtersIndex_of_mem w y hy] at h
    cases hc : BaseFilter.disconnect w (w.filters.ptr x) (w.filters.ptr y)
        DEFAULT_ID DEFAULT_ID with
    | none => simp [hc] at h
    | some z =>
      obtain ⟨b1, w1⟩ := z
      have F1 := BaseFilter.disconnect_frame _ _ _ _ _ _ _ hc
      cases b1 with
      | false =>
        simp only [hc, Option.some.injEq, Prod.mk.injEq] at h
        rw [← h.2]
        exact ⟨_, F1⟩
      | true =>
        simp only [hc] at h
        have hk1 : ∀ m ∈ y :: r, m ∈ w1.filters.keys := by
          intro m hm
          rw [F1.1]
          exact hk m (List.mem_cons_of_mem x hm)
        obtain ⟨cs, F2⟩ := disconnectMiddle_frame (y :: r) w1 b w' hk1 h
        exact ⟨_, Frame.trans F1 F2⟩

theorem deletePath_true (w w' : World) (path : Ptr) (pa : Path)
    (hp : w.pathAt path = some pa) (h : deletePath w path = some (true, w')) :
    (∀ k, w'.filters.find k = if k ∈ pa.filters then none else w.filters.find k)
      ∧ pa.originFilterID ∈ w.filters.keys ∧ pa.destinationFilterID ∈ w.filters.keys
      ∧ w'.paths = w.paths ∧ w'.workers = w.workers := by
  unfold deletePath at h
  simp only [hp] at h
  split at h
  · simp at h
  · rename_i hc
    have ho : pa.originFilterID ∈ w.filters.keys := by
      by_contra hn
      exact hc (Or.inl ((Table.count_le_zero_iff _ _).mpr hn))
    have hd : pa.destinationFilterID ∈ w.filters.keys := by
      by_contra hn
      exact hc (Or.inr ((Table.count_le_zero_iff _ _).mpr hn))
    split at h
    · simp at h
    · rename_i hany
      have hm : ∀ m ∈ pa.filters, m ∈ w.filters.keys := by
        intro m hmem
        by_contra hn
        apply hany
        rw [List.any_eq_true]
        exact ⟨m, hmem, by simpa using (Table.count_le_zero_iff _ _).mpr hn⟩
      cases hl : pa.filters with
      | nil => simp [hl] at h
      | cons front rest =>
        rw [hl] at hm
        have hfront : front ∈ w.filters.keys := hm front (by simp)
        simp only [hl, World.filtersIndex_of_mem w _ ho,
          World.filtersIndex_of_mem w _ hfront] at h
        cases hc1 : BaseFilter.disconnect w (w.filters.ptr pa.originFilterID)
            (w.filters.ptr front) pa.orgWriterID DEFAULT_ID with
        | none => simp [hc1] at h
        | some z =>
          obtain ⟨b1, w3⟩ := z
          have F1 := BaseFilter.disconnect_frame _ _ _ _ _ _ _ hc1
          cases b1 with
          | false => simp [hc1] at h
          | true =>
            simp only [hc1] at h
            cases hc2 : disconnectMiddle w3 (front :: rest) with
            | none => simp [hc2] at h
            | some z2 =>
              obtain ⟨b2, w4⟩ := z2
              cases b2 with
              | false => simp [hc2] at h
              | true =>
                obtain ⟨cs, F2⟩ := disconnectMiddle_frame (front :: rest) w3 true w4
                  (fun m hmem => by rw [F1.1]; exact hm m hmem) hc2
                have hf4 : w4.filters = w.filters := F2.1.trans F1.1
                have hlast : (front :: rest).getLast (List.cons_ne_nil front rest)
                    ∈ w4.filters.keys := by
                  rw [hf4]
                  exact hm _ (List.getLast_mem _)
                have hd4 : pa.destinationFilterID ∈ w4.filters.keys := by rw [hf4]; exact hd
                simp only [hc2, World.filtersIndex_of_mem w4 _ hlast,
                  World.filtersIndex_of_mem w4 _ hd4] at h
                cases hc3 : BaseFilter.disconnect w4
                    (w4.filters.ptr ((front :: rest).getLast (List.cons_ne_nil front rest)))
                    (w4.filters.ptr pa.destinationFilterID) DEFAULT_ID pa.dstReaderID with
                | none => simp [hc3] at h
                | some z3 =>
                  obtain ⟨b3, w7⟩ := z3
                  have F3 := BaseFilter.disconnect_frame _ _ _ _ _ _ _ hc3
                  cases b3 with
                  | false => simp [hc3] at h
                  | true =>
                    simp only [hc3] at h
                    cases hc4 : deleteFilters w7 (front :: rest) with
                    | none => simp [hc4] at h
                    | some w8 =>
                      obtain ⟨d1, d2, d3, _⟩ := deleteFilters_tables _ _ _ hc4
                      simp only [hc4] at h
                      split at h
                      · simp at h
                      · simp only [Option.some.injEq, Prod.mk.injEq, true_and] at h
                        rw [← h]
                        have hf7 : w7.filters = w.filters := F3.1.trans hf4
                        refine ⟨?_, ho, hd, ?_, ?_⟩
                        · intro k
                          have := d1 k
                          rw [hf7] at this
                          exact this
                        · exact d2.trans (F3.2.1.trans (F2.2.1.trans F1.2.1))
                        · exact d3.trans (F3.2.2.1.trans (F2.2.2.1.trans F1.2.2.1))

theorem BaseFilter.generateWriterID_live (w : World) (self : Ptr)
    (h : (w.filterAt self).isSome) : ∃ r, BaseFilter.generateWriterID w self = some r := by
  unfold BaseFilter.generateWriterID
  cases hf : w.filterAt self with
  | none => simp [hf] at h
  | some f => exact ⟨_, rfl⟩

theorem BaseFilter.generateReaderID_live (w : World) (self : Ptr)
    (h : (w.filterAt self).isSome) : ∃ r, BaseFilter.generateReaderID w self = some r := by
  unfold BaseFilter.generateReaderID
  cases hf : w.filterAt self with
  | none => simp [hf] at h
  | some f => exact ⟨_, rfl⟩

theorem createPath_unfold (w : World) (orgFilter dstFilter orgWriter dstReader : Int)
    (midFilters : List Int) (sharedQueue : Bool)
    (ho : orgFilter ∈ w.filters.keys) (hd : dstFilter ∈ w.filters.keys)
    (hm : ∀ m ∈ midFilters, m ∈ w.filters.keys) :
    createPath w orgFilter dstFilter orgWriter dstReader midFilters sharedQueue =
      match (if orgWriter < 0 then BaseFilter.generateWriterID w (w.filters.ptr orgFilter)
             else some (orgWriter, w)) with
      | none => none
      | some (realOrgWriter, w3) =>
        match (if dstReader < 0 then
                 BaseFilter.generateReaderID w3 (w.filters.ptr dstFilter)
               else some (dstReader, w3)) with
        | none => none
        | some (realDstReader, w4) =>
          some (w4.nextPtr + 1, { w4.setPath (w4.nextPtr + 1) (some
            { originFilterID := orgFilter, destinationFilterID := dstFilter,
              orgWriterID := realOrgWriter, dstReaderID := realDstReader,
              filters := midFilters, shared := sharedQueue }) with
            nextPtr := w4.nextPtr + 1 }) := by
  have hc : ¬ (w.filters.count orgFilter ≤ 0 ∨ w.filters.count dstFilter ≤ 0) := by
    intro h
    rcases h with h | h
    · exact (Table.count_le_zero_iff _ _).mp h ho
    · exact (Table.count_le_zero_iff _ _).mp h hd
  have ha : ¬ midFilters.any (fun it => decide (w.filters.count it ≤ 0)) = true := by
    rw [List.any_eq_true]
    rintro ⟨m, hmem, hz⟩
    exact (Table.count_le_zero_iff _ _).mp (by simpa using hz) (hm m hmem)
  unfold createPath
  simp only [hc, ha, if_false, World.filtersIndex_of_mem w _ ho,
    World.filtersIndex_of_mem w _ hd]
  rfl

theorem BaseFilter.connect_total (w : World) (self other : Ptr) (wr rd : Int) (sh : Bool)
    (hs : (w.filterAt self).isSome = true) (ho : (w.filterAt other).isSome = true) :
    ∃ r, BaseFilter.connect w self other wr rd sh = some r := by
  unfold BaseFilter.connect
  cases hf : w.filterAt self with
  | none => simp [hf] at hs
  | some f =>
    cases hg : w.filterAt other with
    | none => simp [hg] at ho
    | some g =>
      simp only
      split
      · exact ⟨_, rfl⟩
      · have F1 := Frame.setFilter_live w self f
          { f with writers := f.writers.insert wr (w.nextPtr + 1) } hf
        have hl := F1.2.2.2.2.2.2 other
        rw [hg] at hl
        cases hg1 : (w.setFilter self (some
            { f with writers := f.writers.insert wr (w.nextPtr + 1) })).filterAt other with
        | none => simp [hg1] at hl
        | some g1 => exact ⟨_, rfl⟩

theorem BaseFilter.disconnect_total (w : World) (self other : Ptr) (wr rd : Int)
    (hs : (w.filterAt self).isSome = true) (ho : (w.filterAt other).isSome = true) :
    ∃ r, BaseFilter.disconnect w self other wr rd = some r := by
  unfold BaseFilter.disconnect
  have hs0 : ((w.log (WiringCall.disconnect self other wr rd)).filterAt self).isSome = true := hs
  have ho0 : ((w.log (WiringCall.disconnect self other wr rd)).filterAt other).isSome = true := ho
  generalize w.log (WiringCall.disconnect self other wr rd) = w0 at hs0 ho0
  simp only
  cases hf : w0.filterAt self with
  | none => simp [hf] at hs0
  | some f =>
    cases hg : w0.filterAt other with
    | none => simp [hg] at ho0
    | some g =>
      simp only
      split
      · split
        · have F1 := Frame.setFilter_live w0 self f { f with writers := f.writers.erase wr } hf
          have hl := F1.2.2.2.2.2.2 other
          rw [hg] at hl
          cases hg1 : (w0.setFilter self (some
              { f with writers := f.writers.erase wr })).filterAt other with
          | none => simp [hg1] at hl
          | some g1 => exact ⟨_, rfl⟩
        · exact ⟨_, rfl⟩
      · exact ⟨_, rfl⟩

theorem WiringCall.run_total (w : World) (c : WiringCall)
    (h : ∀ p ∈ c.ends, (w.filterAt p).isSome = true) : ∃ r, c.run w = some r := by
  cases c with
  | generateWriterID self =>
    obtain ⟨r, hr⟩ := BaseFilter.generateWriterID_live w self (h self (by simp [WiringCall.ends]))
    exact ⟨(true, r.2), by simp [WiringCall.run, hr]⟩
  | generateReaderID self =>
    obtain ⟨r, hr⟩ := BaseFilter.generateReaderID_live w self (h self (by simp [WiringCall.ends]))
    exact ⟨(true, r.2), by simp [WiringCall.run, hr]⟩
  | connectManyToMany self other rd wr sh =>
    exact BaseFilter.connect_total _ _ _ _ _ _ (h self (by simp [WiringCall.ends]))
      (h other (by simp [WiringCall.ends]))
  | connectManyToOne self other wr sh =>
    exact BaseFilter.connect_total _ _ _ _ _ _ (h self (by simp [WiringCall.ends]))
      (h other (by simp [WiringCall.ends]))
  | connectOneToOne self other =>
    exact BaseFilter.connect_total _ _ _ _ _ _ (h self (by simp [WiringCall.ends]))
      (h other (by simp [WiringCall.ends]))
  | connectOneToMany self other rd =>
    exact BaseFilter.connect_total _ _ _ _ _ _ (h self (by simp [WiringCall.ends]))
      (h other (by simp [WiringCall.ends]))
  | disconnect self other wr rd =>
    exact BaseFilter.disconnect_total _ _ _ _ _ (h self (by simp [WiringCall.ends]))
      (h other (by simp [WiringCall.ends]))

theorem runCalls_total : ∀ (cs : List WiringCall) (w : World),
    (∀ c ∈ cs, ∀ p ∈ c.ends, (w.filterAt p).isSome = true) → ∃ r, runCalls w cs = some r
  | [], w, _ => ⟨_, rfl⟩
  | c :: r, w, h => by
    obtain ⟨⟨b, w1⟩, hr⟩ := WiringCall.run_total w c (h c (by simp))
    simp only [runCalls, hr]
    cases b with
    | false => exact ⟨_, rfl⟩
    | true =>
      have F := WiringCall.run_frame w c true w1 hr
      exact runCalls_total r w1 (fun c' hc' p hp => by
        rw [F.2.2.2.2.2.2 p]
        exact h c' (List.mem_cons_of_mem c hc') p hp)

theorem middlePlan_ends (t : Table) : ∀ (l : List Int) (c : WiringCall),
    c ∈ middlePlan t l → ∀ p ∈ c.ends, ∃ id ∈ l, p = t.ptr id
  | [], c, hc => by simp [middlePlan] at hc
  | [_], c, hc => by simp [middlePlan] at hc
  | a :: b :: r, c, hc => by
    simp only [middlePlan, List.mem_cons] at hc
    intro p hp
    rcases hc with hc | hc
    · subst hc
      simp only [WiringCall.ends, List.mem_cons, List.mem_singleton, List.not_mem_nil,
        or_false] at hp
      rcases hp with hp | hp
      · exact ⟨a, by simp, hp⟩
      · exact ⟨b, by simp, hp⟩
    · obtain ⟨id, hid, he⟩ := middlePlan_ends t (b :: r) c hc p hp
      exact ⟨id, List.mem_cons_of_mem a hid, he⟩

theorem connectPlan_ends (t : Table) (pa : Path) (c : WiringCall)
    (hc : c ∈ connectPlan t pa) : ∀ p ∈ c.ends,
      ∃ id ∈ pa.originFilterID :: pa.destinationFilterID :: pa.filters, p = t.ptr id := by
  intro p hp
  unfold connectPlan at hc
  cases hl : pa.filters with
  | nil =>
    simp only [hl, List.mem_singleton] at hc
    subst hc
    simp only [WiringCall.ends, List.mem_cons, List.mem_singleton, List.not_mem_nil,
      or_false] at hp
    rcases hp with hp | hp
    · exact ⟨_, by simp, hp⟩
    · exact ⟨_, by simp, hp⟩
  | cons front rest =>
    simp only [hl, List.mem_cons, List.mem_append, List.mem_singleton, List.not_mem_nil,
      or_false] at hc
    rcases hc with hc | hc | hc
    · subst hc
      simp only [WiringCall.ends, List.mem_cons, List.mem_singleton, List.not_mem_nil,
        or_false] at hp
      rcases hp with hp | hp
      · exact ⟨_, by simp, hp⟩
      · exact ⟨front, by simp, hp⟩
    · obtain ⟨id, hid, he⟩ := middlePlan_ends t (front :: rest) c hc p hp
      exact ⟨id, by simp only [List.mem_cons] at hid ⊢; tauto, he⟩
    · subst hc
      simp only [WiringCall.ends, List.mem_cons, List.mem_singleton, List.not_mem_nil,
        or_false] at hp
      rcases hp with hp | hp
      · have hmem := List.getLast_mem (List.cons_ne_nil front rest)
        exact ⟨_, by simp only [List.mem_cons] at hmem ⊢; tauto, hp⟩
      · exact ⟨_, by simp, hp⟩

theorem createPath_ok (w : World)
    (orgFilter dstFilter orgWriter dstReader : Int) (midFilters : List Int)
    (sharedQueue : Bool)
    (ho : orgFilter ∈ w.filters.keys) (hd : dstFilter ∈ w.filters.keys)
    (hm : ∀ m ∈ midFilters, m ∈ w.filters.keys)
    (hlo : orgWriter < 0 → (w.filterAt (w.filters.ptr orgFilter)).isSome = true)
    (hld : dstReader < 0 → (w.filterAt (w.filters.ptr dstFilter)).isSome = true) :
    ∃ (path : Ptr) (w' w1 w2 : World) (realOrgWriter realDstReader : Int),
      createPath w orgFilter dstFilter orgWriter dstReader midFilters sharedQueue
        = some (path, w')
      ∧ path ≠ 0
      ∧ w'.pathAt path = some
          { originFilterID := orgFilter, destinationFilterID := dstFilter,
            orgWriterID := realOrgWriter, dstReaderID := realDstReader,
            filters := midFilters, shared := sharedQueue }
      ∧ (if orgWriter < 0 then
           BaseFilter.generateWriterID w (w.filters.ptr orgFilter) = some (realOrgWriter, w1)
         else realOrgWriter = orgWriter ∧ w1 = w)
      ∧ (if dstReader < 0 then
           BaseFilter.generateReaderID w1 (w.filters.ptr dstFilter) = some (realDstReader, w2)
         else realDstReader = dstReader ∧ w2 = w1)
      ∧ (∃ gen, w'.calls = w.calls ++ gen
          ∧ ∀ c ∈ gen, c = WiringCall.generateWriterID (w.filters.ptr orgFilter)
              ∨ c = WiringCall.generateReaderID (w.filters.ptr dstFilter))
      ∧ w'.paths = w.paths ∧ w'.filters = w.filters ∧ w'.workers = w.workers
      ∧ (∀ q, (w'.filterAt q).isSome = (w.filterAt q).isSome) := by
  have stage1 : ∃ (ow : Int) (w1 : World) (g1 : List WiringCall),
      (if orgWriter < 0 then BaseFilter.generateWriterID w (w.filters.ptr orgFilter)
        else some (orgWriter, w)) = some (ow, w1)
      ∧ Frame w w1 g1
      ∧ (∀ c ∈ g1, c = WiringCall.generateWriterID (w.filters.ptr orgFilter))
      ∧ (if orgWriter < 0 then
           BaseFilter.generateWriterID w (w.filters.ptr orgFilter) = some (ow, w1)
         else ow = orgWriter ∧ w1 = w) := by
    by_cases hneg : orgWriter < 0
    · obtain ⟨⟨ow, w1⟩, hr⟩ := BaseFilter.generateWriterID_live w _ (hlo hneg)
      refine ⟨ow, w1, _, by simp [hneg, hr],
        BaseFilter.generateWriterID_frame w _ _ hr, by simp, by simp [hneg, hr]⟩
    · exact ⟨orgWriter, w, [], by simp [hneg], Frame.refl w, by simp, by simp [hneg]⟩
  obtain ⟨ow, w1, g1, e1, F1, hg1, s1⟩ := stage1
  have stage2 : ∃ (dr : Int) (w2 : World) (g2 : List WiringCall),
      (if dstReader < 0 then BaseFilter.generateReaderID w1 (w.filters.ptr dstFilter)
        else some (dstReader, w1)) = some (dr, w2)
      ∧ Frame w1 w2 g2
      ∧ (∀ c ∈ g2, c = WiringCall.generateReaderID (w.filters.ptr dstFilter))
      ∧ (if dstReader < 0 then
           BaseFilter.generateReaderID w1 (w.filters.ptr dstFilter) = some (dr, w2)
         else dr = dstReader ∧ w2 = w1) := by
    by_cases hneg : dstReader < 0
    · have hlive : (w1.filterAt (w.filters.ptr dstFilter)).isSome = true := by
        rw [F1.2.2.2.2.2.2]
        exact hld hneg
      obtain ⟨⟨dr, w2⟩, hr⟩ := BaseFilter.generateReaderID_live w1 _ hlive
      refine ⟨dr, w2, _, by simp [hneg, hr],
        BaseFilter.generateReaderID_frame w1 _ _ hr, by simp, by simp [hneg, hr]⟩
    · exact ⟨dstReader, w1, [], by simp [hneg], Frame.refl w1, by simp, by simp [hneg]⟩
  obtain ⟨dr, w2, g2, e2, F2, hg2, s2⟩ := stage2
  have F := Frame.trans F1 F2
  refine ⟨w2.nextPtr + 1,
    { w2.setPath (w2.nextPtr + 1) (some
        { originFilterID := orgFilter, destinationFilterID := dstFilter,
          orgWriterID := ow, dstReaderID := dr,
          filters := midFilters, shared := sharedQueue }) with
      nextPtr := w2.nextPtr + 1 },
    w1, w2, ow, dr, ?_, Nat.succ_ne_zero _, ?_, s1, s2,
    ⟨g1 ++ g2, ?_, ?_⟩, ?_, ?_, ?_, ?_⟩
  · rw [createPath_unfold w _ _ _ _ _ _ ho hd hm, e1]
    simp only [e2]
  · simp [World.pathAt, World.setPath]
  · exact F.2.2.2.2.2.1
  · intro c hc
    rcases List.mem_append.mp hc with h | h
    · exact Or.inl (hg1 c h)
    · exact Or.inr (hg2 c h)
  · exact F.2.1
  · exact F.1
  · exact F.2.2.1
  · exact F.2.2.2.2.2.2

theorem Table.mem_keys_insert (t : Table) (j : Int) (p : Ptr) (k : Int) :
    k ∈ (t.insert j p).keys ↔ k = j ∨ k ∈ t.keys := by
  have h1 := Table.find_eq_none_iff (t.insert j p) k
  have h2 := Table.find_eq_none_iff t k
  rw [Table.find_insert] at h1
  by_cases hk : k = j
  · simp only [hk, if_true, reduceCtorEq, false_iff, not_not] at h1
    simp [hk, h1]
  · simp only [hk, if_false] at h1
    simp only [hk, false_or]
    constructor
    · intro h
      by_contra hc
      exact (h1.mp (h2.mpr hc)) h
    · intro h
      by_contra hc
      exact (h2.mp (h1.mpr hc)) h

theorem addFilterToWorker_effect (w w' : World) (workerId filterId : Int) (b : Bool)
    (h : addFilterToWorker w workerId filterId = some (b, w')) :
    w'.filters = w.filters ∧ w'.paths = w.paths ∧ w'.workers = w.workers
      ∧ w'.workerCalls = w.workerCalls
      ∧ (∀ d, assignedTo w workerId d → assignedTo w' workerId d)
      ∧ (b = true → assignedTo w' workerId filterId) := by
  unfold addFilterToWorker at h
  split at h
  · simp only [Option.some.injEq, Prod.mk.injEq] at h
    obtain ⟨hb, hw⟩ := h
    subst hw
    subst hb
    exact ⟨rfl, rfl, rfl, rfl, fun d hd => hd, fun hb => absurd hb (by decide)⟩
  · rename_i hc
    have hf : filterId ∈ w.filters.keys := by
      by_contra hn
      exact hc (Or.inl ((Table.count_le_zero_iff _ _).mpr hn))
    have hw : workerId ∈ w.workers.keys := by
      by_contra hn
      exact hc (Or.inr ((Table.count_le_zero_iff _ _).mpr hn))
    simp only [World.filtersIndex_of_mem w _ hf] at h
    unfold BaseFilter.setWorkerId at h
    cases hfo : w.filterAt (w.filters.ptr filterId) with
    | none => simp [hfo] at h
    | some fo =>
      simp only [hfo] at h
      have hw2 : workerId ∈ (w.setFilter (w.filters.ptr filterId)
          (some { fo with workerId := workerId })).workers.keys := hw
      have hf2 : filterId ∈ (w.setFilter (w.filters.ptr filterId)
          (some { fo with workerId := workerId })).filters.keys := hf
      simp only [World.workersIndex_of_mem _ _ hw2, World.filtersIndex_of_mem _ _ hf2] at h
      generalize hw2def : w.setFilter (w.filters.ptr filterId)
          (some { fo with workerId := workerId }) = w2 at h
      have hfp0 : w.filters.ptr filterId ≠ 0 := by
        intro h0
        rw [h0, World.filterAt_zero] at hfo
        exact absurd hfo (by simp)
      have e_filters : w2.filters = w.filters := by rw [← hw2def]; rfl
      have e_workers : w2.workers = w.workers := by rw [← hw2def]; rfl
      have e_wobjs : w2.workerObjs = w.workerObjs := by rw [← hw2def]; rfl
      have e_fat : ∀ p, w2.filterAt p = if p = 0 then none
          else if p = w.filters.ptr filterId then some { fo with workerId := workerId }
          else w.filterObjs p := by
        intro p
        rw [← hw2def]
        exact World.filterAt_setFilter _ _ _ _
      have mono_f : ∀ p, (w.filterAt p).map BaseFilter.workerId = some workerId →
          (w2.filterAt p).map BaseFilter.workerId = some workerId := by
        intro p hp
        rw [e_fat]
        by_cases h0 : p = 0
        · rw [h0, World.filterAt_zero] at hp
          simp at hp
        · by_cases hpf : p = w.filters.ptr filterId
          · subst hpf
            simp only [h0, if_false, if_true, Option.map_some']
          · simp only [h0, hpf, if_false]
            simpa [World.filterAt, h0] using hp
      have self_f : (w2.filterAt (w.filters.ptr filterId)).map BaseFilter.workerId
          = some workerId := by
        rw [e_fat]
        simp [hfp0]
      unfold Worker.addProcessor at h
      rw [e_workers, e_filters] at h
      cases hx : w2.workerAt (w.workers.ptr workerId) with
      | none => simp [hx] at h
      | some x =>
        have hx0 : w.workerAt (w.workers.ptr workerId) = some x := by
          simpa [World.workerAt, e_wobjs] using hx
        have hwp0 : w.workers.ptr workerId ≠ 0 := by
          intro h0
          rw [h0, World.workerAt_zero] at hx
          exact absurd hx (by simp)
        simp only [hx] at h
        by_cases hcnt : x.processors.count filterId > 0
        · simp only [hcnt, if_true, Bool.not_false, Option.some.injEq, Prod.mk.injEq] at h
          obtain ⟨hb, hw'⟩ := h
          subst hw'
          subst hb
          refine ⟨e_filters, by rw [← hw2def]; rfl, e_workers, by rw [← hw2def]; rfl, ?_,
            fun hb => absurd hb (by decide)⟩
          intro d hd
          refine ⟨?_, ?_⟩
          · rw [e_filters]
            exact mono_f _ hd.1
          · have := hd.2
            simpa [processorsOf, e_workers, hx, hx0] using this
        · simp only [hcnt, if_false, Bool.not_true, Bool.false_eq_true, Option.some.injEq,
            Prod.mk.injEq] at h
          obtain ⟨hb, hw'⟩ := h
          subst hw'
          subst hb
          have hproc : processorsOf (w2.setWorker (w.workers.ptr workerId)
              (some { x with processors :=
                x.processors.insert filterId (w.filters.ptr filterId) })) workerId
              = x.processors.insert filterId (w.filters.ptr filterId) := by
            simp [processorsOf, World.workerAt, World.setWorker, e_workers, hwp0]
          refine ⟨e_filters, by rw [← hw2def]; rfl, e_workers, by rw [← hw2def]; rfl, ?_, ?_⟩
          · intro d hd
            refine ⟨?_, ?_⟩
            · show (w2.filterAt (w2.filters.ptr d)).map BaseFilter.workerId = some workerId
              rw [e_filters]
              exact mono_f _ hd.1
            · rw [hproc, Table.mem_keys_insert]
              right
              have := hd.2
              simpa [processorsOf, hx0] using this
          · intro _
            refine ⟨?_, ?_⟩
            · show (w2.filterAt (w2.filters.ptr filterId)).map BaseFilter.workerId
                = some workerId
              rw [e_filters]
              exact self_f
            · rw [hproc, Table.mem_keys_insert]
              exact Or.inl rfl

theorem addFiltersLoop_effect (workerId : Int) : ∀ (ids : List Int) (w : World) (b : Bool)
    (w' : World), addFiltersLoop w workerId ids = some (b, w') →
    w'.filters = w.filters ∧ w'.paths = w.paths ∧ w'.workers = w.workers
      ∧ w'.workerCalls = w.workerCalls
      ∧ (∀ d, assignedTo w workerId d → assignedTo w' workerId d)
      ∧ ∃ done rest wk, ids = done ++ rest
          ∧ addFiltersLoop w workerId done = some (true, wk)
          ∧ (∀ d ∈ done, assignedTo w' workerId d)
          ∧ (b = true → rest = [])
          ∧ (b = false → ∃ failing tl, rest = failing :: tl
              ∧ addFilterToWorker wk workerId failing = some (false, w'))
  | [], w, b, w', h => by
    simp only [addFiltersLoop, Option.some.injEq, Prod.mk.injEq] at h
    obtain ⟨hb, hw⟩ := h
    subst hw
    subst hb
    exact ⟨rfl, rfl, rfl, rfl, fun d hd => hd, [], [], w, rfl, rfl, by simp, fun _ => rfl,
      fun hb => absurd hb (by decide)⟩
  | it :: r, w, b, w', h => by
    simp only [addFiltersLoop] at h
    cases h1 : addFilterToWorker w workerId it with
    | none => simp [h1] at h
    | some x =>
      obtain ⟨b1, w1⟩ := x
      obtain ⟨a1, a2, a3, a4, a5, a6⟩ := addFilterToWorker_effect w w1 workerId it b1 h1
      cases b1 with
      | false =>
        simp only [h1, Option.some.injEq, Prod.mk.injEq] at h
        obtain ⟨hb, hw⟩ := h
        subst hw
        subst hb
        exact ⟨a1, a2, a3, a4, a5, [], it :: r, w, rfl, rfl, by simp,
          fun hb => absurd hb (by decide), fun _ => ⟨it, r, rfl, h1⟩⟩
      | true =>
        simp only [h1] at h
        obtain ⟨c1, c2, c3, c4, c5, done, rest, wk, e, hl, hd, ht, hf⟩ :=
          addFiltersLoop_effect workerId r w1 b w' h
        refine ⟨c1.trans a1, c2.trans a2, c3.trans a3, c4.trans a4,
          fun d hd' => c5 d (a5 d hd'), it :: done, rest, wk, by simp [e], ?_, ?_, ht, hf⟩
        · simp only [addFiltersLoop, h1, hl]
        · intro d hmem
          rcases List.mem_cons.mp hmem with hd' | hd'
          · rw [hd']
            exact c5 it (a6 rfl)
          · exact hd d hd'

theorem Worker.start_spec (w : World) (p : Ptr) (x : Worker) (h : w.workerAt p = some x) :
    ∃ w1, Worker.start w p = some w1
      ∧ w1.workerCalls = w.workerCalls ++ [WorkerCall.start p]
      ∧ w1.filters = w.filters ∧ w1.paths = w.paths ∧ w1.workers = w.workers
      ∧ w1.calls = w.calls
      ∧ (∀ q, w1.workerAt q = if q = p then some { x with running := true } else w.workerAt q) := by
  have hp0 : p ≠ 0 := by
    intro h0
    rw [h0, World.workerAt_zero] at h
    exact absurd h (by simp)
  refine ⟨{ w.setWorker p (some { x with running := true }) with
      workerCalls := w.workerCalls ++ [WorkerCall.start p] },
    by simp only [Worker.start, h], rfl, rfl, rfl, rfl, rfl, ?_⟩
  intro q
  by_cases hq : q = p
  · subst hq
    simp [World.workerAt, World.setWorker, hp0]
  · simp [World.workerAt, World.setWorker, hq]

theorem Worker.stop_spec (w : World) (p : Ptr) (x : Worker) (h : w.workerAt p = some x) :
    ∃ w1, Worker.stop w p = some w1
      ∧ w1.workerCalls = w.workerCalls ++ [WorkerCall.stop p]
      ∧ w1.filters = w.filters ∧ w1.paths = w.paths ∧ w1.workers = w.workers
      ∧ w1.calls = w.calls
      ∧ (∀ q, w1.workerAt q = if q = p then some { x with running := false } else w.workerAt q) := by
  have hp0 : p ≠ 0 := by
    intro h0
    rw [h0, World.workerAt_zero] at h
    exact absurd h (by simp)
  refine ⟨{ w.setWorker p (some { x with running := false }) with
      workerCalls := w.workerCalls ++ [WorkerCall.stop p] },
    by simp only [Worker.stop, h], rfl, rfl, rfl, rfl, rfl, ?_⟩
  intro q
  by_cases hq : q = p
  · subst hq
    simp [World.workerAt, World.setWorker, hp0]
  · simp [World.workerAt, World.setWorker, hq]

theorem startWorkersLoop_spec : ∀ (l : List (Int × Ptr)) (w : World),
    (∀ e ∈ l, (w.workerAt e.2).isSome = true) →
    ∃ (w' : World) (started : List Ptr), startWorkersLoop w l = some w'
      ∧ w'.workerCalls = w.workerCalls ++ started.map WorkerCall.start
      ∧ started.Nodup
      ∧ (∀ p, p ∈ started ↔ (p ∈ l.map Prod.snd ∧ w.runningAt p = false))
      ∧ w'.filters = w.filters ∧ w'.paths = w.paths ∧ w'.workers = w.workers
      ∧ w'.calls = w.calls
      ∧ (∀ p, (w'.workerAt p).isSome = (w.workerAt p).isSome)
      ∧ (∀ p, w'.runningAt p = (w.runningAt p || decide (p ∈ started)))
  | [], w, _ =>
    ⟨w, [], rfl, by simp, List.nodup_nil, by simp, rfl, rfl, rfl, rfl, fun _ => rfl, by simp⟩
  | it :: r, w, hl => by
    have hlive := hl it (by simp)
    cases hx : w.workerAt it.2 with
    | none => simp [hx] at hlive
    | some x =>
      by_cases hrun : x.running = true
      · have hstep : startWorkersLoop w (it :: r) = startWorkersLoop w r := by
          simp [startWorkersLoop, Worker.isRunning, hx, hrun]
        obtain ⟨w', started, e, c, nd, mem, t1, t2, t3, t4, lv, rn⟩ :=
          startWorkersLoop_spec r w (fun e he => hl e (List.mem_cons_of_mem _ he))
        refine ⟨w', started, hstep.trans e, c, nd, ?_, t1, t2, t3, t4, lv, rn⟩
        intro p
        rw [mem p]
        have hr2 : w.runningAt it.2 = true := by simp [World.runningAt, hx, hrun]
        constructor
        · rintro ⟨a, b⟩
          exact ⟨by simp only [List.map_cons, List.mem_cons]; exact Or.inr a, b⟩
        · rintro ⟨a, b⟩
          simp only [List.map_cons, List.mem_cons] at a
          rcases a with a | a
          · rw [a, hr2] at b
            exact absurd b (by decide)
          · exact ⟨a, b⟩
      · obtain ⟨w1, s1, c1, f1, p1, k1, cl1, at1⟩ := Worker.start_spec w it.2 x hx
        have hstep : startWorkersLoop w (it :: r) = startWorkersLoop w1 r := by
          simp [startWorkersLoop, Worker.isRunning, hx, hrun, s1]
        have hl1 : ∀ e ∈ r, (w1.workerAt e.2).isSome = true := by
          intro e he
          rw [at1]
          by_cases hq : e.2 = it.2
          · simp [hq]
          · simp only [hq, if_false]
            exact hl e (List.mem_cons_of_mem _ he)
        obtain ⟨w', started, e, c, nd, mem, t1, t2, t3, t4, lv, rn⟩ :=
          startWorkersLoop_spec r w1 hl1
        have hr1 : w1.runningAt it.2 = true := by simp [World.runningAt, at1]
        have hr0 : w.runningAt it.2 = false := by simp [World.runningAt, hx, hrun]
        have hother : ∀ q, q ≠ it.2 → w1.runningAt q = w.runningAt q := by
          intro q hq
          simp [World.runningAt, at1, hq]
        have hnot : it.2 ∉ started := by
          intro hmem
          have := ((mem it.2).mp hmem).2
          rw [hr1] at this
          exact absurd this (by decide)
        refine ⟨w', it.2 :: started, hstep.trans e, ?_, List.nodup_cons.mpr ⟨hnot, nd⟩, ?_,
          t1.trans f1, t2.trans p1, t3.trans k1, t4.trans cl1, ?_, ?_⟩
        · rw [c, c1]
          simp
        · intro p
          simp only [List.mem_cons, List.map_cons]
          by_cases hp : p = it.2
          · rw [hp]
            simp [hr0]
          · rw [mem p, hother p hp]
            simp [hp]
        · intro p
          rw [lv p, at1]
          by_cases hp : p = it.2
          · rw [hp]
            simp [hx]
          · simp [hp]
        · intro p
          rw [rn p]
          by_cases hp : p = it.2
          · rw [hp, hr1]
            simp
          · rw [hother p hp]
            simp [hp]

theorem stopWorkersLoop_spec : ∀ (l : List (Int × Ptr)) (w : World),
    (∀ e ∈ l, (w.workerAt e.2).isSome = true) →
    ∃ (w' : World) (stopped : List Ptr), stopWorkersLoop w l = some w'
      ∧ w'.workerCalls = w.workerCalls ++ stopped.map WorkerCall.stop
      ∧ stopped.Nodup
      ∧ (∀ p, p ∈ stopped ↔ (p ∈ l.map Prod.snd ∧ w.runningAt p = true))
      ∧ w'.filters = w.filters ∧ w'.paths = w.paths ∧ w'.workers = w.workers
      ∧ w'.calls = w.calls
      ∧ (∀ p, (w'.workerAt p).isSome = (w.workerAt p).isSome)
      ∧ (∀ p, w'.runningAt p = (w.runningAt p && !decide (p ∈ stopped)))
  | [], w, _ =>
    ⟨w, [], rfl, by simp, List.nodup_nil, by simp, rfl, rfl, rfl, rfl, fun _ => rfl, by simp⟩
  | it :: r, w, hl => by
    have hlive := hl it (by simp)
    cases hx : w.workerAt it.2 with
    | none => simp [hx] at hlive
    | some x =>
      by_cases hrun : x.running = false
      · have hstep : stopWorkersLoop w (it :: r) = stopWorkersLoop w r := by
          simp [stopWorkersLoop, Worker.isRunning, hx, hrun]
        obtain ⟨w', stopped, e, c, nd, mem, t1, t2, t3, t4, lv, rn⟩ :=
          stopWorkersLoop_spec r w (fun e he => hl e (List.mem_cons_of_mem _ he))
        refine ⟨w', stopped, hstep.trans e, c, nd, ?_, t1, t2, t3, t4, lv, rn⟩
        intro p
        rw [mem p]
        have hr2 : w.runningAt it.2 = false := by simp [World.runningAt, hx, hrun]
        constructor
        · rintro ⟨a, b⟩
          exact ⟨by simp only [List.map_cons, List.mem_cons]; exact Or.inr a, b⟩
        · rintro ⟨a, b⟩
          simp only [List.map_cons, List.mem_cons] at a
          rcases a with a | a
          · rw [a, hr2] at b
            exact absurd b (by decide)
          · exact ⟨a, b⟩
      · obtain ⟨w1, s1, c1, f1, p1, k1, cl1, at1⟩ := Worker.stop_spec w it.2 x hx
        have hstep : stopWorkersLoop w (it :: r) = stopWorkersLoop w1 r := by
          simp [stopWorkersLoop, Worker.isRunning, hx, hrun, s1]
        have hl1 : ∀ e ∈ r, (w1.workerAt e.2).isSome = true := by
          intro e he
          rw [at1]
          by_cases hq : e.2 = it.2
          · simp [hq]
          · simp only [hq, if_false]
            exact hl e (List.mem_cons_of_mem _ he)
        obtain ⟨w', stopped, e, c, nd, mem, t1, t2, t3, t4, lv, rn⟩ :=
          stopWorkersLoop_spec r w1 hl1
        have hr1 : w1.runningAt it.2 = false := by simp [World.runningAt, at1]
        have hr0 : w.runningAt it.2 = true := by simpa [World.runningAt, hx] using hrun
        have hother : ∀ q, q ≠ it.2 → w1.runningAt q = w.runningAt q := by
          intro q hq
          simp [World.runningAt, at1, hq]
        have hnot : it.2 ∉ stopped := by
          intro hmem
          have := ((mem it.2).mp hmem).2
          rw [hr1] at this
          exact absurd this (by decide)
        refine ⟨w', it.2 :: stopped, hstep.trans e, ?_, List.nodup_cons.mpr ⟨hnot, nd⟩, ?_,
          t1.trans f1, t2.trans p1, t3.trans k1, t4.trans cl1, ?_, ?_⟩
        · rw [c, c1]
          simp
        · intro p
          simp only [List.mem_cons, List.map_cons]
          by_cases hp : p = it.2
          · rw [hp]
            simp [hr0]
          · rw [mem p, hother p hp]
            simp [hp]
        · intro p
          rw [lv p, at1]
          by_cases hp : p = it.2
          · rw [hp]
            simp [hx]
          · simp [hp]
        · intro p
          rw [rn p]
          by_cases hp : p = it.2
          · rw [hp, hr1]
            simp
          · rw [hother p hp]
            simp [hp]

theorem startWorkersLoop_running : ∀ (l : List (Int × Ptr)) (w : World),
    (∀ e ∈ l, w.runningAt e.2 = true) → startWorkersLoop w l = some w
  | [], _, _ => rfl
  | it :: r, w, h => by
    have h1 := h it (by simp)
    unfold World.runningAt at h1
    cases hx : w.workerAt it.2 with
    | none => simp [hx] at h1
    | some x =>
      simp only [hx] at h1
      simp only [startWorkersLoop, Worker.isRunning, hx, h1, Bool.not_true, Bool.false_eq_true,
        if_false]
      exact startWorkersLoop_running r w (fun e he => h e (List.mem_cons_of_mem _ he))

theorem stopWorkersLoop_stopped : ∀ (l : List (Int × Ptr)) (w : World),
    (∀ e ∈ l, (w.workerAt e.2).isSome = true ∧ w.runningAt e.2 = false) →
    stopWorkersLoop w l = some w
  | [], _, _ => rfl
  | it :: r, w, h => by
    obtain ⟨h0, h1⟩ := h it (by simp)
    unfold World.runningAt at h1
    cases hx : w.workerAt it.2 with
    | none => simp [hx] at h0
    | some x =>
      simp only [hx] at h1
      simp only [stopWorkersLoop, Worker.isRunning, hx, h1, Bool.false_eq_true, if_false]
      exact stopWorkersLoop_stopped r w (fun e he => h e (List.mem_cons_of_mem _ he))

theorem filterListLoop_spec : ∀ (l : List (Int × Ptr)) (w : World),
    (∀ e ∈ l, (w.filterAt e.2).isSome = true) →
    ∃ L : List JNode, filterListLoop w l = some (L, w) ∧ L.length = l.length
      ∧ ∀ (i : Nat) (e : Int × Ptr), l[i]? = some e →
          ∃ n, L[i]? = some n ∧ n.get "id" = JNode.int e.1
  | [], w, _ => ⟨[], rfl, rfl, by simp⟩
  | it :: r, w, hl => by
    have hlive := hl it (by simp)
    cases hx : w.filterAt it.2 with
    | none => simp [hx] at hlive
    | some f =>
      obtain ⟨L, e, len, pt⟩ := filterListLoop_spec r w (fun e he => hl e (List.mem_cons_of_mem _ he))
      refine ⟨JNode.object ([("id", JNode.int it.1)] ++ [("state", JNode.str f.fType.name)]) :: L,
        by simp only [filterListLoop, BaseFilter.getState, hx, e], by simp [len], ?_⟩
      intro i e' hi
      cases i with
      | zero =>
        simp only [List.getElem?_cons_zero, Option.some.injEq] at hi
        subst hi
        exact ⟨_, List.getElem?_cons_zero, rfl⟩
      | succ j =>
        simp only [List.getElem?_cons_succ] at hi ⊢
        exact pt j e' hi

theorem pathListLoop_spec (w : World) : ∀ (l : List (Int × Ptr)),
    (∀ e ∈ l, (w.pathAt e.2).isSome = true) →
    ∃ L : List JNode, pathListLoop w l = some L ∧ L.length = l.length
      ∧ ∀ (i : Nat) (e : Int × Ptr), l[i]? = some e →
          ∃ pa, w.pathAt e.2 = some pa ∧ L[i]? = some (pathNode e.1 pa)
  | [], _ => ⟨[], rfl, rfl, by simp⟩
  | it :: r, hl => by
    have hlive := hl it (by simp)
    cases hx : w.pathAt it.2 with
    | none => simp [hx] at hlive
    | some pa =>
      obtain ⟨L, e, len, pt⟩ := pathListLoop_spec w r (fun e he => hl e (List.mem_cons_of_mem _ he))
      refine ⟨pathNode it.1 pa :: L, by simp only [pathListLoop, hx, e], by simp [len], ?_⟩
      intro i e' hi
      cases i with
      | zero =>
        simp only [List.getElem?_cons_zero, Option.some.injEq] at hi
        subst hi
        exact ⟨pa, hx, List.getElem?_cons_zero⟩
      | succ j =>
        simp only [List.getElem?_cons_succ] at hi ⊢
        exact pt j e' hi

theorem workersListLoop_spec : ∀ (l : List (Int × Ptr)),
    (workersListLoop l).length = l.length
      ∧ ∀ (i : Nat) (e : Int × Ptr), l[i]? = some e →
          (workersListLoop l)[i]? = some (JNode.object [("id", JNode.int e.1)])
  | [] => ⟨rfl, by simp⟩
  | it :: r => by
    obtain ⟨len, pt⟩ := workersListLoop_spec r
    refine ⟨by simp [workersListLoop, len], ?_⟩
    intro i e' hi
    cases i with
    | zero =>
      simp only [List.getElem?_cons_zero, Option.some.injEq] at hi
      subst hi
      simp [workersListLoop]
    | succ j =>
      simp only [List.getElem?_cons_succ] at hi
      simp only [workersListLoop, List.getElem?_cons_succ]
      exact pt j e' hi

namespace Network

theorem FrameQueue.size_eq (q : FrameQueue) (h : q.wf) :
    q.size = if q.tail ≤ q.head then q.head - q.tail else q.head + q.slots.length - q.tail := by
  obtain ⟨hN, hh, ht⟩ := h
  unfold FrameQueue.size
  by_cases hle : q.tail ≤ q.head
  · simp only [hle, if_true]
    have e : q.head + q.slots.length - q.tail = (q.head - q.tail) + q.slots.length := by omega
    rw [e, Nat.add_mod_right, Nat.mod_eq_of_lt (by omega)]
  · simp only [hle, if_false]
    exact Nat.mod_eq_of_lt (by omega)

theorem FrameQueue.wf_removeFrame (q : FrameQueue) (h : q.wf) : q.removeFrame.wf := by
  obtain ⟨hN, hh, ht⟩ := h
  exact ⟨hN, hh, Nat.mod_lt _ (by omega)⟩

theorem FrameQueue.tail_removeFrame (q : FrameQueue) (h : q.wf) :
    q.removeFrame.tail = if q.tail + 1 < q.slots.length then q.tail + 1 else 0 := by
  obtain ⟨hN, hh, ht⟩ := h
  show (q.tail + 1) % q.slots.length = _
  by_cases hlt : q.tail + 1 < q.slots.length
  · simp only [hlt, if_true]
    exact Nat.mod_eq_of_lt hlt
  · simp only [hlt, if_false]
    have e : q.tail + 1 = q.slots.length := by omega
    rw [e, Nat.mod_self]

theorem FrameQueue.size_removeFrame (q : FrameQueue) (h : q.wf) (hne : q.head ≠ q.tail) :
    q.size = q.removeFrame.size + 1 := by
  have h' := FrameQueue.wf_removeFrame q h
  rw [FrameQueue.size_eq q h, FrameQueue.size_eq _ h', FrameQueue.tail_removeFrame q h]
  obtain ⟨hN, hh, ht⟩ := h
  show _ = (if _ ≤ q.head then q.head - _ else q.head + q.slots.length - _) + 1
  split_ifs <;> omega

theorem FrameQueue.unread_cons (q : FrameQueue) (h : q.wf) (hne : q.head ≠ q.tail) :
    ∃ f, q.getFront = some f ∧ q.slots[q.tail]? = some f
      ∧ q.unread = f :: q.removeFrame.unread := by
  obtain ⟨hN, hh, ht⟩ := h
  have hsz := FrameQueue.size_removeFrame q ⟨hN, hh, ht⟩ hne
  have hf : q.slots[q.tail]? = some (q.slots[q.tail]) := List.getElem?_eq_getElem ht
  refine ⟨q.slots[q.tail], by simp [FrameQueue.getFront, hne, hf], hf, ?_⟩
  unfold FrameQueue.unread
  rw [hsz, List.range_succ_eq_map, List.filterMap_cons]
  have h0 : (q.tail + 0) % q.slots.length = q.tail := by
    rw [Nat.add_zero]
    exact Nat.mod_eq_of_lt ht
  simp only [h0, hf, List.filterMap_map]
  congr 1
  apply List.filterMap_congr
  intro i _
  show q.slots[(q.tail + (i + 1)) % q.slots.length]?
    = q.slots[((q.tail + 1) % q.slots.length + i) % q.slots.length]?
  rw [Nat.mod_add_mod, Nat.add_assoc, Nat.add_comm 1 i]

theorem FrameQueue.unread_empty (q : FrameQueue) (h : q.wf) (he : q.head = q.tail) :
    q.getFront = none ∧ q.unread = [] := by
  obtain ⟨hN, hh, ht⟩ := h
  refine ⟨by simp [FrameQueue.getFront, he], ?_⟩
  have : q.size = 0 := by
    rw [FrameQueue.size_eq q ⟨hN, hh, ht⟩]
    simp [he]
  simp [FrameQueue.unread, this]


theorem mod_two_range (a n : Nat) (ha : a < 2 * n) :
    a % n = if a < n then a else a - n := by
  by_cases hlt : a < n
  · simp only [hlt, if_true]
    exact Nat.mod_eq_of_lt hlt
  · simp only [hlt, if_false]
    rw [Nat.mod_eq_sub_mod (by omega), Nat.mod_eq_of_lt (by omega)]

theorem FrameQueue.unread_produce (q : FrameQueue) (f : Frame) (h : q.wf)
    (hnf : q.full = false) :
    (q.produce f).wf ∧ (q.produce f).unread = q.unread ++ [f] := by
  obtain ⟨hN, hh, ht⟩ := h
  have hhead : (q.head + 1) % q.slots.length
      = if q.head + 1 < q.slots.length then q.head + 1 else q.head + 1 - q.slots.length :=
    mod_two_range _ _ (by omega)
  have hne : (q.head + 1) % q.slots.length ≠ q.tail := by
    simpa [FrameQueue.full] using hnf
  have hprod : q.produce f =
      { q with slots := q.slots.set q.head f, head := (q.head + 1) % q.slots.length } := by
    simp [FrameQueue.produce, hnf]
  have hwf' : (q.produce f).wf := by
    rw [hprod]
    exact ⟨by simpa using hN, by simpa using Nat.mod_lt _ (by omega), by simpa using ht⟩
  refine ⟨hwf', ?_⟩
  have hs := FrameQueue.size_eq q ⟨hN, hh, ht⟩
  have hs' := FrameQueue.size_eq _ hwf'
  rw [hprod] at hs' ⊢
  simp only [List.length_set] at hs'
  have hsz : FrameQueue.size
      { q with slots := q.slots.set q.head f, head := (q.head + 1) % q.slots.length }
      = q.size + 1 := by
    rw [hs', hs, hhead]
    rw [hhead] at hne
    split_ifs at hne ⊢ <;> omega
  unfold FrameQueue.unread
  rw [hsz, List.range_succ, List.filterMap_append]
  simp only [List.length_set]
  have hlast : (q.tail + q.size) % q.slots.length = q.head := by
    rw [mod_two_range _ _ (by rw [hs]; split_ifs <;> omega), hs]
    split_ifs <;> omega
  congr 1
  · apply List.filterMap_congr
    intro i hi
    have hi' : i < q.size := List.mem_range.mp hi
    have hidx : (q.tail + i) % q.slots.length ≠ q.head := by
      rw [hs] at hi'
      rw [mod_two_range _ _ (by split_ifs at hi' <;> omega)]
      split_ifs at hi' ⊢ <;> omega
    exact List.getElem?_set_ne (fun e => hidx e.symm)
  · simp only [List.filterMap_cons, List.filterMap_nil, hlast]
    rw [List.getElem?_set_eq_of_lt _ hh]
theorem memcpy_fits (dst src : List Nat) (h : src.length ≤ dst.length) :
    ∃ r, memcpy dst src = some r ∧ r.length = dst.length ∧ r.take src.length = src := by
  refine ⟨src ++ dst.drop src.length, by simp [memcpy, h], ?_, ?_⟩
  · simp only [List.length_append, List.length_drop]
    omega
  · simp

theorem doGetNextFrame_front (s : QueueSource) (now : Nat) (f : Frame)
    (hf : s.queue.getFront = some f) (hfit : f.buffer.length ≤ s.fTo.length) :
    ∃ s', doGetNextFrame s now = some s'
      ∧ s'.queue = s.queue.removeFrame
      ∧ s'.delivered = s.delivered ++
          [{ data := f.buffer, frameSize := f.buffer.length, numTruncatedBytes := 0,
             presentationTime := now }]
      ∧ s'.fTo.take f.buffer.length = f.buffer
      ∧ s'.fTo.length = s.fTo.length
      ∧ s'.fFrameSize = f.buffer.length ∧ s'.fNumTruncatedBytes = 0
      ∧ s'.pending = s.pending := by
  obtain ⟨r, hr, hlen, htake⟩ := memcpy_fits s.fTo f.buffer hfit
  refine ⟨afterGetting
      { s with frame := some f, fTo := r, fFrameSize := f.buffer.length,
               fPresentationTime := now, fNumTruncatedBytes := 0,
               queue := s.queue.removeFrame },
    by simp only [doGetNextFrame, hf, hr], rfl, ?_, htake, hlen, rfl, rfl, rfl⟩
  simp [afterGetting, htake]

theorem getFrames_all : ∀ (times : List Nat) (s : QueueSource), s.queue.wf →
    times.length = s.queue.unread.length →
    (∀ f ∈ s.queue.unread, f.buffer.length ≤ s.fTo.length) →
    ∃ s', getFrames s times = some s'
      ∧ s'.delivered.map Delivery.data
          = s.delivered.map Delivery.data ++ s.queue.unread.map Frame.buffer
      ∧ s'.queue.unread = [] ∧ s'.pending = s.pending
  | [], s, _, hlen, _ => by
    have hnil : s.queue.unread = [] := List.length_eq_zero.mp hlen.symm
    exact ⟨s, rfl, by simp [hnil], hnil, rfl⟩
  | now :: r, s, hwf, hlen, hfit => by
    have hne : s.queue.head ≠ s.queue.tail := by
      intro he
      rw [(FrameQueue.unread_empty s.queue hwf he).2] at hlen
      simp at hlen
    obtain ⟨f, hf, _, hun⟩ := FrameQueue.unread_cons s.queue hwf hne
    have hfitf : f.buffer.length ≤ s.fTo.length := hfit f (by rw [hun]; simp)
    obtain ⟨s1, e1, q1, d1, _, l1, _, _, p1⟩ := doGetNextFrame_front s now f hf hfitf
    have hwf1 : s1.queue.wf := by rw [q1]; exact FrameQueue.wf_removeFrame _ hwf
    have hlen1 : r.length = s1.queue.unread.length := by
      rw [hun] at hlen
      rw [q1]
      simpa using hlen
    have hfit1 : ∀ g ∈ s1.queue.unread, g.buffer.length ≤ s1.fTo.length := by
      intro g hg
      rw [l1]
      rw [q1] at hg
      exact hfit g (by rw [hun]; exact List.mem_cons_of_mem _ hg)
    obtain ⟨s', e', d', u', p'⟩ := getFrames_all r s1 hwf1 hlen1 hfit1
    refine ⟨s', by simp only [getFrames, e1, e'], ?_, u', p'.trans p1⟩
    rw [d', d1, hun, q1]
    simp

end Network

theorem Steady.same (w : World) : Steady w w := ⟨rfl, rfl, rfl, rfl⟩

theorem Steady.chain {w1 w2 w3 : World} (h1 : Steady w1 w2) (h2 : Steady w2 w3) :
    Steady w1 w3 :=
  ⟨h2.1.trans h1.1, h2.2.1.trans h1.2.1, h2.2.2.1.trans h1.2.2.1, h2.2.2.2.trans h1.2.2.2⟩

theorem World.filtersIndex_steady (w : World) (k : Int) : Steady w (w.filtersIndex k).2 :=
  ⟨rfl, rfl, rfl, rfl⟩

theorem World.workersIndex_steady (w : World) (k : Int) : Steady w (w.workersIndex k).2 :=
  ⟨rfl, rfl, rfl, rfl⟩

theorem BaseFilter.connect_steady (w : World) (self other : Ptr) (wr rd : Int) (sh : Bool)
    (b : Bool) (w' : World) (h : BaseFilter.connect w self other wr rd sh = some (b, w')) :
    Steady w w' := by
  unfold BaseFilter.connect at h
  cases hf : w.filterAt self with
  | none => simp [hf] at h
  | some f =>
    cases hg : w.filterAt other with
    | none => simp [hf, hg] at h
    | some g =>
      simp only [hf, hg] at h
      split at h
      · simp only [Option.some.injEq, Prod.mk.injEq] at h
        rw [← h.2]
        exact Steady.same w
      · split at h
        · simp at h
        · simp only [Option.some.injEq, Prod.mk.injEq] at h
          rw [← h.2]
          exact ⟨rfl, rfl, rfl, rfl⟩

theorem BaseFilter.disconnect_steady (w : World) (self other : Ptr) (wr rd : Int)
    (b : Bool) (w' : World) (h : BaseFilter.disconnect w self other wr rd = some (b, w')) :
    Steady w w' := by
  unfold BaseFilter.disconnect at h
  have L : Steady w (w.log (WiringCall.disconnect self other wr rd)) := ⟨rfl, rfl, rfl, rfl⟩
  generalize w.log (WiringCall.disconnect self other wr rd) = w0 at h L
  simp only at h
  cases hf : w0.filterAt self with
  | none => simp [hf] at h
  | some f =>
    cases hg : w0.filterAt other with
    | none => simp [hf, hg] at h
    | some g =>
      simp only [hf, hg] at h
      split at h
      · split at h
        · split at h
          · simp at h
          · simp only [Option.some.injEq, Prod.mk.injEq] at h
            rw [← h.2]
            exact Steady.chain L ⟨rfl, rfl, rfl, rfl⟩
        · simp only [Option.some.injEq, Prod.mk.injEq] at h
          rw [← h.2]
          exact L
      · simp only [Option.some.injEq, Prod.mk.injEq] at h
        rw [← h.2]
        exact L

theorem BaseFilter.generateWriterID_steady (w : World) (self : Ptr) (r : Int × World)
    (h : BaseFilter.generateWriterID w self = some r) : Steady w r.2 := by
  unfold BaseFilter.generateWriterID at h
  split at h
  · simp at h
  · simp only [Option.some.injEq] at h
    subst h
    exact ⟨rfl, rfl, rfl, rfl⟩

theorem BaseFilter.generateReaderID_steady (w : World) (self : Ptr) (r : Int × World)
    (h : BaseFilter.generateReaderID w self = some r) : Steady w r.2 := by
  unfold BaseFilter.generateReaderID at h
  split at h
  · simp at h
  · simp only [Option.some.injEq] at h
    subst h
    exact ⟨rfl, rfl, rfl, rfl⟩

theorem BaseFilter.connectOneToOne_steady (w : World) (self other : Ptr) (b : Bool)
    (w' : World) (h : BaseFilter.connectOneToOne w self other = some (b, w')) :
    Steady w w' :=
  @Steady.chain w (w.log (WiringCall.connectOneToOne self other)) w' ⟨rfl, rfl, rfl, rfl⟩
    (BaseFilter.connect_steady _ _ _ _ _ _ _ _ h)

theorem BaseFilter.connectManyToOne_steady (w : World) (self other : Ptr) (wr : Int)
    (sh : Bool) (b : Bool) (w' : World)
    (h : BaseFilter.connectManyToOne w self other wr sh = some (b, w')) : Steady w w' :=
  @Steady.chain w (w.log (WiringCall.connectManyToOne self other wr sh)) w'
    ⟨rfl, rfl, rfl, rfl⟩ (BaseFilter.connect_steady _ _ _ _ _ _ _ _ h)

theorem BaseFilter.connectOneToMany_steady (w : World) (self other : Ptr) (rd : Int)
    (b : Bool) (w' : World)
    (h : BaseFilter.connectOneToMany w self other rd = some (b, w')) : Steady w w' :=
  @Steady.chain w (w.log (WiringCall.connectOneToMany self other rd)) w'
    ⟨rfl, rfl, rfl, rfl⟩ (BaseFilter.connect_steady _ _ _ _ _ _ _ _ h)

theorem BaseFilter.connectManyToMany_steady (w : World) (self other : Ptr) (rd wr : Int)
    (sh : Bool) (b : Bool) (w' : World)
    (h : BaseFilter.connectManyToMany w self other rd wr sh = some (b, w')) : Steady w w' :=
  @Steady.chain w (w.log (WiringCall.connectManyToMany self other rd wr sh)) w'
    ⟨rfl, rfl, rfl, rfl⟩ (BaseFilter.connect_steady _ _ _ _ _ _ _ _ h)

theorem connectMiddle_steady : ∀ (l : List Int) (w : World) (b : Bool) (w' : World),
    connectMiddle w l = some (b, w') → Steady w w'
  | [], w, b, w', h => by
    simp only [connectMiddle, Option.some.injEq, Prod.mk.injEq] at h
    rw [← h.2]
    exact Steady.same w
  | [_], w, b, w', h => by
    simp only [connectMiddle, Option.some.injEq, Prod.mk.injEq] at h
    rw [← h.2]
    exact Steady.same w
  | x :: y :: r, w, b, w', h => by
    simp only [connectMiddle] at h
    cases hc : BaseFilter.connectOneToOne ((w.filtersIndex x).2.filtersIndex y).2
        (w.filtersIndex x).1 ((w.filtersIndex x).2.filtersIndex y).1 with
    | none => simp [hc] at h
    | some z =>
      obtain ⟨b1, w1⟩ := z
      have S1 : Steady w w1 := Steady.chain (Steady.chain (World.filtersIndex_steady w x)
        (World.filtersIndex_steady _ y)) (BaseFilter.connectOneToOne_steady _ _ _ _ _ hc)
      cases b1 with
      | false =>
        simp only [hc, Option.some.injEq, Prod.mk.injEq] at h
        rw [← h.2]
        exact S1
      | true =>
        simp only [hc] at h
        exact Steady.chain S1 (connectMiddle_steady (y :: r) w1 b w' h)
theorem connectPath_steady (w : World) (path : Ptr) (b : Bool) (w' : World)
    (h : connectPath w path = some (b, w')) : Steady w w' := by
  unfold connectPath at h
  cases hp : w.pathAt path with
  | none => simp [hp] at h
  | some pa =>
    simp only [hp] at h
    cases hl : pa.filters with
    | nil =>
      simp only [hl] at h
      cases hc : BaseFilter.connectManyToMany
          ((w.filtersIndex pa.originFilterID).2.filtersIndex pa.destinationFilterID).2
          (w.filtersIndex pa.originFilterID).1
          ((w.filtersIndex pa.originFilterID).2.filtersIndex pa.destinationFilterID).1
          pa.dstReaderID pa.orgWriterID pa.shared with
      | none => simp [hc] at h
      | some z =>
        obtain ⟨b1, w1⟩ := z
        have S1 : Steady w w1 := Steady.chain (Steady.chain (World.filtersIndex_steady w _)
          (World.filtersIndex_steady _ _)) (BaseFilter.connectManyToMany_steady _ _ _ _ _ _ _ _ hc)
        cases b1 <;>
          (simp only [hc, Option.some.injEq, Prod.mk.injEq] at h
           rw [← h.2]
           exact S1)
    | cons front rest =>
      simp only [hl] at h
      cases hc : BaseFilter.connectManyToOne
          ((w.filtersIndex pa.originFilterID).2.filtersIndex front).2
          (w.filtersIndex pa.originFilterID).1
          ((w.filtersIndex pa.originFilterID).2.filtersIndex front).1
          pa.orgWriterID pa.shared with
      | none => simp [hc] at h
      | some z =>
        obtain ⟨b1, w1⟩ := z
        have S1 : Steady w w1 := Steady.chain (Steady.chain (World.filtersIndex_steady w _)
          (World.filtersIndex_steady _ _)) (BaseFilter.connectManyToOne_steady _ _ _ _ _ _ _ hc)
        cases b1 with
        | false =>
          simp only [hc, Option.some.injEq, Prod.mk.injEq] at h
          rw [← h.2]
          exact S1
        | true =>
          simp only [hc] at h
          cases hm : connectMiddle w1 (front :: rest) with
          | none => simp [hm] at h
          | some z2 =>
            obtain ⟨b2, w2⟩ := z2
            have S2 : Steady w w2 := Steady.chain S1 (connectMiddle_steady _ _ _ _ hm)
            cases b2 with
            | false =>
              simp only [hm, Option.some.injEq, Prod.mk.injEq] at h
              rw [← h.2]
              exact S2
            | true =>
              simp only [hm] at h
              cases hc3 : BaseFilter.connectOneToMany
                  ((w2.filtersIndex ((front :: rest).getLast
                    (List.cons_ne_nil front rest))).2.filtersIndex pa.destinationFilterID).2
                  (w2.filtersIndex ((front :: rest).getLast
                    (List.cons_ne_nil front rest))).1
                  ((w2.filtersIndex ((front :: rest).getLast
                    (List.cons_ne_nil front rest))).2.filtersIndex pa.destinationFilterID).1
                  pa.dstReaderID with
              | none => simp [hc3] at h
              | some z3 =>
                obtain ⟨b3, w3⟩ := z3
                have S3 : Steady w w3 := Steady.chain S2 (Steady.chain (Steady.chain
                  (World.filtersIndex_steady w2 _) (World.filtersIndex_steady _ _))
                  (BaseFilter.connectOneToMany_steady _ _ _ _ _ _ hc3))
                cases b3 <;>
                  (simp only [hc3, Option.some.injEq, Prod.mk.injEq] at h
                   rw [← h.2]
                   exact S3)
theorem disconnectMiddle_steady : ∀ (l : List Int) (w : World) (b : Bool) (w' : World),
    disconnectMiddle w l = some (b, w') → Steady w w'
  | [], w, b, w', h => by
    simp only [disconnectMiddle, Option.some.injEq, Prod.mk.injEq] at h
    rw [← h.2]
    exact Steady.same w
  | [_], w, b, w', h => by
    simp only [disconnectMiddle, Option.some.injEq, Prod.mk.injEq] at h
    rw [← h.2]
    exact Steady.same w
  | x :: y :: r, w, b, w', h => by
    simp only [disconnectMiddle] at h
    cases hc : BaseFilter.disconnect ((w.filtersIndex x).2.filtersIndex y).2
        (w.filtersIndex x).1 ((w.filtersIndex x).2.filtersIndex y).1 DEFAULT_ID DEFAULT_ID with
    | none => simp [hc] at h
    | some z =>
      obtain ⟨b1, w1⟩ := z
      have S1 : Steady w w1 := Steady.chain (Steady.chain (World.filtersIndex_steady w x)
        (World.filtersIndex_steady _ y)) (BaseFilter.disconnect_steady _ _ _ _ _ _ _ hc)
      cases b1 with
      | false =>
        simp only [hc, Option.some.injEq, Prod.mk.injEq] at h
        rw [← h.2]
        exact S1
      | true =>
        simp only [hc] at h
        exact Steady.chain S1 (disconnectMiddle_steady (y :: r) w1 b w' h)

theorem Worker.removeProcessor_steady (w : World) (self : Ptr) (id : Int) (b : Bool)
    (w' : World) (h : Worker.removeProcessor w self id = some (b, w')) : Steady w w' := by
  unfold Worker.removeProcessor at h
  cases hx : w.workerAt self with
  | none => simp [hx] at h
  | some x =>
    simp only [hx] at h
    split at h <;>
      (simp only [Option.some.injEq, Prod.mk.injEq] at h
       rw [← h.2]
       exact ⟨rfl, rfl, rfl, rfl⟩)

theorem deleteFilter_steady (w : World) (p : Ptr) (w' : World)
    (h : deleteFilter w p = some w') : Steady w w' := by
  unfold deleteFilter at h
  split at h
  · simp only [Option.some.injEq] at h
    rw [← h]
    exact Steady.same w
  · split at h
    · simp at h
    · simp only [Option.some.injEq] at h
      rw [← h]
      exact ⟨rfl, rfl, rfl, rfl⟩

theorem deleteFilters_steady : ∀ (l : List Int) (w w' : World),
    deleteFilters w l = some w' → Steady w w'
  | [], w, w', h => by
    simp only [deleteFilters, Option.some.injEq] at h
    rw [← h]
    exact Steady.same w
  | it :: r, w, w', h => by
    simp only [deleteFilters] at h
    cases hg : BaseFilter.getWorkerId (w.filtersIndex it).2 (w.filtersIndex it).1 with
    | none => simp [hg] at h
    | some wid =>
      simp only [hg] at h
      cases hr : Worker.removeProcessor ((w.filtersIndex it).2.workersIndex wid).2
          ((w.filtersIndex it).2.workersIndex wid).1 it with
      | none => simp [hr] at h
      | some x =>
        obtain ⟨b, w3⟩ := x
        simp only [hr] at h
        cases hdel : deleteFilter (w3.filtersIndex it).2 (w3.filtersIndex it).1 with
        | none => simp [hdel] at h
        | some w5 =>
          simp only [hdel] at h
          have S : Steady w w5 := Steady.chain (Steady.chain (Steady.chain
            (Steady.chain (World.filtersIndex_steady w it) (World.workersIndex_steady _ wid))
            (Worker.removeProcessor_steady _ _ _ _ _ hr)) (World.filtersIndex_steady w3 it))
            (deleteFilter_steady _ _ _ hdel)
          have S6 : Steady w5 { w5 with filters := w5.filters.erase it } :=
            ⟨rfl, rfl, rfl, rfl⟩
          exact Steady.chain (Steady.chain S S6) (deleteFilters_steady r _ w' h)

theorem deletePath_ids (w w' : World) (path : Ptr) (b : Bool)
    (h : deletePath w path = some (b, w')) :
    w'.paths = w.paths ∧ w'.transmitterID = w.transmitterID
      ∧ w'.receiverID = w.receiverID
      ∧ (∀ q, q ≠ path → w'.pathObjs q = w.pathObjs q) := by
  have key : ∀ wm, Steady w wm → w' = wm ∨ w' = wm.setPath path none →
      w'.paths = w.paths ∧ w'.transmitterID = w.transmitterID
        ∧ w'.receiverID = w.receiverID
        ∧ (∀ q, q ≠ path → w'.pathObjs q = w.pathObjs q) := by
    intro wm S hw
    rcases hw with hw | hw
    · rw [hw]
      exact ⟨S.1, S.2.2.1, S.2.2.2, fun q _ => by rw [S.2.1]⟩
    · rw [hw]
      refine ⟨S.1, S.2.2.1, S.2.2.2, fun q hq => ?_⟩
      simp only [World.setPath, hq, if_false]
      rw [S.2.1]
  unfold deletePath at h
  cases hp : w.pathAt path with
  | none => simp [hp] at h
  | some pa =>
    simp only [hp] at h
    split at h
    · simp only [Option.some.injEq, Prod.mk.injEq] at h
      exact key w (Steady.same w) (Or.inl h.2.symm)
    · split at h
      · simp only [Option.some.injEq, Prod.mk.injEq] at h
        exact key w (Steady.same w) (Or.inl h.2.symm)
      · cases hl : pa.filters with
        | nil => simp [hl] at h
        | cons front rest =>
          simp only [hl] at h
          cases hc1 : BaseFilter.disconnect
              ((w.filtersIndex pa.originFilterID).2.filtersIndex front).2
              (w.filtersIndex pa.originFilterID).1
              ((w.filtersIndex pa.originFilterID).2.filtersIndex front).1
              pa.orgWriterID DEFAULT_ID with
          | none => simp [hc1] at h
          | some z =>
            obtain ⟨b1, w3⟩ := z
            have S1 : Steady w w3 := Steady.chain (Steady.chain
              (World.filtersIndex_steady w _) (World.filtersIndex_steady _ _))
              (BaseFilter.disconnect_steady _ _ _ _ _ _ _ hc1)
            cases b1 with
            | false =>
              simp only [hc1, Option.some.injEq, Prod.mk.injEq] at h
              exact key w3 S1 (Or.inl h.2.symm)
            | true =>
              simp only [hc1] at h
              cases hc2 : disconnectMiddle w3 (front :: rest) with
              | none => simp [hc2] at h
              | some z2 =>
                obtain ⟨b2, w4⟩ := z2
                have S2 : Steady w w4 := Steady.chain S1 (disconnectMiddle_steady _ _ _ _ hc2)
                cases b2 with
                | false =>
                  simp only [hc2, Option.some.injEq, Prod.mk.injEq] at h
                  exact key w4 S2 (Or.inl h.2.symm)
                | true =>
                  simp only [hc2] at h
                  cases hc3 : BaseFilter.disconnect
                      ((w4.filtersIndex ((front :: rest).getLast
                        (List.cons_ne_nil front rest))).2.filtersIndex
                          pa.destinationFilterID).2
                      (w4.filtersIndex ((front :: rest).getLast
                        (List.cons_ne_nil front rest))).1
                      ((w4.filtersIndex ((front :: rest).getLast
                        (List.cons_ne_nil front rest))).2.filtersIndex
                          pa.destinationFilterID).1
                      DEFAULT_ID pa.dstReaderID with
                  | none => simp [hc3] at h
                  | some z3 =>
                    obtain ⟨b3, w7⟩ := z3
                    have S3 : Steady w w7 := Steady.chain S2 (Steady.chain (Steady.chain
                      (World.filtersIndex_steady w4 _) (World.filtersIndex_steady _ _))
                      (BaseFilter.disconnect_steady _ _ _ _ _ _ _ hc3))
                    cases b3 with
                    | false =>
                      simp only [hc3, Option.some.injEq, Prod.mk.injEq] at h
                      exact key w7 S3 (Or.inl h.2.symm)
                    | true =>
                      simp only [hc3] at h
                      cases hc4 : deleteFilters w7 (front :: rest) with
                      | none => simp [hc4] at h
                      | some w8 =>
                        have S4 : Steady w w8 :=
                          Steady.chain S3 (deleteFilters_steady _ _ _ hc4)
                        simp only [hc4] at h
                        split at h
                        · simp at h
                        · simp only [Option.some.injEq, Prod.mk.injEq] at h
                          exact key w8 S4 (Or.inr h.2.symm)

theorem removePath_ids (w w' : World) (id : Int)
    (h : removePath w id = some (true, w')) :
    w'.paths = w.paths.erase id ∧ w'.transmitterID = w.transmitterID
      ∧ w'.receiverID = w.receiverID
      ∧ (∀ q, q ≠ getPath w id → w'.pathObjs q = w.pathObjs q) := by
  unfold removePath at h
  simp only at h
  split at h
  · simp at h
  · cases hd : deletePath w (getPath w id) with
    | none => simp [hd] at h
    | some z =>
      obtain ⟨b, w1⟩ := z
      obtain ⟨d1, d2, d3, d4⟩ := deletePath_ids w w1 _ b hd
      cases b with
      | false => simp [hd] at h
      | true =>
        simp only [hd, Option.some.injEq, Prod.mk.injEq, true_and] at h
        rw [← h]
        exact ⟨by rw [← d1], d2, d3, d4⟩

theorem findEncoderPath_congr (w w0 : World) (encoderID : Int) (h : w0.pathObjs = w.pathObjs) :
    ∀ (l : List (Int × Ptr)) (acc : Int × Ptr),
      findEncoderPath w0 encoderID l acc = findEncoderPath w encoderID l acc
  | [], _ => rfl
  | it :: r, acc => by
    have hp : w0.pathAt it.2 = w.pathAt it.2 := by simp [World.pathAt, h]
    simp only [findEncoderPath, hp, findEncoderPath_congr w w0 encoderID h r]

theorem findEncoderPath_last (w : World) (encoderID : Int) :
    ∀ (l : List (Int × Ptr)) (acc r : Int × Ptr),
      findEncoderPath w encoderID l acc = some r →
      r = ((l.filter (headsPath w encoderID)).getLast?).getD acc
  | [], acc, r, h => by
    simp only [findEncoderPath, Option.some.injEq] at h
    simp [h]
  | it :: rest, acc, r, h => by
    simp only [findEncoderPath] at h
    cases hp : w.pathAt it.2 with
    | none => simp [hp] at h
    | some pa =>
      simp only [hp] at h
      cases hl : pa.filters with
      | nil => simp [hl] at h
      | cons front tl =>
        simp only [hl] at h
        by_cases hf : front = encoderID
        · simp only [hf, if_true] at h
          have hP : headsPath w encoderID it = true := by
            simp [headsPath, hp, hl, hf]
          rw [List.filter_cons_of_pos hP, List.getLast?_cons]
          simpa using findEncoderPath_last w encoderID rest _ r h
        · simp only [hf, if_false] at h
          have hP : ¬ headsPath w encoderID it = true := by
            simp [headsPath, hp, hl, hf]
          rw [List.filter_cons_of_neg hP]
          exact findEncoderPath_last w encoderID rest _ r h

theorem Table.length_erase_of_nodup : ∀ (t : Table) (k : Int), t.keys.Nodup → k ∈ t.keys →
    (t.erase k).length + 1 = t.length
  | [], k, _, hk => by simp [Table.keys] at hk
  | e :: r, k, hn, hk => by
    simp only [Table.keys, List.map_cons, List.nodup_cons] at hn
    obtain ⟨hnot, hn'⟩ := hn
    by_cases he : e.1 = k
    · have hk' : k ∉ Table.keys r := by rw [← he]; exact hnot
      have hfilter : Table.erase r k = r := by
        unfold Table.erase
        rw [List.filter_eq_self]
        intro a ha
        have : a.1 ∈ Table.keys r := List.mem_map_of_mem Prod.fst ha
        simp only [ne_eq, decide_eq_true_eq]
        intro hak
        exact hk' (hak ▸ this)
      have : Table.erase (e :: r) k = Table.erase r k := by
        simp [Table.erase, he]
      rw [this, hfilter]
      simp
    · have hk' : k ∈ Table.keys r := by
        simp only [Table.keys, List.map_cons, List.mem_cons] at hk
        rcases hk with hk | hk
        · exact absurd hk.symm he
        · exact hk
      have : Table.erase (e :: r) k = e :: Table.erase r k := by
        simp [Table.erase, he]
      rw [this]
      simp only [List.length_cons]
      have := Table.length_erase_of_nodup r k hn' hk'
      omega

theorem getTransmitter_steady (w w0 : World) (tr : Ptr)
    (h : getTransmitter w = some (tr, w0)) : Steady w w0 := by
  have hs := World.filtersIndex_steady w w.transmitterID
  unfold getTransmitter at h
  generalize w.filtersIndex w.transmitterID = r at h hs
  obtain ⟨p, w1⟩ := r
  simp only at h hs
  by_cases hp : p = 0
  · simp only [hp, if_true, Option.some.injEq, Prod.mk.injEq] at h
    rw [← h.2]; exact hs
  · simp only [hp, if_false] at h
    cases hf : w1.filterObjs p with
    | none => simp [hf] at h
    | some f =>
      simp only [hf] at h
      split at h
      · simp only [Option.some.injEq, Prod.mk.injEq] at h
        rw [← h.2]; exact hs
      · simp only [Option.some.injEq, Prod.mk.injEq] at h
        rw [← h.2]; exact hs

theorem newAudioEncoderPath_spec (w : World) (o wr e : Int) :
    (newAudioEncoderPath w o wr e).2.paths = w.paths
      ∧ (newAudioEncoderPath w o wr e).2.transmitterID = w.transmitterID
      ∧ (newAudioEncoderPath w o wr e).2.pathAt (newAudioEncoderPath w o wr e).1
          = some { originFilterID := o, destinationFilterID := -1, orgWriterID := wr,
                   dstReaderID := -1, filters := [e], shared := false } := by
  unfold newAudioEncoderPath newFilter addFilter
  simp only
  split <;> simp [World.setPath, World.setFilter, World.pathAt]

theorem Path.setDestinationFilter_spec (w w' : World) (self : Ptr) (d r : Int) (pa : Path)
    (hp : w.pathAt self = some pa)
    (h : Path.setDestinationFilter w self d r = some w') :
    w'.paths = w.paths ∧ w'.transmitterID = w.transmitterID
      ∧ w'.pathAt self = some { pa with destinationFilterID := d, dstReaderID := r } := by
  unfold Path.setDestinationFilter at h
  simp only [hp, Option.some.injEq] at h
  subst h
  have h0 : self ≠ 0 := by
    intro e; simp [World.pathAt, e] at hp
  simp [World.setPath, World.pathAt, h0]

theorem Table.find_of_mem_nodup : ∀ (t : Table) (k : Int) (p : Ptr), t.keys.Nodup →
    (k, p) ∈ t → t.find k = some p
  | [], _, _, _, h => by simp at h
  | e :: r, k, p, hn, h => by
    simp only [Table.keys, List.map_cons, List.nodup_cons] at hn
    simp only [List.mem_cons] at h
    simp only [Table.find]
    rcases h with h | h
    · subst h; simp
    · have hk : k ∈ Table.keys r := List.mem_map_of_mem Prod.fst h
      have hne : ¬ e.1 = k := by
        intro e1; rw [e1] at hn; exact hn.1 hk
      simp only [hne, if_false]
      exact Table.find_of_mem_nodup r k p hn.2 h

theorem deleteFilter_other (w : World) (p : Ptr) (w' : World)
    (h : deleteFilter w p = some w') (q : Ptr) (hq : q ≠ p) :
    w'.filterAt q = w.filterAt q := by
  unfold deleteFilter at h
  split at h
  · simp only [Option.some.injEq] at h
    rw [← h]
  · split at h
    · simp at h
    · simp only [Option.some.injEq] at h
      rw [← h, World.filterAt_setFilter]
      by_cases h0 : q = 0
      · simp [h0, World.filterAt]
      · simp [h0, hq, World.filterAt]

theorem deleteFilters_live : ∀ (l : List Int) (w w' : World),
    deleteFilters w l = some w' →
    ∀ q, (∀ m ∈ l, w.filters.find m ≠ some q) → w'.filterAt q = w.filterAt q
  | [], w, w', h, q, _ => by
    simp only [deleteFilters, Option.some.injEq] at h
    rw [← h]
  | it :: r, w, w', h, q, hq => by
    simp only [deleteFilters] at h
    rcases World.index_cases w.filters it with ⟨hk, hi⟩ | ⟨_, hz⟩
    · have e1 : w.filtersIndex it = (w.filters.ptr it, w) := World.filtersIndex_of_mem w it hk
      simp only [e1] at h
      cases hg : BaseFilter.getWorkerId w (w.filters.ptr it) with
      | none => simp [hg] at h
      | some wid =>
        simp only [hg] at h
        rcases World.index_cases w.workers wid with ⟨hwk, _⟩ | ⟨hwn, _⟩
        · simp only [World.workersIndex_of_mem w wid hwk] at h
          cases hr : Worker.removeProcessor w (w.workers.ptr wid) it with
          | none => simp [hr] at h
          | some x =>
            obtain ⟨b, w3⟩ := x
            obtain ⟨t1, t2, t3, t4, t5⟩ := Worker.removeProcessor_tables _ _ _ _ _ hr
            have hk3 : it ∈ w3.filters.keys := by rw [t1]; exact hk
            simp only [hr, World.filtersIndex_of_mem w3 it hk3] at h
            cases hdel : deleteFilter w3 (w3.filters.ptr it) with
            | none => simp [hdel] at h
            | some w5 =>
              obtain ⟨u1, u2, u3, u4⟩ := deleteFilter_tables _ _ _ hdel
              simp only [hdel] at h
              have hne : q ≠ w3.filters.ptr it := by
                intro e
                apply hq it (by simp)
                rw [e, t1]
                exact Table.ptr_of_mem _ _ hk
              have s1 := deleteFilter_other _ _ _ hdel q hne
              have hrec := deleteFilters_live r _ w' h q (by
                intro m hm
                show (w5.filters.erase it).find m ≠ some q
                rw [Table.find_erase]
                by_cases hmi : m = it
                · simp [hmi]
                · simp only [hmi, if_false, u1, t1]
                  exact hq m (by simp [hm]))
              rw [hrec]
              show w5.filterAt q = w.filterAt q
              rw [s1]
              simp only [World.filterAt, t5]
        · have hz : (w.workersIndex wid).1 = 0 := World.workersIndex_of_find_none w wid hwn
          have hnone : Worker.removeProcessor (w.workersIndex wid).2 (w.workersIndex wid).1 it
              = none := by
            rw [hz]
            simp [Worker.removeProcessor, World.workerAt_zero]
          simp [hnone] at h
    · have hz' : (w.filtersIndex it).1 = 0 := hz
      have hnone : BaseFilter.getWorkerId (w.filtersIndex it).2 (w.filtersIndex it).1 = none := by
        rw [hz']
        simp [BaseFilter.getWorkerId, World.filterAt_zero]
      simp [hnone] at h

theorem BaseFilter.disconnect_ends (w : World) (self other : Ptr) (wr rd : Int)
    (b : Bool) (w' : World) (h : BaseFilter.disconnect w self other wr rd = some (b, w')) :
    (w.filterAt self).isSome = true ∧ (w.filterAt other).isSome = true := by
  unfold BaseFilter.disconnect at h
  simp only [World.filterAt_log] at h
  cases hf : w.filterAt self with
  | none => simp [hf] at h
  | some f =>
    cases hg : w.filterAt other with
    | none => simp [hf, hg] at h
    | some g => simp
theorem deletePath_live (w w' : World) (path : Ptr) (pa : Path)
    (hp : w.pathAt path = some pa) (h : deletePath w path = some (true, w')) :
    (w.filterAt (w.filters.ptr pa.originFilterID)).isSome = true
      ∧ (w.filterAt (w.filters.ptr pa.destinationFilterID)).isSome = true
      ∧ ∀ q, (∀ m ∈ pa.filters, w.filters.find m ≠ some q) →
          (w'.filterAt q).isSome = (w.filterAt q).isSome := by
  unfold deletePath at h
  simp only [hp] at h
  split at h
  · simp at h
  · rename_i hc
    have ho : pa.originFilterID ∈ w.filters.keys := by
      by_contra hn
      exact hc (Or.inl ((Table.count_le_zero_iff _ _).mpr hn))
    have hd : pa.destinationFilterID ∈ w.filters.keys := by
      by_contra hn
      exact hc (Or.inr ((Table.count_le_zero_iff _ _).mpr hn))
    split at h
    · simp at h
    · rename_i hany
      have hm : ∀ m ∈ pa.filters, m ∈ w.filters.keys := by
        intro m hmem
        by_contra hn
        apply hany
        rw [List.any_eq_true]
        exact ⟨m, hmem, by simpa using (Table.count_le_zero_iff _ _).mpr hn⟩
      cases hl : pa.filters with
      | nil => simp [hl] at h
      | cons front rest =>
        rw [hl] at hm
        have hfront : front ∈ w.filters.keys := hm front (by simp)
        simp only [hl, World.filtersIndex_of_mem w _ ho,
          World.filtersIndex_of_mem w _ hfront] at h
        cases hc1 : BaseFilter.disconnect w (w.filters.ptr pa.originFilterID)
            (w.filters.ptr front) pa.orgWriterID DEFAULT_ID with
        | none => simp [hc1] at h
        | some z =>
          obtain ⟨b1, w3⟩ := z
          have F1 := BaseFilter.disconnect_frame _ _ _ _ _ _ _ hc1
          have E1 := BaseFilter.disconnect_ends _ _ _ _ _ _ _ hc1
          cases b1 with
          | false => simp [hc1] at h
          | true =>
            simp only [hc1] at h
            cases hc2 : disconnectMiddle w3 (front :: rest) with
            | none => simp [hc2] at h
            | some z2 =>
              obtain ⟨b2, w4⟩ := z2
              cases b2 with
              | false => simp [hc2] at h
              | true =>
                obtain ⟨cs, F2⟩ := disconnectMiddle_frame (front :: rest) w3 true w4
                  (fun m hmem => by rw [F1.1]; exact hm m hmem) hc2
                have hf4 : w4.filters = w.filters := F2.1.trans F1.1
                have hlast : (front :: rest).getLast (List.cons_ne_nil front rest)
                    ∈ w4.filters.keys := by
                  rw [hf4]
                  exact hm _ (List.getLast_mem _)
                have hd4 : pa.destinationFilterID ∈ w4.filters.keys := by rw [hf4]; exact hd
                simp only [hc2, World.filtersIndex_of_mem w4 _ hlast,
                  World.filtersIndex_of_mem w4 _ hd4] at h
                cases hc3 : BaseFilter.disconnect w4
                    (w4.filters.ptr ((front :: rest).getLast (List.cons_ne_nil front rest)))
                    (w4.filters.ptr pa.destinationFilterID) DEFAULT_ID pa.dstReaderID with
                | none => simp [hc3] at h
                | some z3 =>
                  obtain ⟨b3, w7⟩ := z3
                  have F3 := BaseFilter.disconnect_frame _ _ _ _ _ _ _ hc3
                  have E3 := BaseFilter.disconnect_ends _ _ _ _ _ _ _ hc3
                  cases b3 with
                  | false => simp [hc3] at h
                  | true =>
                    simp only [hc3] at h
                    cases hc4 : deleteFilters w7 (front :: rest) with
                    | none => simp [hc4] at h
                    | some w8 =>
                      have L := deleteFilters_live _ _ _ hc4
                      simp only [hc4] at h
                      split at h
                      · simp at h
                      · simp only [Option.some.injEq, Prod.mk.injEq, true_and] at h
                        rw [← h]
                        have hf7 : w7.filters = w.filters := F3.1.trans hf4
                        refine ⟨E1.1, ?_, ?_⟩
                        · have := E3.2
                          rw [hf4, F2.2.2.2.2.2.2, F1.2.2.2.2.2.2] at this
                          exact this
                        · intro q hq
                          have l1 := L q (by rw [hf7]; exact hq)
                          show (w8.filterAt q).isSome = _
                          rw [l1, F3.2.2.2.2.2.2, F2.2.2.2.2.2.2, F1.2.2.2.2.2.2]

/-- C1: for each of addFilter, addWorker and addPath and every id: if id is
already a key of the table the call returns false and leaves the whole state
unchanged; otherwise it returns true, the table maps id to the given object and
every other key as before, it has exactly one entry more, and nothing but that
table changes. -/
theorem add_rejects_present_registers_absent (w : World) (id : Int) (obj : Ptr) :
    (if id ∈ w.filters.keys then addFilter w id obj = (false, w)
     else (addFilter w id obj).1 = true
       ∧ (∀ k, (addFilter w id obj).2.filters.find k
            = if k = id then some obj else w.filters.find k)
       ∧ (addFilter w id obj).2.filters.length = w.filters.length + 1
       ∧ (addFilter w id obj).2 = { w with filters := (addFilter w id obj).2.filters })
    ∧ (if id ∈ w.workers.keys then addWorker w id obj = (false, w)
     else (addWorker w id obj).1 = true
       ∧ (∀ k, (addWorker w id obj).2.workers.find k
            = if k = id then some obj else w.workers.find k)
       ∧ (addWorker w id obj).2.workers.length = w.workers.length + 1
       ∧ (addWorker w id obj).2 = { w with workers := (addWorker w id obj).2.workers })
    ∧ (if id ∈ w.paths.keys then addPath w id obj = (false, w)
     else (addPath w id obj).1 = true
       ∧ (∀ k, (addPath w id obj).2.paths.find k
            = if k = id then some obj else w.paths.find k)
       ∧ (addPath w id obj).2.paths.length = w.paths.length + 1
       ∧ (addPath w id obj).2 = { w with paths := (addPath w id obj).2.paths }) := by
  refine ⟨?_, ?_, ?_⟩
  · by_cases h : id ∈ w.filters.keys
    · have hc := (Table.count_pos_iff_mem w.filters id).mpr h
      simp [h, addFilter, hc]
    · have hc : ¬ w.filters.count id > 0 := fun e => h ((Table.count_pos_iff_mem _ _).mp e)
      have hn := (Table.find_eq_none_iff w.filters id).mpr h
      simp only [h, if_false, addFilter, hc]
      exact ⟨trivial, fun k => Table.find_insert _ _ _ _,
        Table.length_insert_of_find_none _ _ _ hn, trivial⟩
  · by_cases h : id ∈ w.workers.keys
    · have hc := (Table.count_pos_iff_mem w.workers id).mpr h
      simp [h, addWorker, hc]
    · have hc : ¬ w.workers.count id > 0 := fun e => h ((Table.count_pos_iff_mem _ _).mp e)
      have hn := (Table.find_eq_none_iff w.workers id).mpr h
      simp only [h, if_false, addWorker, hc]
      exact ⟨trivial, fun k => Table.find_insert _ _ _ _,
        Table.length_insert_of_find_none _ _ _ hn, trivial⟩
  · by_cases h : id ∈ w.paths.keys
    · have hc := (Table.count_pos_iff_mem w.paths id).mpr h
      simp [h, addPath, hc]
    · have hc : ¬ w.paths.count id > 0 := fun e => h ((Table.count_pos_iff_mem _ _).mp e)
      have hn := (Table.find_eq_none_iff w.paths id).mpr h
      simp only [h, if_false, addPath, hc]
      exact ⟨trivial, fun k => Table.find_insert _ _ _ _,
        Table.length_insert_of_find_none _ _ _ hn, trivial⟩

/-- C2: addFilterToWorker with an unknown filter or worker ID, createPath with an
unknown origin, destination or intermediate filter ID, and removePath with an
unknown path ID return failure (false, or the null path) and leave the whole
state as it was: tables, every filter and worker object, and the call trace. -/
theorem unknown_id_fails_without_effect (w : World) (workerId filterId : Int)
    (orgFilter dstFilter orgWriter dstReader : Int) (midFilters : List Int)
    (sharedQueue : Bool) (pathId : Int) :
    ((filterId ∉ w.filters.keys ∨ workerId ∉ w.workers.keys) →
        addFilterToWorker w workerId filterId = some (false, w))
    ∧ ((orgFilter ∉ w.filters.keys ∨ dstFilter ∉ w.filters.keys
          ∨ ∃ m ∈ midFilters, m ∉ w.filters.keys) →
        createPath w orgFilter dstFilter orgWriter dstReader midFilters sharedQueue
          = some (0, w))
    ∧ (pathId ∉ w.paths.keys → removePath w pathId = some (false, w)) := by
  refine ⟨?_, ?_, ?_⟩
  · intro h
    have hc : w.filters.count filterId ≤ 0 ∨ w.workers.count workerId ≤ 0 :=
      h.imp (Table.count_le_zero_iff _ _).mpr (Table.count_le_zero_iff _ _).mpr
    simp only [addFilterToWorker, hc, if_true]
  · intro h
    unfold createPath
    by_cases hc : w.filters.count orgFilter ≤ 0 ∨ w.filters.count dstFilter ≤ 0
    · simp only [hc, if_true]
    · simp only [hc, if_false]
      have hm : ∃ m ∈ midFilters, m ∉ w.filters.keys := by
        rcases h with h | h | h
        · exact absurd (Or.inl ((Table.count_le_zero_iff _ _).mpr h)) hc
        · exact absurd (Or.inr ((Table.count_le_zero_iff _ _).mpr h)) hc
        · exact h
      obtain ⟨m, hm1, hm2⟩ := hm
      have ha : midFilters.any (fun it => decide (w.filters.count it ≤ 0)) = true := by
        rw [List.any_eq_true]
        exact ⟨m, hm1, by simpa using (Table.count_le_zero_iff _ _).mpr hm2⟩
      simp only [ha, if_true]
  · intro h
    have hc : w.paths.count pathId ≤ 0 := (Table.count_le_zero_iff _ _).mpr h
    simp only [removePath, getPath, hc, if_true]

/-- Witness of C2 on the sample state: worker 5, filter 3 and path 100 are unknown. -/
theorem unknown_id_fails_without_effect_witness :
    addFilterToWorker sampleWorld 5 10 = some (false, sampleWorld)
    ∧ createPath sampleWorld 1 2 (-1) (-1) [10, 3] false = some (0, sampleWorld)
    ∧ removePath sampleWorld 100 = some (false, sampleWorld) :=
  ⟨(unknown_id_fails_without_effect sampleWorld 5 10 1 2 (-1) (-1) [10, 3] false 100).1
      (Or.inr (by decide)),
   (unknown_id_fails_without_effect sampleWorld 5 10 1 2 (-1) (-1) [10, 3] false 100).2.1
      (Or.inr (Or.inr ⟨3, by decide, by decide⟩)),
   (unknown_id_fails_without_effect sampleWorld 5 10 1 2 (-1) (-1) [10, 3] false 100).2.2
      (by decide)⟩

/-- C6: for a path whose filter IDs are all in the filters table and for which
every connect call succeeds, connectPath returns true and the calls it issued are,
in order: with an empty intermediate list the single connectManyToMany
origin -> destination with (destination reader, origin writer, shared); otherwise
connectManyToOne origin -> m[0] with (origin writer, shared), connectOneToOne
m[i] -> m[i+1] for i = 0..n-2, and connectOneToMany m[n-1] -> destination with the
destination reader: n+1 calls in all. -/
theorem connectPath_issues_chain (w w' : World) (path : Ptr) (pa : Path)
    (hp : w.pathAt path = some pa)
    (ho : pa.originFilterID ∈ w.filters.keys) (hd : pa.destinationFilterID ∈ w.filters.keys)
    (hm : ∀ m ∈ pa.filters, m ∈ w.filters.keys)
    (hall : runCalls w (connectPlan w.filters pa) = some (true, w')) :
    connectPath w path = some (true, w')
    ∧ w'.calls = w.calls ++ connectPlan w.filters pa
    ∧ (connectPlan w.filters pa).length = pa.filters.length + 1
    ∧ (pa.filters = [] → connectPlan w.filters pa =
        [WiringCall.connectManyToMany (w.filters.ptr pa.originFilterID)
          (w.filters.ptr pa.destinationFilterID) pa.dstReaderID pa.orgWriterID pa.shared])
    ∧ (∀ first, pa.filters[0]? = some first → (connectPlan w.filters pa)[0]? =
        some (WiringCall.connectManyToOne (w.filters.ptr pa.originFilterID)
          (w.filters.ptr first) pa.orgWriterID pa.shared))
    ∧ (∀ i a b, pa.filters[i]? = some a → pa.filters[i + 1]? = some b →
        (connectPlan w.filters pa)[i + 1]? =
          some (WiringCall.connectOneToOne (w.filters.ptr a) (w.filters.ptr b)))
    ∧ (∀ last, pa.filters.getLast? = some last →
        (connectPlan w.filters pa)[pa.filters.length]? =
          some (WiringCall.connectOneToMany (w.filters.ptr last)
            (w.filters.ptr pa.destinationFilterID) pa.dstReaderID)) := by
  refine ⟨?_, ?_, ?_, ?_, ?_, ?_, ?_⟩
  · rw [connectPath_eq_runCalls w path pa hp ho hd hm, hall]
  · obtain ⟨done, F, _, hdone⟩ := runCalls_frame _ _ _ _ hall
    rw [← hdone rfl]
    exact F.2.2.2.2.2.1
  · unfold connectPlan
    cases hl : pa.filters with
    | nil => simp
    | cons front rest =>
      simp only [List.length_cons, List.length_append, middlePlan_length, List.length_nil]
      omega
  · intro hl
    simp [connectPlan, hl]
  · intro first hf
    unfold connectPlan
    cases hl : pa.filters with
    | nil => simp [hl] at hf
    | cons front rest =>
      simp only [hl, List.getElem?_cons_zero, Option.some.injEq] at hf
      simp [hf]
  · intro i a b ha hb
    unfold connectPlan
    cases hl : pa.filters with
    | nil => simp [hl] at ha
    | cons front rest =>
      rw [hl] at ha hb
      have hget := middlePlan_get w.filters (front :: rest) i a b ha hb
      have hlt : i < (middlePlan w.filters (front :: rest)).length := by
        by_contra hc
        rw [List.getElem?_eq_none (by omega)] at hget
        exact absurd hget (by simp)
      simp only [List.getElem?_cons_succ]
      rw [List.getElem?_append_left hlt]
      exact hget
  · intro last hlast
    unfold connectPlan
    cases hl : pa.filters with
    | nil => simp [hl] at hlast
    | cons front rest =>
      rw [hl, List.getLast?_eq_getLast _ (List.cons_ne_nil front rest)] at hlast
      simp only [Option.some.injEq] at hlast
      have hlen : (middlePlan w.filters (front :: rest)).length = rest.length := by
        rw [middlePlan_length]
        simp
      simp only [List.length_cons, List.getElem?_cons_succ]
      rw [List.getElem?_append_right (by omega), hlen]
      simp [hlast]

/-- Witness of C6: the sample path 1 -> [10] -> 2 is wired by two calls. -/
theorem connectPath_issues_chain_witness :
    sampleCreated.pathAt samplePath = some
      { originFilterID := 1, destinationFilterID := 2, orgWriterID := 2, dstReaderID := 2,
        filters := [10], shared := false }
    ∧ connectPath sampleCreated samplePath = some (true, sampleConnected)
    ∧ sampleConnected.calls = sampleCreated.calls ++
        [WiringCall.connectManyToOne 1 2 2 false, WiringCall.connectOneToMany 2 3 2] :=
  ⟨by decide,
   (connectPath_issues_chain sampleCreated sampleConnected samplePath
      { originFilterID := 1, destinationFilterID := 2, orgWriterID := 2, dstReaderID := 2,
        filters := [10], shared := false }
      (by decide) (by decide) (by decide) (by decide) rfl).1,
   (connectPath_issues_chain sampleCreated sampleConnected samplePath
      { originFilterID := 1, destinationFilterID := 2, orgWriterID := 2, dstReaderID := 2,
        filters := [10], shared := false }
      (by decide) (by decide) (by decide) (by decide) rfl).2.1⟩

/-- C5 (as stated, refuted): on the path 1 -> [10] -> 2 whose destination reader 5
is already bound, connectPath returns false after its first connect call has
succeeded, and the default reader of filter 10 (object 2), unbound before the
call, is still bound to the queue that call allocated. -/
theorem connectPath_failure_keeps_queue :
    (blockedWorld.filterAt 2).map BaseFilter.readers = some []
    ∧ (connectPath blockedWorld blockedPath).map
        (fun r => (r.1, (r.2.filterAt 2).map BaseFilter.readers))
      = some (false, some [(1, 9)]) := by
  decide

/-- C5 (amended): if a connect call made by connectPath fails, after the calls
before it in the chain have succeeded, connectPath returns false at once and
tears nothing down: the state on return is the one left by the successful calls,
with the failing call only recorded, and the trace holds no further call. -/
theorem connectPath_stops_at_failed_connect (w wk : World) (path : Ptr) (pa : Path)
    (done rest : List WiringCall) (failing : WiringCall)
    (hp : w.pathAt path = some pa)
    (ho : pa.originFilterID ∈ w.filters.keys) (hd : pa.destinationFilterID ∈ w.filters.keys)
    (hm : ∀ m ∈ pa.filters, m ∈ w.filters.keys)
    (hplan : connectPlan w.filters pa = done ++ failing :: rest)
    (hdone : runCalls w done = some (true, wk))
    (hfail : (failing.run wk).map Prod.fst = some false) :
    connectPath w path = some (false, wk.log failing)
    ∧ (wk.log failing).calls = w.calls ++ done ++ [failing]
    ∧ (wk.log failing).filterObjs = wk.filterObjs := by
  simp only [Option.map_eq_some'] at hfail
  obtain ⟨⟨b, wf⟩, hrun, hb⟩ := hfail
  simp only at hb
  subst hb
  have hwf := WiringCall.run_false wk failing wf hrun
  subst hwf
  refine ⟨?_, ?_, rfl⟩
  · rw [connectPath_eq_runCalls w path pa hp ho hd hm, hplan, runCalls_append, hdone]
    simp only [runCalls, hrun]
  · obtain ⟨d, F, _, hd'⟩ := runCalls_frame _ _ _ _ hdone
    rw [hd' rfl] at F
    simp only [World.log, F.2.2.2.2.2.1]

/-- Witness of C5 (amended): the blocked path, whose second call fails. -/
theorem connectPath_stops_at_failed_connect_witness :
    connectPath blockedWorld blockedPath
      = some (false, blockedHalf.log (WiringCall.connectOneToMany 2 3 5))
    ∧ (blockedHalf.log (WiringCall.connectOneToMany 2 3 5)).calls
      = blockedWorld.calls ++ [WiringCall.connectManyToOne 1 2 3 false]
          ++ [WiringCall.connectOneToMany 2 3 5]
    ∧ (blockedHalf.log (WiringCall.connectOneToMany 2 3 5)).filterObjs
      = blockedHalf.filterObjs :=
  connectPath_stops_at_failed_connect blockedWorld blockedHalf blockedPath
    { originFilterID := 1, destinationFilterID := 2, orgWriterID := 3, dstReaderID := 5,
      filters := [10], shared := false }
    [WiringCall.connectManyToOne 1 2 3 false] [] (WiringCall.connectOneToMany 2 3 5)
    (by decide) (by decide) (by decide) (by decide) (by decide) rfl (by decide)

/-- C3 (evaluated at the failing input): filter 10 is given to worker 7 and then
to worker 8, and lies on path 100; removePath(100) succeeds and erases filter 10
from the filters table, yet worker 7 still has ID 10 in its processor set, bound
to the filter object 5 that has been destroyed. -/
theorem removePath_leaves_stale_processor :
    staleRemoval.map (fun r => (r.1, r.2.filters.keys, workersHolding r.2 10))
      = some (true, [1000, 2000], [7])
    ∧ staleRemoval.map (fun r =>
        ((r.2.workerAt (r.2.workers.ptr 7)).map Worker.processors, (r.2.filterAt 5).isSome))
      = some (some [(10, 5)], false) := by
  decide

/-- C8 (evaluated at the failing input): from a freshly constructed manager with
filter 10 and workers 7 and 8 added, addFilterToWorker(7, 10) and then
addFilterToWorker(8, 10) both return true, and filter 10 is in the processor
sets of both workers. -/
theorem filter_assigned_to_two_workers :
    doubleAssigned.map (fun r => (r.1, r.2.1, workersHolding r.2.2 10))
      = some (true, true, [7, 8]) := by
  decide

/-- C4 (as stated, refuted): createPath accepts the path 1 -> [10, 1] -> 2, whose
intermediate list names the origin; after it is connected and registered as 100,
removePath(100) succeeds and the origin filter 1 is no longer a key of the filters
table, which keeps the destination 2 only.  And on `aliasWorld`, where the IDs 1
and 10 are bound to one filter object (object 1), removePath(100) on the path
1 -> [10] -> 2 succeeds and leaves the key 1 bound to object 1, which has been
destroyed. -/
theorem removePath_deletes_listed_endpoint :
    (createPath sampleWorld 1 2 (-1) (-1) [10, 1] false).map (fun r => decide (r.1 ≠ 0))
      = some true
    ∧ sampleWorld.filters.keys = [1, 2, 10]
    ∧ endpointRemoval.map (fun r => (r.1, r.2.filters.keys, r.2.paths.keys))
      = some (true, [2], [])
    ∧ aliasWorld.filters = [(1, 1), (2, 2), (10, 1)]
    ∧ aliasRemoval.map (fun r => (r.1, r.2.filters, (r.2.filterAt 1).isSome))
      = some (true, [(1, 1), (2, 2)], false) := by
  decide

/-- C4 (amended): for a registered path whose origin and destination IDs do not
occur in its intermediate list and whose origin and destination filter objects
are not registered under an ID of that list either, after removePath(id) returns
success the id is no longer a key of the paths table, and the origin and
destination IDs are still keys of the filters table, bound to the same filter
objects as before, which existed before the call and still exist after it. -/
theorem removePath_keeps_unlisted_endpoints (w w' : World) (id : Int) (path : Ptr)
    (pa : Path) (hreg : w.paths.find id = some path) (hpa : w.pathAt path = some pa)
    (hno : pa.originFilterID ∉ pa.filters) (hnd : pa.destinationFilterID ∉ pa.filters)
    (hoa : ∀ m ∈ pa.filters, w.filters.find m ≠ w.filters.find pa.originFilterID)
    (hda : ∀ m ∈ pa.filters, w.filters.find m ≠ w.filters.find pa.destinationFilterID)
    (hrem : removePath w id = some (true, w')) :
    id ∉ w'.paths.keys
    ∧ pa.originFilterID ∈ w'.filters.keys
    ∧ w'.filters.find pa.originFilterID = w.filters.find pa.originFilterID
    ∧ (w.filterAt (w.filters.ptr pa.originFilterID)).isSome = true
    ∧ (w'.filterAt (w'.filters.ptr pa.originFilterID)).isSome = true
    ∧ pa.destinationFilterID ∈ w'.filters.keys
    ∧ w'.filters.find pa.destinationFilterID = w.filters.find pa.destinationFilterID
    ∧ (w.filterAt (w.filters.ptr pa.destinationFilterID)).isSome = true
    ∧ (w'.filterAt (w'.filters.ptr pa.destinationFilterID)).isSome = true := by
  have hk : id ∈ w.paths.keys := Table.mem_keys_of_find _ _ _ hreg
  have hc : ¬ w.paths.count id ≤ 0 := fun e => (Table.count_le_zero_iff _ _).mp e hk
  have hg : getPath w id = path := by
    simp [getPath, hc, Table.index, hreg]
  unfold removePath at hrem
  simp only [hg] at hrem
  split at hrem
  · simp at hrem
  · cases hdel : deletePath w path with
    | none => simp [hdel] at hrem
    | some z =>
      obtain ⟨b, w1⟩ := z
      cases b with
      | false => simp [hdel] at hrem
      | true =>
        simp only [hdel, Option.some.injEq, Prod.mk.injEq, true_and] at hrem
        obtain ⟨d1, ho, hd, _, _⟩ := deletePath_true w w1 path pa hpa hdel
        obtain ⟨lo, ld, lv⟩ := deletePath_live w w1 path pa hpa hdel
        rw [← hrem]
        have e1 : w1.filters.find pa.originFilterID = w.filters.find pa.originFilterID := by
          rw [d1, if_neg hno]
        have e2 : w1.filters.find pa.destinationFilterID
            = w.filters.find pa.destinationFilterID := by
          rw [d1, if_neg hnd]
        have p1 : w1.filters.ptr pa.originFilterID = w.filters.ptr pa.originFilterID := by
          unfold Table.ptr
          rw [e1]
        have p2 : w1.filters.ptr pa.destinationFilterID
            = w.filters.ptr pa.destinationFilterID := by
          unfold Table.ptr
          rw [e2]
        have fo := Table.ptr_of_mem _ _ ho
        have fd := Table.ptr_of_mem _ _ hd
        refine ⟨?_, ?_, e1, lo, ?_, ?_, e2, ld, ?_⟩
        · rw [← Table.find_eq_none_iff, Table.find_erase]
          simp
        · exact Table.mem_keys_of_find _ _ _ (e1.trans fo)
        · show (w1.filterAt (w1.filters.ptr pa.originFilterID)).isSome = true
          rw [p1, lv _ (fun m hm => by rw [← fo]; exact hoa m hm)]
          exact lo
        · exact Table.mem_keys_of_find _ _ _ (e2.trans fd)
        · show (w1.filterAt (w1.filters.ptr pa.destinationFilterID)).isSome = true
          rw [p2, lv _ (fun m hm => by rw [← fd]; exact hda m hm)]
          exact ld

/-- Witness of C4 (amended): removing the registered sample path 1 -> [10] -> 2. -/
theorem removePath_keeps_unlisted_endpoints_witness :
    removePath sampleRegistered 100 = some (true, sampleRemoved)
    ∧ (100 ∉ sampleRemoved.paths.keys
      ∧ (1 : Int) ∈ sampleRemoved.filters.keys
      ∧ sampleRemoved.filters.find 1 = sampleRegistered.filters.find 1
      ∧ (sampleRegistered.filterAt (sampleRegistered.filters.ptr 1)).isSome = true
      ∧ (sampleRemoved.filterAt (sampleRemoved.filters.ptr 1)).isSome = true
      ∧ (2 : Int) ∈ sampleRemoved.filters.keys
      ∧ sampleRemoved.filters.find 2 = sampleRegistered.filters.find 2
      ∧ (sampleRegistered.filterAt (sampleRegistered.filters.ptr 2)).isSome = true
      ∧ (sampleRemoved.filterAt (sampleRemoved.filters.ptr 2)).isSome = true) :=
  ⟨rfl, removePath_keeps_unlisted_endpoints sampleRegistered sampleRemoved 100 samplePath
    { originFilterID := 1, destinationFilterID := 2, orgWriterID := 2, dstReaderID := 2,
      filters := [10], shared := false }
    (by decide) (by decide) (by decide) (by decide) (by decide) (by decide) rfl⟩

/-- C7: when the origin, destination and intermediate filter IDs are all keys of
the filters table (and an endpoint whose port ID must be generated is a live
filter object), createPath returns a new path object holding the given origin,
destination, intermediate list and shared flag; its origin writer ID is orgWriter
when orgWriter >= 0 and otherwise the value returned by generateWriterID() of the
origin filter, its destination reader ID is dstReader when dstReader >= 0 and
otherwise the value returned by generateReaderID() of the destination filter; the
only calls made on filters are those ID generations (no connect), and the three
tables are unchanged. -/
theorem createPath_builds_requested_path (w : World)
    (orgFilter dstFilter orgWriter dstReader : Int) (midFilters : List Int)
    (sharedQueue : Bool)
    (ho : orgFilter ∈ w.filters.keys) (hd : dstFilter ∈ w.filters.keys)
    (hm : ∀ m ∈ midFilters, m ∈ w.filters.keys)
    (hlo : orgWriter < 0 → (w.filterAt (w.filters.ptr orgFilter)).isSome = true)
    (hld : dstReader < 0 → (w.filterAt (w.filters.ptr dstFilter)).isSome = true) :
    ∃ (path : Ptr) (w' w1 w2 : World) (realOrgWriter realDstReader : Int),
      createPath w orgFilter dstFilter orgWriter dstReader midFilters sharedQueue
        = some (path, w')
      ∧ path ≠ 0
      ∧ w'.pathAt path = some
          { originFilterID := orgFilter, destinationFilterID := dstFilter,
            orgWriterID := realOrgWriter, dstReaderID := realDstReader,
            filters := midFilters, shared := sharedQueue }
      ∧ (if orgWriter < 0 then
           BaseFilter.generateWriterID w (w.filters.ptr orgFilter) = some (realOrgWriter, w1)
         else realOrgWriter = orgWriter ∧ w1 = w)
      ∧ (if dstReader < 0 then
           BaseFilter.generateReaderID w1 (w.filters.ptr dstFilter) = some (realDstReader, w2)
         else realDstReader = dstReader ∧ w2 = w1)
      ∧ (∃ gen, w'.calls = w.calls ++ gen
          ∧ ∀ c ∈ gen, c = WiringCall.generateWriterID (w.filters.ptr orgFilter)
              ∨ c = WiringCall.generateReaderID (w.filters.ptr dstFilter))
      ∧ w'.paths = w.paths ∧ w'.filters = w.filters ∧ w'.workers = w.workers := by
  obtain ⟨path, w', w1, w2, a, b, h1, h2, h3, h4, h5, h6, h7, h8, h9, _⟩ :=
    createPath_ok w orgFilter dstFilter orgWriter dstReader midFilters sharedQueue
      ho hd hm hlo hld
  exact ⟨path, w', w1, w2, a, b, h1, h2, h3, h4, h5, h6, h7, h8, h9⟩

/-- Witness of C7: `createPath(1, 2, -1, 4, [10], false)` on the sample state
generates the origin writer ID and keeps the given destination reader ID. -/
theorem createPath_builds_requested_path_witness :
    ∃ (path : Ptr) (w' w1 w2 : World) (realOrgWriter realDstReader : Int),
      createPath sampleWorld 1 2 (-1) 4 [10] false = some (path, w')
      ∧ path ≠ 0
      ∧ w'.pathAt path = some
          { originFilterID := 1, destinationFilterID := 2,
            orgWriterID := realOrgWriter, dstReaderID := realDstReader,
            filters := [10], shared := false }
      ∧ (if (-1 : Int) < 0 then
           BaseFilter.generateWriterID sampleWorld (sampleWorld.filters.ptr 1)
             = some (realOrgWriter, w1)
         else realOrgWriter = -1 ∧ w1 = sampleWorld)
      ∧ (if (4 : Int) < 0 then
           BaseFilter.generateReaderID w1 (sampleWorld.filters.ptr 2)
             = some (realDstReader, w2)
         else realDstReader = 4 ∧ w2 = w1)
      ∧ (∃ gen, w'.calls = sampleWorld.calls ++ gen
          ∧ ∀ c ∈ gen, c = WiringCall.generateWriterID (sampleWorld.filters.ptr 1)
              ∨ c = WiringCall.generateReaderID (sampleWorld.filters.ptr 2))
      ∧ w'.paths = sampleWorld.paths ∧ w'.filters = sampleWorld.filters
      ∧ w'.workers = sampleWorld.workers :=
  createPath_builds_requested_path sampleWorld 1 2 (-1) 4 [10] false
    (by decide) (by decide) (by decide) (fun _ => by decide) (fun h => absurd h (by decide))

/-- C9 (evaluated at the failing input): an addWorker event of type
"constantFramerateSlave" never registers a worker: in every state and for every
id and fps it answers "Error creating worker. Check type..." and leaves the state
as it was; on the sample state the type "constantFramerateMaster" with the same
fresh id 9 answers null and registers a constant-framerate master. -/
theorem addWorkerEvent_rejects_constantFramerateSlave (w : World) (id fps : Int) :
    addWorkerEvent w (some [("id", JValue.int id),
        ("type", JValue.str "constantFramerateSlave"), ("fps", JValue.int fps)])
      = some (some "Error creating worker. Check type...", w)
    ∧ (addWorkerEvent sampleWorld (workerParams 9 "constantFramerateMaster")).map
        (fun r => (r.1, (r.2.workerAt (r.2.workers.ptr 9)).map Worker.kind))
      = some (none, some WorkerKind.constantFramerateMaster) := by
  refine ⟨?_, by decide⟩
  have h1 : ¬ ("constantFramerateSlave" = "bestEffortMaster") := by decide
  have h2 : ¬ ("constantFramerateSlave" = "bestEffortSlave") := by decide
  have h3 : ¬ ("constantFramerateSlave" = "constantFramerateMaster") := by decide
  have hh : (!Has [("id", JValue.int id), ("type", JValue.str "constantFramerateSlave"),
      ("fps", JValue.int fps)] "id"
      || !Has [("id", JValue.int id), ("type", JValue.str "constantFramerateSlave"),
      ("fps", JValue.int fps)] "type"
      || !Has [("id", JValue.int id), ("type", JValue.str "constantFramerateSlave"),
      ("fps", JValue.int fps)] "fps") = false := by
    rfl
  have hg : (Get [("id", JValue.int id), ("type", JValue.str "constantFramerateSlave"),
      ("fps", JValue.int fps)] "type").ToString = "constantFramerateSlave" := by
    rfl
  simp only [addWorkerEvent, hh, hg, h1, h2, h3, if_false, Bool.false_eq_true]
  rfl

/-- C10 (as stated, refuted): path 100 is registered in the sample state; a
createPath event with id 100 for a direct path 1 -> 2 answers "Error registering
path. Path ID already exists...", and yet a writer and a reader ID have been
generated and a queue wired: the writers of filter 1 (object 1) go from one
binding to two. -/
theorem createPathEvent_duplicate_id_wires :
    (100 : Int) ∈ sampleRegistered.paths.keys
    ∧ (sampleRegistered.filterAt 1).map BaseFilter.writers = some [(2, 7)]
    ∧ (createPathEvent sampleRegistered duplicatePathParams).map (fun r =>
        (r.1, r.2.calls.drop sampleRegistered.calls.length,
          (r.2.filterAt 1).map BaseFilter.writers))
      = some (some "Error registering path. Path ID already exists...",
          [WiringCall.generateWriterID 1, WiringCall.generateReaderID 3,
            WiringCall.connectManyToMany 1 3 3 3 false],
          some [(2, 7), (3, 10)]) := by
  decide

/-- C10 (amended): for every createPath event that carries all its parameters,
whose id is already a registered path ID and whose filter IDs are registered
filters, the response error is non-null (the connection error or "Error
registering path. Path ID already exists...") and the filters, paths and workers
tables are unchanged. -/
theorem createPathEvent_duplicate_id_keeps_tables (w : World)
    (ps : List (String × JValue)) (mid : List Int)
    (hhas : Has ps "id" = true ∧ Has ps "orgFilterId" = true ∧ Has ps "dstFilterId" = true
      ∧ Has ps "orgWriterId" = true ∧ Has ps "dstReaderId" = true
      ∧ Has ps "sharedQueue" = true ∧ Has ps "midFiltersIds" = true)
    (harr : Get ps "midFiltersIds" = JValue.array mid)
    (hid : (Get ps "id").ToInt ∈ w.paths.keys)
    (hlive : ∀ f ∈ (Get ps "orgFilterId").ToInt :: (Get ps "dstFilterId").ToInt :: mid,
      f ∈ w.filters.keys ∧ (w.filterAt (w.filters.ptr f)).isSome = true) :
    ∃ err w', createPathEvent w (some ps) = some (some err, w')
      ∧ (err = "Error connecting path. Better pray Jesus..."
        ∨ err = "Error registering path. Path ID already exists...")
      ∧ w'.filters = w.filters ∧ w'.paths = w.paths ∧ w'.workers = w.workers := by
  obtain ⟨a1, a2, a3, a4, a5, a6, a7⟩ := hhas
  have ho := hlive (Get ps "orgFilterId").ToInt (by simp)
  have hd := hlive (Get ps "dstFilterId").ToInt (by simp)
  have hm : ∀ m ∈ mid, m ∈ w.filters.keys := fun m hmem =>
    (hlive m (List.mem_cons_of_mem _ (List.mem_cons_of_mem _ hmem))).1
  obtain ⟨path, w1, _, _, ow, dr, c1, c2, c3, _, _, _, c7, c8, c9, c10⟩ :=
    createPath_ok w (Get ps "orgFilterId").ToInt (Get ps "dstFilterId").ToInt
      (Get ps "orgWriterId").ToInt (Get ps "dstReaderId").ToInt mid
      (Get ps "sharedQueue").ToBool ho.1 hd.1 hm (fun _ => ho.2) (fun _ => hd.2)
  have hplan := connectPath_eq_runCalls w1 path _ c3
    (by rw [c8]; exact ho.1) (by rw [c8]; exact hd.1) (by intro m hmem; rw [c8]; exact hm m hmem)
  obtain ⟨⟨b, w2⟩, hrun⟩ := runCalls_total (connectPlan w1.filters
      { originFilterID := (Get ps "orgFilterId").ToInt,
        destinationFilterID := (Get ps "dstFilterId").ToInt,
        orgWriterID := ow, dstReaderID := dr, filters := mid,
        shared := (Get ps "sharedQueue").ToBool }) w1
    (fun c hc p hp => by
      obtain ⟨f, hf, he⟩ := connectPlan_ends _ _ c hc p hp
      rw [he, c8, c10]
      exact (hlive f hf).2)
  obtain ⟨done, F, _, _⟩ := runCalls_frame _ _ _ _ hrun
  rw [hrun] at hplan
  simp only [createPathEvent, a1, a2, a3, a4, a5, a6, a7, harr, JValue.IsArray,
    JValue.AsArray, Bool.not_true, Bool.or_self, Bool.false_eq_true, if_false, c1, c2, hplan]
  cases b with
  | false =>
    exact ⟨_, _, rfl, Or.inl rfl, F.1.trans c8, F.2.1.trans c7, F.2.2.1.trans c9⟩
  | true =>
    have hcount : w2.paths.count (Get ps "id").ToInt > 0 := by
      rw [F.2.1, c7]
      exact (Table.count_pos_iff_mem _ _).mpr hid
    simp only [addPath, hcount, if_true]
    exact ⟨_, _, rfl, Or.inr rfl, F.1.trans c8, F.2.1.trans c7, F.2.2.1.trans c9⟩

/-- Witness of C10 (amended): the event of `duplicatePathParams` on the sample
state in which path 100 is registered. -/
theorem createPathEvent_duplicate_id_keeps_tables_witness :
    ∃ err w', createPathEvent sampleRegistered duplicatePathParams = some (some err, w')
      ∧ (err = "Error connecting path. Better pray Jesus..."
        ∨ err = "Error registering path. Path ID already exists...")
      ∧ w'.filters = sampleRegistered.filters ∧ w'.paths = sampleRegistered.paths
      ∧ w'.workers = sampleRegistered.workers :=
  createPathEvent_duplicate_id_keeps_tables sampleRegistered
    [("id", JValue.int 100), ("orgFilterId", JValue.int 1), ("dstFilterId", JValue.int 2),
      ("orgWriterId", JValue.int (-1)), ("dstReaderId", JValue.int (-1)),
      ("midFiltersIds", JValue.array []), ("sharedQueue", JValue.bool false)] []
    (by decide) (by decide) (by decide) (by decide)

theorem createFilter_of_string (w : World) (s : String) (t : FilterType)
    (h : getFilterTypeFromString s = some t) : createFilter w t = newFilter w t := by
  unfold getFilterTypeFromString at h
  repeat' split at h
  all_goals first
    | (simp only [Option.some.injEq] at h; subst h; rfl)
    | simp at h

/-- C11: for every createFilter event whose type string names a filter type and
whose id is already a key of the filters table, the response error is exactly
"Error registering filter. Specified ID already exists.." and the filters table
is unchanged, so the existing filter stays bound to id (the paths and workers
tables are unchanged too). -/
theorem createFilterEvent_duplicate_id (w : World) (ps : List (String × JValue))
    (hid : Has ps "id" = true) (htype : Has ps "type" = true)
    (hvalid : (getFilterTypeFromString (Get ps "type").ToString).isSome = true)
    (hdup : (Get ps "id").ToInt ∈ w.filters.keys) :
    (createFilterEvent w (some ps)).1
        = some "Error registering filter. Specified ID already exists.."
    ∧ (createFilterEvent w (some ps)).2.filters = w.filters
    ∧ (createFilterEvent w (some ps)).2.filters.find (Get ps "id").ToInt
        = w.filters.find (Get ps "id").ToInt
    ∧ (createFilterEvent w (some ps)).2.paths = w.paths
    ∧ (createFilterEvent w (some ps)).2.workers = w.workers := by
  cases ht : getFilterTypeFromString (Get ps "type").ToString with
  | none => simp [ht] at hvalid
  | some t =>
    have hc := createFilter_of_string w _ t ht
    have hcount : w.filters.count (Get ps "id").ToInt > 0 :=
      (Table.count_pos_iff_mem _ _).mpr hdup
    simp only [createFilterEvent, hid, htype, ht, hc, newFilter, Bool.not_true, Bool.or_self,
      Bool.false_eq_true, if_false, Nat.succ_ne_zero, addFilter, World.setFilter, hcount,
      if_true, and_self]

/-- Witness of C11: scenario 2 of section 8 on the sample state, where filter 10
is registered. -/
theorem createFilterEvent_duplicate_id_witness :
    (createFilterEvent sampleWorld
        (some [("id", JValue.int 10), ("type", JValue.str "audioEncoder")])).1
      = some "Error registering filter. Specified ID already exists.."
    ∧ (createFilterEvent sampleWorld
        (some [("id", JValue.int 10), ("type", JValue.str "audioEncoder")])).2.filters
      = sampleWorld.filters :=
  ⟨(createFilterEvent_duplicate_id sampleWorld
      [("id", JValue.int 10), ("type", JValue.str "audioEncoder")]
      (by decide) (by decide) (by decide) (by decide)).1,
   (createFilterEvent_duplicate_id sampleWorld
      [("id", JValue.int 10), ("type", JValue.str "audioEncoder")]
      (by decide) (by decide) (by decide) (by decide)).2.1⟩

/-- C12 (evaluated at the failing inputs): on the sample state, where 7 and 8
are master workers and 99 is no worker ID, the event for master 7 with slaves
[99] makes the loop insert the key 99 (bound to the null pointer) in the workers
table and in the slave map of the master, after which startWorkers dereferences
that null pointer: no response is produced; with slaves [8], a worker that is
no slave, the response error is null and the null pointer is stored under 8 in
the slave map of the master. -/
theorem addSlavesToWorkerEvent_takes_any_slave_id :
    sampleWorld.workers.keys = [7, 8]
    ∧ (addSlavesLoop sampleWorld 4 [99]).map (fun r =>
        (r.workers, (r.workerAt 4).map Worker.slaves))
      = some ([(7, 4), (8, 5), (99, 0)], some [(99, 0)])
    ∧ (addSlavesToWorkerEvent sampleWorld (slavesParams 7 [99])).isSome = false
    ∧ (addSlavesToWorkerEvent sampleWorld (slavesParams 7 [8])).map (fun r =>
        (r.1, (r.2.workerAt 4).map Worker.slaves))
      = some (none, some [(8, 0)]) := by
  decide

/-- C13 (as stated, refuted): on the sample state the event for worker 7 with
filters [10, 3], where 3 is no filter ID, responds with a non-null error, and
filter 10 (object 2), unassigned before, records worker 7 and is in the
processor set of worker 7 (object 4). -/
theorem addFiltersToWorkerEvent_error_after_assignment :
    ((sampleWorld.filterAt 2).map BaseFilter.workerId,
        (sampleWorld.workerAt 4).map Worker.processors) = (some (-1), some [])
    ∧ (addFiltersToWorkerEvent sampleWorld (filtersParams 7 [10, 3])).map (fun r =>
        (r.1, (r.2.filterAt 2).map BaseFilter.workerId,
          (r.2.workerAt 4).map Worker.processors))
      = some (some "Error adding filters to worker. Invalid internal error...",
          some 7, some [(10, 2)]) := by
  decide

/-- C13 (amended): when an addFiltersToWorker event that carries its parameters
responds with a non-null error, the filters of the array before the first
rejected one have been assigned to the worker one after the other and are still
assigned on return; the state returned is the one left by the rejected call
itself, nothing is undone, no worker is started, and the filters, paths and
workers tables are unchanged. -/
theorem addFiltersToWorkerEvent_error_keeps_earlier (w w' : World)
    (ps : List (String × JValue)) (ids : List Int) (err : String)
    (hworker : Has ps "worker" = true) (hfilters : Has ps "filters" = true)
    (harr : Get ps "filters" = JValue.array ids)
    (hres : addFiltersToWorkerEvent w (some ps) = some (some err, w')) :
    ∃ done failing rest wk, ids = done ++ failing :: rest
      ∧ addFiltersLoop w (Get ps "worker").ToInt done = some (true, wk)
      ∧ addFilterToWorker wk (Get ps "worker").ToInt failing = some (false, w')
      ∧ (∀ d ∈ done, assignedTo w' (Get ps "worker").ToInt d)
      ∧ w'.workerCalls = w.workerCalls
      ∧ w'.filters = w.filters ∧ w'.paths = w.paths ∧ w'.workers = w.workers := by
  simp only [addFiltersToWorkerEvent, hworker, hfilters, harr, JValue.IsArray,
    JValue.AsArray, Bool.not_true, Bool.or_self, Bool.false_eq_true, if_false] at hres
  cases hl : addFiltersLoop w (Get ps "worker").ToInt ids with
  | none => simp [hl] at hres
  | some x =>
    obtain ⟨b, w1⟩ := x
    cases b with
    | true =>
      simp only [hl] at hres
      cases hs : startWorkers w1 with
      | none => simp [hs] at hres
      | some w2 => simp [hs] at hres
    | false =>
      simp only [hl, Option.some.injEq, Prod.mk.injEq] at hres
      obtain ⟨_, hw⟩ := hres
      subst hw
      obtain ⟨c1, c2, c3, c4, _, done, rest, wk, e, hdone, hd, _, hf⟩ :=
        addFiltersLoop_effect _ ids w false w1 hl
      obtain ⟨failing, tl, hrest, hfail⟩ := hf rfl
      exact ⟨done, failing, tl, wk, by rw [e, hrest], hdone, hfail, hd, c4, c1, c2, c3⟩

/-- Witness of C13 (amended): the event for worker 7 with filters [10, 3] on the
sample state; `w10` is the state after filter 10 has been assigned. -/
theorem addFiltersToWorkerEvent_error_keeps_earlier_witness :
    ∃ done failing rest wk, [10, 3] = done ++ failing :: rest
      ∧ addFiltersLoop sampleWorld 7 done = some (true, wk)
      ∧ addFilterToWorker wk 7 failing = some (false, sampleAssigned)
      ∧ (∀ d ∈ done, assignedTo sampleAssigned 7 d)
      ∧ sampleAssigned.workerCalls = sampleWorld.workerCalls
      ∧ sampleAssigned.filters = sampleWorld.filters
      ∧ sampleAssigned.paths = sampleWorld.paths
      ∧ sampleAssigned.workers = sampleWorld.workers :=
  addFiltersToWorkerEvent_error_keeps_earlier sampleWorld sampleAssigned
    [("worker", JValue.int 7), ("filters", JValue.array [10, 3])] [10, 3]
    "Error adding filters to worker. Invalid internal error..."
    (by decide) (by decide) (by decide) rfl

/-- C16 (as stated, refuted): when both `rand()` calls give 5 the filters table
has one entry only, 5 bound to the source manager; the sink manager (object 2) is
not registered and the two reserved IDs are equal. -/
theorem construct_equal_ids_one_filter :
    (construct 5 5).map (fun w =>
        (w.filters, (w.filterAt 1).map BaseFilter.fType, w.receiverID, w.transmitterID))
      = some ([(5, 1)], some FilterType.RECEIVER, 5, 5) := by
  decide

/-- C16 (amended): immediately after construction, for every pair of distinct
values chosen for receiverID and transmitterID, the filters table contains
exactly two entries, receiverID bound to the source manager and transmitterID
bound to the sink manager, and the paths table is empty. -/
theorem construct_distinct_ids_two_filters (r1 r2 : Int) (h : r1 ≠ r2) :
    ∃ w src snk, construct r1 r2 = some w
      ∧ (∀ k, w.filters.find k
          = if k = r1 then some src else if k = r2 then some snk else none)
      ∧ w.filters.length = 2
      ∧ (w.filterAt src).map BaseFilter.fType = some FilterType.RECEIVER
      ∧ (w.filterAt snk).map BaseFilter.fType = some FilterType.TRANSMITTER
      ∧ w.paths = [] ∧ w.receiverID = r1 ∧ w.transmitterID = r2 := by
  have h' : ¬ r2 = r1 := fun e => h e.symm
  refine ⟨(construct r1 r2).getD World.blank, 1, 2, ?_⟩
  simp [construct, newFilter, newWorker, addFilter, Worker.addProcessor, World.blank,
    World.setFilter, World.setWorker, World.workerAt, World.filterAt, Table.count, Table.find,
    Table.insert, Worker.fresh, h, h', BaseFilter.fresh]
  refine ⟨fun k => ?_, ?_⟩
  · by_cases hlt : r2 < r1
    · simp only [hlt, if_true, Table.find]
      by_cases hk1 : k = r1
      · subst hk1
        simp [h']
      · by_cases hk2 : k = r2
        · subst hk2
          simp [hk1]
        · have a : ¬ r1 = k := fun e => hk1 e.symm
          have b : ¬ r2 = k := fun e => hk2 e.symm
          simp [hk1, hk2, a, b]
    · simp only [hlt, if_false, Table.find]
      by_cases hk1 : k = r1
      · subst hk1
        simp
      · by_cases hk2 : k = r2
        · subst hk2
          simp [hk1, h]
        · have a : ¬ r1 = k := fun e => hk1 e.symm
          have b : ¬ r2 = k := fun e => hk2 e.symm
          simp [hk1, hk2, a, b]
  · by_cases hlt : r2 < r1 <;> simp [hlt]

/-- Witness of C16 (amended): the constructor with the IDs 1000 and 2000. -/
theorem construct_distinct_ids_two_filters_witness :
    ∃ w src snk, construct 1000 2000 = some w
      ∧ (∀ k, w.filters.find k
          = if k = 1000 then some src else if k = 2000 then some snk else none)
      ∧ w.filters.length = 2
      ∧ (w.filterAt src).map BaseFilter.fType = some FilterType.RECEIVER
      ∧ (w.filterAt snk).map BaseFilter.fType = some FilterType.TRANSMITTER
      ∧ w.paths = [] ∧ w.receiverID = 1000 ∧ w.transmitterID = 2000 :=
  construct_distinct_ids_two_filters 1000 2000 (by decide)

/-- C17 (evaluated at the failing input): for every pair of IDs the constructor
leaves the workers table empty, so a following startWorkers starts no worker;
with the IDs 1000 and 2000 the two endpoint workers exist as objects 3 and 4,
holding the receiver and the transmitter in their processor sets, and they are
still not running after startWorkers. -/
theorem construct_registers_no_worker (r1 r2 : Int) :
    (construct r1 r2).map World.workers = some []
    ∧ ((construct r1 r2).bind startWorkers).map World.workerCalls = some []
    ∧ ((construct 1000 2000).bind startWorkers).map (fun w =>
        ((w.workerAt 3).map Worker.processors, (w.workerAt 3).map Worker.running))
      = some (some [(1000, 1)], some false)
    ∧ ((construct 1000 2000).bind startWorkers).map (fun w =>
        ((w.workerAt 4).map Worker.processors, (w.workerAt 4).map Worker.running))
      = some (some [(2000, 2)], some false) := by
  refine ⟨?_, ?_, by decide, by decide⟩
  · by_cases h : r1 = r2
    · simp [construct, newFilter, newWorker, addFilter, Worker.addProcessor, World.blank,
        World.setFilter, World.setWorker, World.workerAt, Table.count, Table.find,
        Table.insert, Worker.fresh, h]
    · simp [construct, newFilter, newWorker, addFilter, Worker.addProcessor, World.blank,
        World.setFilter, World.setWorker, World.workerAt, Table.count, Table.find,
        Table.insert, Worker.fresh, h]
  · by_cases h : r1 = r2
    · simp [construct, newFilter, newWorker, addFilter, Worker.addProcessor, World.blank,
        World.setFilter, World.setWorker, World.workerAt, Table.count, Table.find,
        Table.insert, Worker.fresh, startWorkers, startWorkersLoop, h]
    · simp [construct, newFilter, newWorker, addFilter, Worker.addProcessor, World.blank,
        World.setFilter, World.setWorker, World.workerAt, Table.count, Table.find,
        Table.insert, Worker.fresh, startWorkers, startWorkersLoop, h]

/-- C19: when every entry of the workers table is a live worker, startWorkers
returns after calling start() exactly once on each registered worker that was
not running and on no other worker, and leaves every registered worker running;
stopWorkers returns after calling stop() exactly once on each registered worker
that was running and on no other worker, and leaves every registered worker
stopped; startWorkers with every worker running and stopWorkers with every
worker stopped change nothing, the call trace included. -/
theorem startWorkers_stopWorkers_toggle (w : World)
    (hl : ∀ e ∈ w.workers, (w.workerAt e.2).isSome = true) :
    (∃ (w' : World) (started : List Ptr), startWorkers w = some w'
        ∧ w'.workerCalls = w.workerCalls ++ started.map WorkerCall.start
        ∧ started.Nodup
        ∧ (∀ p, p ∈ started ↔ (p ∈ w.workers.map Prod.snd ∧ w.runningAt p = false))
        ∧ (∀ e ∈ w.workers, w'.runningAt e.2 = true)
        ∧ w'.filters = w.filters ∧ w'.paths = w.paths ∧ w'.workers = w.workers)
    ∧ (∃ (w' : World) (stopped : List Ptr), stopWorkers w = some w'
        ∧ w'.workerCalls = w.workerCalls ++ stopped.map WorkerCall.stop
        ∧ stopped.Nodup
        ∧ (∀ p, p ∈ stopped ↔ (p ∈ w.workers.map Prod.snd ∧ w.runningAt p = true))
        ∧ (∀ e ∈ w.workers, w'.runningAt e.2 = false)
        ∧ w'.filters = w.filters ∧ w'.paths = w.paths ∧ w'.workers = w.workers)
    ∧ ((∀ e ∈ w.workers, w.runningAt e.2 = true) → startWorkers w = some w)
    ∧ ((∀ e ∈ w.workers, w.runningAt e.2 = false) → stopWorkers w = some w) := by
  refine ⟨?_, ?_, ?_, ?_⟩
  · obtain ⟨w', started, e, c, nd, mem, t1, t2, t3, _, _, rn⟩ :=
      startWorkersLoop_spec w.workers w hl
    refine ⟨w', started, e, c, nd, mem, ?_, t1, t2, t3⟩
    intro e he
    rw [rn e.2]
    cases hr : w.runningAt e.2 with
    | true => simp
    | false =>
      have : e.2 ∈ started := (mem e.2).mpr ⟨List.mem_map_of_mem Prod.snd he, hr⟩
      simp [this]
  · obtain ⟨w', stopped, e, c, nd, mem, t1, t2, t3, _, _, rn⟩ :=
      stopWorkersLoop_spec w.workers w hl
    refine ⟨w', stopped, e, c, nd, mem, ?_, t1, t2, t3⟩
    intro e he
    rw [rn e.2]
    cases hr : w.runningAt e.2 with
    | false => simp
    | true =>
      have : e.2 ∈ stopped := (mem e.2).mpr ⟨List.mem_map_of_mem Prod.snd he, hr⟩
      simp [this]
  · intro h
    exact startWorkersLoop_running w.workers w h
  · intro h
    exact stopWorkersLoop_stopped w.workers w (fun e he => ⟨hl e he, h e he⟩)

/-- Witness of C19: the sample state with worker 7 running and worker 8 stopped,
and the no-op cases on the sample state with all workers running, and with all
workers stopped. -/
theorem startWorkers_stopWorkers_toggle_witness :
    (∃ (w' : World) (started : List Ptr), startWorkers sampleHalfRunning = some w'
        ∧ w'.workerCalls = sampleHalfRunning.workerCalls ++ started.map WorkerCall.start
        ∧ started.Nodup
        ∧ (∀ p, p ∈ started
            ↔ (p ∈ sampleHalfRunning.workers.map Prod.snd
                ∧ sampleHalfRunning.runningAt p = false))
        ∧ (∀ e ∈ sampleHalfRunning.workers, w'.runningAt e.2 = true)
        ∧ w'.filters = sampleHalfRunning.filters ∧ w'.paths = sampleHalfRunning.paths
        ∧ w'.workers = sampleHalfRunning.workers)
    ∧ startWorkers sampleAllRunning = some sampleAllRunning
    ∧ stopWorkers sampleWorld = some sampleWorld :=
  ⟨(startWorkers_stopWorkers_toggle sampleHalfRunning (by decide)).1,
   (startWorkers_stopWorkers_toggle sampleAllRunning (by decide)).2.2.1 (by decide),
   (startWorkers_stopWorkers_toggle sampleWorld (by decide)).2.2.2 (by decide)⟩

/-- C18: in every state whose filters and paths tables point to live objects,
getStateEvent returns with the state unchanged, and the output has a "filters"
array with one entry per entry of the filters table, in order, carrying that id;
a "paths" array with one entry per registered path, in order, whose id,
originFilter, destinationFilter, originWriter and destinationReader are that
path's attributes and whose "filters" array is the path's intermediate list in
the same order; and a "workers" array with one entry per entry of the workers
table, in order, carrying that id. -/
theorem getStateEvent_reports_topology (w : World)
    (hf : ∀ e ∈ w.filters, (w.filterAt e.2).isSome = true)
    (hp : ∀ e ∈ w.paths, (w.pathAt e.2).isSome = true) :
    ∃ out, getStateEvent w [] = some (out, w)
      ∧ ((JNode.object out).get "filters").items.length = w.filters.length
      ∧ (∀ (i : Nat) (e : Int × Ptr), w.filters[i]? = some e →
          ∃ n, ((JNode.object out).get "filters").items[i]? = some n
            ∧ n.get "id" = JNode.int e.1)
      ∧ ((JNode.object out).get "paths").items.length = w.paths.length
      ∧ (∀ (i : Nat) (e : Int × Ptr), w.paths[i]? = some e →
          ∃ pa n, w.pathAt e.2 = some pa
            ∧ ((JNode.object out).get "paths").items[i]? = some n
            ∧ n.get "id" = JNode.int e.1
            ∧ n.get "originFilter" = JNode.int pa.originFilterID
            ∧ n.get "destinationFilter" = JNode.int pa.destinationFilterID
            ∧ n.get "originWriter" = JNode.int pa.orgWriterID
            ∧ n.get "destinationReader" = JNode.int pa.dstReaderID
            ∧ n.get "filters" = JNode.array (pa.filters.map JNode.int))
      ∧ ((JNode.object out).get "workers").items.length = w.workers.length
      ∧ (∀ (i : Nat) (e : Int × Ptr), w.workers[i]? = some e →
          ∃ n, ((JNode.object out).get "workers").items[i]? = some n
            ∧ n.get "id" = JNode.int e.1) := by
  obtain ⟨fl, ef, lf, pf⟩ := filterListLoop_spec w.filters w hf
  obtain ⟨pl, ep, lp, pp⟩ := pathListLoop_spec w w.paths hp
  obtain ⟨lw, pw⟩ := workersListLoop_spec w.workers
  refine ⟨[("filters", JNode.array fl), ("paths", JNode.array pl),
      ("workers", JNode.array (workersListLoop w.workers))],
    by simp only [getStateEvent, ef, ep, List.nil_append], lf, pf, lp, ?_, lw, ?_⟩
  · intro i e hi
    obtain ⟨pa, hpa, hn⟩ := pp i e hi
    exact ⟨pa, pathNode e.1 pa, hpa, hn, rfl, rfl, rfl, rfl, rfl, rfl⟩
  · intro i e hi
    exact ⟨_, pw i e hi, rfl⟩

/-- Witness of C18: the sample state with three filters, path 100 and two
workers. -/
theorem getStateEvent_reports_topology_witness :
    ∃ out, getStateEvent sampleRegistered [] = some (out, sampleRegistered)
      ∧ ((JNode.object out).get "filters").items.length = sampleRegistered.filters.length
      ∧ (∀ (i : Nat) (e : Int × Ptr), sampleRegistered.filters[i]? = some e →
          ∃ n, ((JNode.object out).get "filters").items[i]? = some n
            ∧ n.get "id" = JNode.int e.1)
      ∧ ((JNode.object out).get "paths").items.length = sampleRegistered.paths.length
      ∧ (∀ (i : Nat) (e : Int × Ptr), sampleRegistered.paths[i]? = some e →
          ∃ pa n, sampleRegistered.pathAt e.2 = some pa
            ∧ ((JNode.object out).get "paths").items[i]? = some n
            ∧ n.get "id" = JNode.int e.1
            ∧ n.get "originFilter" = JNode.int pa.originFilterID
            ∧ n.get "destinationFilter" = JNode.int pa.destinationFilterID
            ∧ n.get "originWriter" = JNode.int pa.orgWriterID
            ∧ n.get "destinationReader" = JNode.int pa.dstReaderID
            ∧ n.get "filters" = JNode.array (pa.filters.map JNode.int))
      ∧ ((JNode.object out).get "workers").items.length = sampleRegistered.workers.length
      ∧ (∀ (i : Nat) (e : Int × Ptr), sampleRegistered.workers[i]? = some e →
          ∃ n, ((JNode.object out).get "workers").items[i]? = some n
            ∧ n.get "id" = JNode.int e.1) :=
  getStateEvent_reports_topology sampleRegistered (by decide) (by decide)

/-- C20 (as stated, refuted): on `sampleNarrow`, a well-formed queue holding the
two unread frames [1, 2] and [3, 4, 5] with two bytes at `fTo`, the first call
delivers [1, 2] and leaves [3, 4, 5] at the front; the second call, on a
non-empty queue, delivers nothing: the copy of three bytes runs past the
destination and the call has no defined result, and so have the two successive
calls. -/
theorem Network.doGetNextFrame_overruns_destination :
    Network.sampleNarrow.queue.wf
    ∧ Network.sampleNarrow.queue.unread = [{ buffer := [1, 2] }, { buffer := [3, 4, 5] }]
    ∧ (Network.doGetNextFrame Network.sampleNarrow 7).map
        (fun s => (s.delivered.map Network.Delivery.data, s.queue.getFront))
        = some ([[1, 2]], some { buffer := [3, 4, 5] })
    ∧ (Network.doGetNextFrame Network.sampleNarrow 7).bind
        (fun s => Network.doGetNextFrame s 8) = none
    ∧ Network.getFrames Network.sampleNarrow [7, 8] = none := by
  decide

/-- C20 (amended): on a well-formed queue, doGetNextFrame with an empty queue
delivers nothing, removes nothing and only schedules itself again; with a front
frame no longer than the region at `fTo` it delivers a copy of that frame's
buffer, reports its buffer length as frame size and zero truncated bytes, and
removes exactly that frame, the oldest unread one; k successive calls on a queue
holding k unread frames, none longer than the region at `fTo`, deliver exactly
these frames, oldest first, and leave the queue empty; and the unread frames are
in production order, a produced frame going last. -/
theorem Network.doGetNextFrame_delivers_in_order (s : Network.QueueSource)
    (hwf : s.queue.wf) :
    (s.queue.getFront = none →
        s.queue.unread = []
        ∧ ∀ now, Network.doGetNextFrame s now
            = some { s with frame := none, pending := s.pending + 1 })
    ∧ (∀ f now, s.queue.getFront = some f → f.buffer.length ≤ s.fTo.length →
        ∃ s', Network.doGetNextFrame s now = some s'
          ∧ s.queue.unread = f :: s'.queue.unread
          ∧ s'.delivered = s.delivered ++
              [{ data := f.buffer, frameSize := f.buffer.length, numTruncatedBytes := 0,
                 presentationTime := now }]
          ∧ s'.fTo.take f.buffer.length = f.buffer
          ∧ s'.fFrameSize = f.buffer.length ∧ s'.fNumTruncatedBytes = 0
          ∧ s'.pending = s.pending)
    ∧ (∀ times : List Nat, times.length = s.queue.unread.length →
        (∀ f ∈ s.queue.unread, f.buffer.length ≤ s.fTo.length) →
        ∃ s', Network.getFrames s times = some s'
          ∧ s'.delivered.map Network.Delivery.data
              = s.delivered.map Network.Delivery.data
                  ++ s.queue.unread.map Network.Frame.buffer
          ∧ s'.queue.unread = [] ∧ s'.pending = s.pending)
    ∧ (∀ f, s.queue.full = false → (s.queue.produce f).unread = s.queue.unread ++ [f]) := by
  refine ⟨?_, ?_, ?_, ?_⟩
  · intro hnone
    have he : s.queue.head = s.queue.tail := by
      by_contra hne
      obtain ⟨f, hf, _, _⟩ := Network.FrameQueue.unread_cons s.queue hwf hne
      rw [hnone] at hf
      exact absurd hf (by simp)
    refine ⟨(Network.FrameQueue.unread_empty s.queue hwf he).2, ?_⟩
    intro now
    simp only [Network.doGetNextFrame, hnone]
  · intro f now hf hfit
    have hne : s.queue.head ≠ s.queue.tail := by
      intro he
      rw [(Network.FrameQueue.unread_empty s.queue hwf he).1] at hf
      exact absurd hf (by simp)
    obtain ⟨g, hg, _, hun⟩ := Network.FrameQueue.unread_cons s.queue hwf hne
    have hfg : g = f := by
      rw [hg] at hf
      exact Option.some.inj hf
    subst hfg
    obtain ⟨s', e, q, d, t, _, fs, nt, pd⟩ := Network.doGetNextFrame_front s now g hf hfit
    exact ⟨s', e, by rw [q]; exact hun, d, t, fs, nt, pd⟩
  · intro times hlen hfit
    exact Network.getFrames_all times s hwf hlen hfit
  · intro f hnf
    exact (Network.FrameQueue.unread_produce s.queue f hwf hnf).2

/-- Witness of C20 (amended): the empty case on the drained sample source, and one call,
two calls and one produced frame on the sample source holding two frames. -/
theorem Network.doGetNextFrame_delivers_in_order_witness :
    (Network.sampleDrained.queue.unread = []
      ∧ ∀ now, Network.doGetNextFrame Network.sampleDrained now
          = some { Network.sampleDrained with
              frame := none, pending := Network.sampleDrained.pending + 1 })
    ∧ (∃ s', Network.doGetNextFrame Network.sampleSource 7 = some s'
        ∧ Network.sampleSource.queue.unread = { buffer := [1, 2] } :: s'.queue.unread
        ∧ s'.delivered = Network.sampleSource.delivered ++
            [{ data := [1, 2], frameSize := 2, numTruncatedBytes := 0,
               presentationTime := 7 }]
        ∧ s'.fTo.take 2 = [1, 2]
        ∧ s'.fFrameSize = 2 ∧ s'.fNumTruncatedBytes = 0
        ∧ s'.pending = Network.sampleSource.pending)
    ∧ (∃ s', Network.getFrames Network.sampleSource [7, 8] = some s'
        ∧ s'.delivered.map Network.Delivery.data
            = Network.sampleSource.delivered.map Network.Delivery.data
                ++ Network.sampleSource.queue.unread.map Network.Frame.buffer
        ∧ s'.queue.unread = [] ∧ s'.pending = Network.sampleSource.pending)
    ∧ (Network.sampleSource.queue.produce { buffer := [6] }).unread
        = Network.sampleSource.queue.unread ++ [{ buffer := [6] }] :=
  ⟨(Network.doGetNextFrame_delivers_in_order Network.sampleDrained (by decide)).1
      (by decide),
   (Network.doGetNextFrame_delivers_in_order Network.sampleSource (by decide)).2.1
      { buffer := [1, 2] } 7 (by decide) (by decide),
   (Network.doGetNextFrame_delivers_in_order Network.sampleSource (by decide)).2.2.1
      [7, 8] (by decide) (by decide),
   (Network.doGetNextFrame_delivers_in_order Network.sampleSource (by decide)).2.2.2
      { buffer := [6] } (by decide)⟩

/-- C14: in a state whose paths table has distinct keys and in which exactly one
registered path, `(pid, p)`, has `encoderID` as the first element of its
intermediate list, a reconfigAudioEncoder event that responds with error null
leaves the number of registered paths unchanged: the paths table on return is
the old one with the entry `pid` erased and one new entry `pathRand -> newPath`
inserted, where `pathRand` was not a key of the erased table, and the new path
has the transmitter as its destination filter and the new encoder as its only
intermediate filter. -/
theorem reconfigAudioEncoderEvent_replaces_path (w w' : World) (ps : List (String × JValue))
    (pathID0 : Int) (path0 : Ptr) (encoderRand pathRand : Int) (pid : Int) (p : Ptr)
    (hnodup : w.paths.keys.Nodup)
    (hone : w.paths.filter (headsPath w (Get ps "encoderID").ToInt) = [(pid, p)])
    (hres : reconfigAudioEncoderEvent w (some ps) pathID0 path0 encoderRand pathRand
      = some (none, w')) :
    w'.paths.length = w.paths.length
      ∧ w.paths.find pid = some p
      ∧ ∃ (newPath : Ptr) (npa : Path),
          w'.paths = (w.paths.erase pid).insert pathRand newPath
          ∧ (∀ k, w'.paths.find k
              = if k = pathRand then some newPath else if k = pid then none else w.paths.find k)
          ∧ w'.pathAt newPath = some npa
          ∧ npa.destinationFilterID = w.transmitterID
          ∧ npa.filters = [encoderRand] := by
  unfold reconfigAudioEncoderEvent at hres
  cases hT : getTransmitter w with
  | none => simp [hT] at hres
  | some r0 =>
    obtain ⟨tr, w0⟩ := r0
    have s0 := getTransmitter_steady w w0 tr hT
    simp only [hT] at hres
    split at hres
    · simp at hres
    · cases hF : findEncoderPath w0 (Get ps "encoderID").ToInt w0.paths (pathID0, path0) with
      | none => simp [hF] at hres
      | some r1 =>
        obtain ⟨pathID, path⟩ := r1
        simp only [hF] at hres
        rw [findEncoderPath_congr w w0 _ s0.2.1, s0.1] at hF
        have hl := findEncoderPath_last w _ _ _ _ hF
        rw [hone] at hl
        simp only [List.getLast?_singleton, Option.getD_some, Prod.mk.injEq] at hl
        obtain ⟨e1, e2⟩ := hl
        subst e1; subst e2
        split at hres
        · simp at hres
        · cases hpa : w0.pathAt path with
          | none => simp [hpa] at hres
          | some pa =>
            simp only [hpa] at hres
            cases hR : removePath w0 pathID with
            | none => simp [hR] at hres
            | some r2 =>
              obtain ⟨b, w1⟩ := r2
              cases b with
              | false => simp [hR] at hres
              | true =>
                simp only [hR] at hres
                have s1 := removePath_ids w0 w1 pathID hR
                cases hW : BaseFilter.generateWriterID w1 (getFilter w1 pa.originFilterID) with
                | none => simp [hW] at hres
                | some r3 =>
                  obtain ⟨writer, w2⟩ := r3
                  have s2 := BaseFilter.generateWriterID_steady w1 _ _ hW
                  simp only [hW] at hres
                  have s3 := newAudioEncoderPath_spec w2 pa.originFilterID writer encoderRand
                  generalize newAudioEncoderPath w2 pa.originFilterID writer encoderRand = r4
                    at hres s3
                  obtain ⟨newPath, w3⟩ := r4
                  simp only at hres s3
                  simp only [s3.2.2] at hres
                  cases hC : castAudioEncoder w3 (getFilter w3 encoderRand) with
                  | none => simp [hC] at hres
                  | some encoder =>
                    simp only [hC] at hres
                    cases hG : AudioEncoderLibav.configure w3 encoder with
                    | none => simp [hG] at hres
                    | some w4 =>
                      simp only [hG] at hres
                      have e4 : w4 = w3 := by
                        unfold AudioEncoderLibav.configure at hG
                        split at hG
                        · simp at hG
                        · simpa using hG.symm
                      subst e4
                      cases hRd : BaseFilter.generateReaderID w4 tr with
                      | none => simp [hRd] at hres
                      | some r5 =>
                        obtain ⟨reader, w5⟩ := r5
                        have s5 := BaseFilter.generateReaderID_steady w4 _ _ hRd
                        simp only [hRd] at hres
                        have e5 : w5.pathObjs = w4.pathObjs := s5.2.1
                        have hp5 : w5.pathAt newPath = w4.pathAt newPath := by
                          simp only [World.pathAt, e5]
                        rw [s3.2.2] at hp5
                        cases hD : Path.setDestinationFilter w5 newPath w5.transmitterID reader with
                        | none => simp [hD] at hres
                        | some w6 =>
                          simp only [hD] at hres
                          have s6 := Path.setDestinationFilter_spec w5 w6 newPath _ _ _ hp5 hD
                          cases hCP : connectPath w6 newPath with
                          | none => simp [hCP] at hres
                          | some r7 =>
                            obtain ⟨b7, w7⟩ := r7
                            cases b7 with
                            | false => simp [hCP] at hres
                            | true =>
                              simp only [hCP] at hres
                              have s7 := connectPath_steady w6 newPath true w7 hCP
                              have e7 : w7.pathObjs = w6.pathObjs := s7.2.1
                              have hp7 : w7.pathAt newPath = w6.pathAt newPath := by
                                simp only [World.pathAt, e7]
                              rw [s6.2.2] at hp7
                              unfold addPath at hres
                              by_cases hcnt : w7.paths.count pathRand > 0
                              · simp [hcnt] at hres
                              · simp only [hcnt, if_false, Option.some.injEq, Prod.mk.injEq,
                                  true_and] at hres
                                subst hres
                                have hpaths : w7.paths = w.paths.erase pathID := by
                                  rw [s7.1, s6.1, s5.1, s3.1, s2.1, s1.1, s0.1]
                                have htr : w7.transmitterID = w.transmitterID := by
                                  rw [s7.2.2.1, s6.2.1, s5.2.2.1, s3.2.1, s2.2.2.1, s1.2.1,
                                    s0.2.2.1]
                                have htr5 : w5.transmitterID = w.transmitterID := by
                                  rw [s5.2.2.1, s3.2.1, s2.2.2.1, s1.2.1, s0.2.2.1]
                                have hmem : (pathID, path) ∈ w.paths := by
                                  have : (pathID, path) ∈
                                      w.paths.filter (headsPath w (Get ps "encoderID").ToInt) := by
                                    rw [hone]; simp
                                  exact (List.mem_filter.mp this).1
                                have hkey : pathID ∈ Table.keys w.paths :=
                                  List.mem_map_of_mem Prod.fst hmem
                                have hnone : (w.paths.erase pathID).find pathRand = none := by
                                  rw [← hpaths]
                                  exact (Table.count_eq_zero_iff _ _).mp hcnt
                                refine ⟨?_, ?_, newPath, _, ?_, ?_, hp7, htr5, rfl⟩
                                · show (w7.paths.insert pathRand newPath).length = _
                                  rw [hpaths, Table.length_insert_of_find_none _ _ _ hnone]
                                  exact Table.length_erase_of_nodup _ _ hnodup hkey
                                · exact Table.find_of_mem_nodup _ _ _ hnodup hmem
                                · show w7.paths.insert pathRand newPath = _
                                  rw [hpaths]
                                · intro k
                                  show (w7.paths.insert pathRand newPath).find k = _
                                  rw [hpaths, Table.find_insert, Table.find_erase]

/-- Witness of C14: the event for encoder 11 on `encoderWorld`, where path 100
(object 8) is the one path headed by 11; the new path is registered under 101. -/
theorem reconfigAudioEncoderEvent_replaces_path_witness :
    encoderReconfigured.paths.length = encoderWorld.paths.length
      ∧ encoderWorld.paths.find 100 = some 8
      ∧ ∃ (newPath : Ptr) (npa : Path),
          encoderReconfigured.paths = (encoderWorld.paths.erase 100).insert 101 newPath
          ∧ (∀ k, encoderReconfigured.paths.find k
              = if k = 101 then some newPath else if k = 100 then none
                else encoderWorld.paths.find k)
          ∧ encoderReconfigured.pathAt newPath = some npa
          ∧ npa.destinationFilterID = encoderWorld.transmitterID
          ∧ npa.filters = [12] :=
  reconfigAudioEncoderEvent_replaces_path encoderWorld encoderReconfigured (encoderParams 11)
    0 0 12 101 100 8 (by decide) (by decide) rfl

/-- C15 (refuted): with all four parameters and encoder 12, which heads no
registered path.  On `directWorld`, whose registered path has an empty
intermediate list, the loop reads `front()` of an empty vector: the event has no
defined result, whatever the locals and the `rand()` values are.  On
`encoderWorld` the loop assigns nothing and `path` is read without a value: when
it happens to be null the event answers "Error reconfiguring audio encoder" and
leaves the three tables unchanged; when the locals hold the stale values 100 and
object 8 the event removes path 100 with its encoder 11, registers a new path
under 101 and answers null; when `path` holds the dangling address 77 the event
dereferences it. -/
theorem reconfigAudioEncoderEvent_unmatched_encoder :
    (∀ (pathID0 : Int) (path0 : Ptr) (encoderRand pathRand : Int),
        reconfigAudioEncoderEvent directWorld (some (encoderParams 12)) pathID0 path0
          encoderRand pathRand = none)
      ∧ (reconfigAudioEncoderEvent encoderWorld (some (encoderParams 12)) 0 0 12 101).map
          (fun r => (r.1, r.2.filters, r.2.paths))
          = some (some "Error reconfiguring audio encoder", encoderWorld.filters,
              encoderWorld.paths)
      ∧ (reconfigAudioEncoderEvent encoderWorld (some (encoderParams 12)) 0 0 12 101).map
          (fun r => r.2.workers) = some encoderWorld.workers
      ∧ encoderWorld.paths = [(100, 8)]
      ∧ (reconfigAudioEncoderEvent encoderWorld (some (encoderParams 12)) 100 8 12 101).map
          (fun r => (r.1, r.2.filters, r.2.paths))
          = some (none, [(1, 5), (12, 11), (1000, 1), (2000, 2)], [(101, 12)])
      ∧ reconfigAudioEncoderEvent encoderWorld (some (encoderParams 12)) 100 77 12 101
          = none := by
  exact ⟨fun _ _ _ _ => rfl, by decide, by decide, by decide, by decide, rfl⟩

/-- C21 (refuted): for a registered path whose intermediate list is empty,
removePath returns false and changes nothing when the origin or the destination
is not registered, and otherwise has no defined result: deletePath reads
`pathFilters.front()` of the empty list for its first disconnect.  It returns
success in no state. -/
theorem removePath_direct_path_reads_front (w : World) (id : Int) (pa : Path)
    (hp : w.pathAt (getPath w id) = some pa) (he : pa.filters = []) :
    removePath w id
      = if w.filters.count pa.originFilterID ≤ 0 ∨ w.filters.count pa.destinationFilterID ≤ 0
        then some (false, w) else none := by
  have h0 : getPath w id ≠ 0 := by
    intro e
    rw [e, World.pathAt] at hp
    simp at hp
  unfold removePath deletePath
  simp only [h0, if_false, hp, he, List.any_nil, Bool.false_eq_true]
  by_cases hc : w.filters.count pa.originFilterID ≤ 0
      ∨ w.filters.count pa.destinationFilterID ≤ 0
  · simp only [hc, if_true]
  · simp only [hc, if_false]

/-- Witness of C21: on `directWorld` the direct path 1 -> 2000 registered under
100 has both endpoints registered, and removePath(100) has no defined result. -/
theorem removePath_direct_path_reads_front_witness :
    directWorld.pathAt (getPath directWorld 100)
        = some { originFilterID := 1, destinationFilterID := 2000, orgWriterID := 2,
                 dstReaderID := 2, filters := [], shared := false }
      ∧ removePath directWorld 100 = none :=
  ⟨by decide,
   (removePath_direct_path_reads_front directWorld 100
      { originFilterID := 1, destinationFilterID := 2000, orgWriterID := 2,
        dstReaderID := 2, filters := [], shared := false } (by decide) rfl).trans
     (if_neg (by decide))⟩

/-- C22 (refuted): when both IDs are registered and addFilterToWorker returns
false, which is when the worker's addProcessor rejects the filter, the filter's
recorded worker ID on return is the `workerId` of the call, whatever it was
before: setWorkerId has run before addProcessor.  The tables and the workers'
processor sets are as before. -/
theorem addFilterToWorker_false_records_worker (w w' : World) (workerId filterId : Int)
    (hfc : w.filters.count filterId > 0) (hwc : w.workers.count workerId > 0)
    (h : addFilterToWorker w workerId filterId = some (false, w')) :
    BaseFilter.getWorkerId w' (getFilter w' filterId) = some workerId
      ∧ w'.filters = w.filters ∧ w'.workers = w.workers ∧ w'.workerObjs = w.workerObjs := by
  have hf : filterId ∈ w.filters.keys := (Table.count_pos_iff_mem _ _).mp hfc
  have hw : workerId ∈ w.workers.keys := (Table.count_pos_iff_mem _ _).mp hwc
  have hc : ¬ (w.filters.count filterId ≤ 0 ∨ w.workers.count workerId ≤ 0) := by omega
  unfold addFilterToWorker at h
  simp only [hc, if_false, World.filtersIndex_of_mem w _ hf] at h
  unfold BaseFilter.setWorkerId at h
  cases hfo : w.filterAt (w.filters.ptr filterId) with
  | none => simp [hfo] at h
  | some fo =>
    simp only [hfo] at h
    have hw2 : workerId ∈ (w.setFilter (w.filters.ptr filterId)
        (some { fo with workerId := workerId })).workers.keys := hw
    have hf2 : filterId ∈ (w.setFilter (w.filters.ptr filterId)
        (some { fo with workerId := workerId })).filters.keys := hf
    simp only [World.workersIndex_of_mem _ _ hw2, World.filtersIndex_of_mem _ _ hf2] at h
    have hfp0 : w.filters.ptr filterId ≠ 0 := by
      intro h0
      rw [h0, World.filterAt_zero] at hfo
      exact absurd hfo (by simp)
    generalize hw2def : w.setFilter (w.filters.ptr filterId)
        (some { fo with workerId := workerId }) = w2 at h
    have e_filters : w2.filters = w.filters := by rw [← hw2def]; rfl
    have e_workers : w2.workers = w.workers := by rw [← hw2def]; rfl
    have e_wobjs : w2.workerObjs = w.workerObjs := by rw [← hw2def]; rfl
    unfold Worker.addProcessor at h
    rw [e_workers, e_filters] at h
    cases hx : w2.workerAt (w.workers.ptr workerId) with
    | none => simp [hx] at h
    | some x =>
      simp only [hx] at h
      by_cases hcnt : x.processors.count filterId > 0
      · simp only [hcnt, if_true, Bool.not_false, Option.some.injEq, Prod.mk.injEq,
          true_and] at h
        subst h
        refine ⟨?_, e_filters, e_workers, e_wobjs⟩
        have hg : getFilter w2 filterId = w.filters.ptr filterId := by
          unfold getFilter
          rw [e_filters]
          have hc2 : ¬ w.filters.count filterId ≤ 0 := by omega
          simp only [hc2, if_false]
          have h1 := (Table.index_of_mem _ _ hf).2
          rw [Table.ptr_of_mem _ _ hf] at h1
          exact (Option.some.inj h1).symm
        rw [hg]
        unfold BaseFilter.getWorkerId
        rw [← hw2def, World.filterAt_setFilter]
        simp [hfp0]
      · simp [hcnt] at h

/-- Witness of C22: filter 10 is in the sets of workers 7 and 8 and records worker
8; addFilterToWorker(7, 10) returns false and the filter records worker 7. -/
theorem addFilterToWorker_false_records_worker_witness :
    BaseFilter.getWorkerId twiceAssigned (getFilter twiceAssigned 10) = some 8
      ∧ addFilterToWorker twiceAssigned 7 10 = some (false, reassigned)
      ∧ (BaseFilter.getWorkerId reassigned (getFilter reassigned 10) = some 7
          ∧ reassigned.filters = twiceAssigned.filters
          ∧ reassigned.workers = twiceAssigned.workers
          ∧ reassigned.workerObjs = twiceAssigned.workerObjs) :=
  ⟨by decide, rfl,
   addFilterToWorker_false_records_worker twiceAssigned reassigned 7 10
     (by decide) (by decide) rfl⟩

/-- C23 (refuted): when the front frame is longer than `fMaxSize`, doGetNextFrame
still copies the whole buffer to `fTo`: if the region at `fTo` holds it, all its
bytes are written, the frame size reported is the buffer length, above
`fMaxSize`, and the truncated bytes reported are zero; if the region does not
hold it the copy runs past its end and the call has no defined result. -/
theorem Network.doGetNextFrame_ignores_capacity (s : Network.QueueSource)
    (f : Network.Frame) (now : Nat)
    (hf : s.queue.getFront = some f) (hbig : s.fMaxSize < f.buffer.length) :
    (f.buffer.length ≤ s.fTo.length →
        ∃ s', Network.doGetNextFrame s now = some s'
          ∧ s'.fTo.take f.buffer.length = f.buffer
          ∧ s'.fFrameSize = f.buffer.length
          ∧ s'.fMaxSize < s'.fFrameSize
          ∧ s'.fNumTruncatedBytes = 0
          ∧ s'.delivered = s.delivered ++
              [{ data := f.buffer, frameSize := f.buffer.length, numTruncatedBytes := 0,
                 presentationTime := now }])
    ∧ (s.fTo.length < f.buffer.length → Network.doGetNextFrame s now = none) := by
  refine ⟨?_, ?_⟩
  · intro hfit
    obtain ⟨r, hr, _, htake⟩ := Network.memcpy_fits s.fTo f.buffer hfit
    refine ⟨Network.afterGetting
        { s with frame := some f, fTo := r, fFrameSize := f.buffer.length,
                 fPresentationTime := now, fNumTruncatedBytes := 0,
                 queue := s.queue.removeFrame },
      by simp only [Network.doGetNextFrame, hf, hr], htake, rfl, hbig, rfl, ?_⟩
    simp [Network.afterGetting, htake]
  · intro hover
    have hn : ¬ f.buffer.length ≤ s.fTo.length := by omega
    simp only [Network.doGetNextFrame, hf, Network.memcpy, hn, if_false]

/-- Witness of C23: the front frame [1, 2] with `fMaxSize` 1, on a region of four
bytes and on a region of one byte. -/
theorem Network.doGetNextFrame_ignores_capacity_witness :
    (∃ s', Network.doGetNextFrame Network.sampleOversize 7 = some s'
        ∧ s'.fTo.take 2 = [1, 2]
        ∧ s'.fFrameSize = 2
        ∧ s'.fMaxSize < s'.fFrameSize
        ∧ s'.fNumTruncatedBytes = 0
        ∧ s'.delivered = [{ data := [1, 2], frameSize := 2, numTruncatedBytes := 0,
                            presentationTime := 7 }])
    ∧ Network.doGetNextFrame Network.sampleOverflow 7 = none :=
  ⟨(Network.doGetNextFrame_ignores_capacity Network.sampleOversize { buffer := [1, 2] } 7
      (by decide) (by decide)).1 (by decide),
   (Network.doGetNextFrame_ignores_capacity Network.sampleOverflow { buffer := [1, 2] } 7
      (by decide) (by decide)).2 (by decide)⟩

end LMS
